import Mathlib

/-!
Shallow embedding of `src/cassette/main.js` (thequotes): the deterministic
seeded placement engine and the fixed-step rigid-body simulation.

JavaScript numbers are modelled as real numbers (`ℝ`); the 32-bit integer
arithmetic of the seeded RNG (mulberry32) is modelled exactly on `ℕ`
modulo `2^32`.  Loops with early `return`/`continue` become structural
recursions; mutable module state (`bodies`, `nextBodyId`,
`physicsEnabled`, world bounds) is threaded through a `WorldState`
record; the color-exchange flag is a parameter of the physics step.
-/

namespace Cassette

noncomputable section

/-- A 2D vector, as the `{x, y}` objects of the source. -/
structure Vec2 where
  x : ℝ
  y : ℝ

/-- Shape kinds appearing in the program (`'circle' | 'rect' | 'tri'`). -/
inductive ShapeType where
  | circle
  | rect
  | tri
deriving DecidableEq

/-- A rigid body, holding the physics-relevant fields the source stores on
its body objects (`mesh.position`/`mesh.rotation.z` become `pos`/`rot`).
`speedScale` starts `0`, mirroring the field being absent (falsy) until
`createShapes` assigns it. -/
structure Body where
  id : ℕ
  localVerts : List Vec2
  pos : Vec2
  rot : ℝ
  boundingRadius : ℝ
  contactRadius : ℝ
  mass : ℝ
  invMass : ℝ
  velocity : Vec2
  angularVelocity : ℝ
  shapeType : ShapeType
  colorIndex : ℕ
  isDragged : Bool
  speedScale : ℝ

/-- The module-level mutable state of `main.js` that the placement engine
and simulation step read and write. -/
structure WorldState where
  bodies : List Body
  nextBodyId : ℕ
  physicsEnabled : Bool
  worldBoundsX : ℝ
  worldBoundsY : ℝ

/-- `Math.hypot(x, y)`. -/
def hypot (x y : ℝ) : ℝ := Real.sqrt (x ^ 2 + y ^ 2)

/-- `transformVerts(localVerts, posX, posY, rot)`: rotate then translate. -/
def transformVerts (localVerts : List Vec2) (posX posY rot : ℝ) : List Vec2 :=
  localVerts.map fun v =>
    ⟨v.x * Real.cos rot - v.y * Real.sin rot + posX,
     v.x * Real.sin rot + v.y * Real.cos rot + posY⟩

/-- `getWorldVertices(body)`. -/
def getWorldVertices (b : Body) : List Vec2 :=
  transformVerts b.localVerts b.pos.x b.pos.y b.rot

/-- A projection interval `{min, max}`. -/
structure Interval where
  min : ℝ
  max : ℝ

/-- `projectOntoAxis(verts, axis)`.  The source seeds the scan with
`±Infinity`; for the nonempty vertex lists the program uses this is the
same as seeding with the first vertex's projection. -/
def projectOntoAxis (verts : List Vec2) (axis : Vec2) : Interval :=
  match verts with
  | [] => ⟨0, 0⟩
  | v :: vs =>
    vs.foldl
      (fun acc w =>
        ⟨min acc.min (w.x * axis.x + w.y * axis.y),
         max acc.max (w.x * axis.x + w.y * axis.y)⟩)
      ⟨v.x * axis.x + v.y * axis.y, v.x * axis.x + v.y * axis.y⟩

/-- `overlapIntervals(a, b)`. -/
def overlapIntervals (a b : Interval) : ℝ :=
  min a.max b.max - max a.min b.min

/-- The edge list walked by `checkAxes`: `(v_i, v_{(i+1) mod n})`. -/
def edgesOf (verts : List Vec2) : List (Vec2 × Vec2) :=
  match verts with
  | [] => []
  | v :: vs => List.zip (v :: vs) (vs ++ [v])

/-- The normalized outward axis built from an edge `p → q`:
`axis = (-edge.y, edge.x) / len`. -/
def edgeAxis (p q : Vec2) : Vec2 :=
  let len := hypot (-(q.y - p.y)) (q.x - p.x)
  ⟨-(q.y - p.y) / len, (q.x - p.x) / len⟩

/-- The interval overlap of the two polygons on a given axis. -/
def overlapOn (vertsA vertsB : List Vec2) (axis : Vec2) : ℝ :=
  overlapIntervals (projectOntoAxis vertsA axis) (projectOntoAxis vertsB axis)

/-- The running `{normal, depth}` = `{bestAxis, minOverlap}` state. -/
structure SatResult where
  normal : Vec2
  depth : ℝ

/-- One iteration of the `checkAxes` loop: skip a zero-length edge,
abort (`none`) if the interval overlap is `≤ 0`, otherwise track the axis
of strictly smallest overlap. -/
def axisStep (vertsA vertsB : List Vec2) (p q : Vec2) (st : Option SatResult) :
    Option (Option SatResult) :=
  if hypot (-(q.y - p.y)) (q.x - p.x) = 0 then some st
  else
    let axis := edgeAxis p q
    let o := overlapOn vertsA vertsB axis
    if o ≤ 0 then none
    else
      some (match st with
        | none => some ⟨axis, o⟩
        | some r => if o < r.depth then some ⟨axis, o⟩ else some r)

/-- The `checkAxes` loop over a list of edges, threading the shared
`minOverlap`/`bestAxis` state; `none` is the early `return false`. -/
def checkAxes (vertsA vertsB : List Vec2) :
    List (Vec2 × Vec2) → Option SatResult → Option (Option SatResult)
  | [], st => some st
  | e :: rest, st =>
    match axisStep vertsA vertsB e.1 e.2 st with
    | none => none
    | some st' => checkAxes vertsA vertsB rest st'

/-- `polygonPolygonSAT(vertsA, vertsB)`.  Outer `none` is the JS `null`
return; `some none` is the degenerate `{normal: null, depth: Infinity}`
object produced when every edge of both polygons is zero-length. -/
def polygonPolygonSAT (vertsA vertsB : List Vec2) : Option (Option SatResult) :=
  (checkAxes vertsA vertsB (edgesOf vertsA) none).bind fun st =>
    checkAxes vertsA vertsB (edgesOf vertsB) st

/-- A zero-length edge (skipped by the SAT loop). -/
abbrev edgeDegenerate (p q : Vec2) : Prop :=
  hypot (-(q.y - p.y)) (q.x - p.x) = 0

/-- The normalized axes the SAT loop derives from a list of edges
(zero-length edges skipped). -/
def axesOfEdges (es : List (Vec2 × Vec2)) : List Vec2 :=
  (es.filter fun e => !decide (edgeDegenerate e.1 e.2)).map fun e =>
    edgeAxis e.1 e.2

/-- All axes `polygonPolygonSAT` tests: the edge normals of both
polygons, zero-length edges skipped. -/
def testedAxes (vertsA vertsB : List Vec2) : List Vec2 :=
  axesOfEdges (edgesOf vertsA ++ edgesOf vertsB)

/-- The invariant of the running `{bestAxis, minOverlap}` state after the
axes in `S` have been processed. -/
def SatInv (vertsA vertsB : List Vec2) (S : List Vec2) :
    Option SatResult → Prop
  | none => S = []
  | some r =>
    r.normal ∈ S ∧ r.depth = overlapOn vertsA vertsB r.normal ∧
      ∀ ax ∈ S, 0 < overlapOn vertsA vertsB ax ∧
        r.depth ≤ overlapOn vertsA vertsB ax

/-! ### Deterministic RNG (`createRng`, mulberry32), exact 32-bit model -/

/-- `2^32`. -/
def UINT32 : ℕ := 4294967296

/-- `Math.imul`: 32-bit wrapping multiplication (bit pattern is the same
for the signed JS view and this unsigned model). -/
def imul (a b : ℕ) : ℕ := (a * b) % UINT32

/-- `(h << 13) | (h >>> 19)`: rotate a 32-bit word left by 13. -/
def rotl13 (h : ℕ) : ℕ := ((h <<< 13) % UINT32) ||| (h >>> 19)

/-- One step of the seed-string hash in `createRng`:
`h = imul(h ^ code, 3432918353); h = (h << 13) | (h >>> 19)`. -/
def hashStep (h code : ℕ) : ℕ := rotl13 (imul (h ^^^ code) 3432918353)

/-- The seed hash of `createRng`: `h = 1779033703 ^ seedStr.length`, then
one `hashStep` per character code. -/
def hashSeedString (seed : String) : ℕ :=
  seed.data.foldl (fun h c => hashStep h c.toNat) ((1779033703 : ℕ) ^^^ seed.length)

/-- One call of the `mulberry32` closure: returns the new state `h` and
the 32-bit output word (the JS function returns `word / 2^32`). -/
def mulberry32Step (h : ℕ) : ℕ × ℕ :=
  let h1 := (h + 0x6d2b79f5) % UINT32
  let t1 := imul (h1 ^^^ (h1 >>> 15)) (1 ||| h1)
  let t2 := ((t1 + imul (t1 ^^^ (t1 >>> 7)) (61 ||| t1)) % UINT32) ^^^ t1
  (h1, t2 ^^^ (t2 >>> 14))

/-- `rng()`: the float in `[0, 1)` together with the advanced state. -/
def randR (h : ℕ) : ℝ × ℕ :=
  let s := mulberry32Step h
  ((s.2 : ℝ) / 4294967296, s.1)

/-! ### Body registry -/

/-- The body record built at every placement site of `placeMesh`
(`mass = boundingRadius * boundingRadius`, `invMass = 1 / mass`,
zero velocity and spin); `id` is assigned later by `registerBody`. -/
def mkPlacedBody (pos : Vec2) (rot : ℝ) (localVerts : List Vec2)
    (boundingRadius contactRadius : ℝ) (shapeType : ShapeType)
    (colorIndex : ℕ) : Body :=
  { id := 0
    localVerts := localVerts
    pos := pos
    rot := rot
    boundingRadius := boundingRadius
    contactRadius := contactRadius
    mass := boundingRadius * boundingRadius
    invMass := 1 / (boundingRadius * boundingRadius)
    velocity := ⟨0, 0⟩
    angularVelocity := 0
    shapeType := shapeType
    colorIndex := colorIndex
    isDragged := false
    speedScale := 0 }

/-- `registerBody` + `addBodyEntry`: assign `nextBodyId`, bump the
counter, push onto the body list. -/
def addBodyEntry (st : WorldState) (b : Body) : WorldState :=
  { st with
      bodies := st.bodies ++ [{ b with id := st.nextBodyId }]
      nextBodyId := st.nextBodyId + 1 }

/-! ### Placement engine (`placeMesh`) -/

/-- A scored placement candidate `{x, y, contacts, score}`. -/
structure Candidate where
  x : ℝ
  y : ℝ
  contacts : ℕ
  score : ℝ

/-- The per-existing-body rejection test inside `evaluateCandidate`:
circle–circle pairs use the center-distance tolerance
(`d < ideal - ideal*0.03`), every other pair uses SAT with depth
tolerance `0.002` (a degenerate `{null, Infinity}` SAT result has
`depth > 0.002` and rejects). -/
def rejectsBody (shapeType : ShapeType) (contactRadius : ℝ)
    (candidateVerts : List Vec2) (x y : ℝ) (body : Body) : Bool :=
  if shapeType = ShapeType.circle ∧ body.shapeType = ShapeType.circle then
    decide (hypot (body.pos.x - x) (body.pos.y - y) <
      (body.contactRadius + contactRadius) -
        (body.contactRadius + contactRadius) * 0.03)
  else
    match polygonPolygonSAT (getWorldVertices body) candidateVerts with
    | none => false
    | some none => true
    | some (some r) => decide (r.depth > 0.002)

/-- The `contacts` count of `evaluateCandidate`: bodies whose center
distance is within `3%` of the ideal contact distance. -/
def contactsOf (bodies : List Body) (contactRadius x y : ℝ) : ℕ :=
  (bodies.filter fun body =>
    decide (|hypot (body.pos.x - x) (body.pos.y - y) -
        (body.contactRadius + contactRadius)| ≤
      (body.contactRadius + contactRadius) * 0.03)).length

/-- The `minCenterDist` scan (seeded by the first body; the source seeds
with `Infinity`, equivalent on the nonempty lists it is used with). -/
def minCenterDistOf (bodies : List Body) (x y : ℝ) : ℝ :=
  match bodies with
  | [] => 0
  | b :: rest =>
    rest.foldl (fun m body => min m (hypot (body.pos.x - x) (body.pos.y - y)))
      (hypot (b.pos.x - x) (b.pos.y - y))

/-- The `minGap` scan: smallest `|d - idealContact|` over existing bodies. -/
def minGapOf (bodies : List Body) (contactRadius x y : ℝ) : ℝ :=
  match bodies with
  | [] => 0
  | b :: rest =>
    rest.foldl
      (fun m body =>
        min m (|hypot (body.pos.x - x) (body.pos.y - y) -
          (body.contactRadius + contactRadius)|))
      (|hypot (b.pos.x - x) (b.pos.y - y) - (b.contactRadius + contactRadius)|)

/-- `evaluateCandidate(x, y)`: reject if any transformed vertex leaves the
bounds (margin `0.001`) or any existing body overlap test fires; otherwise
score the candidate (`idealGap = 0.0003`, distance penalty `0.02`). -/
def evaluateCandidate (bodies : List Body) (bX bY : ℝ) (localVerts : List Vec2)
    (rot : ℝ) (shapeType : ShapeType) (contactRadius x y : ℝ) :
    Option Candidate :=
  let candidateVerts := transformVerts localVerts x y rot
  if candidateVerts.any (fun v =>
      decide (v.x < -bX + 0.001 ∨ v.x > bX - 0.001 ∨
        v.y < -bY + 0.001 ∨ v.y > bY - 0.001)) then
    none
  else if bodies.any (rejectsBody shapeType contactRadius candidateVerts x y) then
    none
  else
    let minGap := minGapOf bodies contactRadius x y
    let gapScore := |minGap - 0.0003|
    some ⟨x, y, contactsOf bodies contactRadius x y,
      gapScore + minCenterDistOf bodies x y * 0.02⟩

/-- The ordered `i < j` pairs walked by the two-tangent candidate loop. -/
def listPairs {α : Type} : List α → List (α × α)
  | [] => []
  | x :: xs => (xs.map fun y => (x, y)) ++ listPairs xs

/-- The up-to-two points simultaneously tangent to bodies `a` and `b`
(circle-intersection construction with radii
`RA = a.contactRadius + cr`, `RB = b.contactRadius + cr`), in the order
the source pushes them. -/
def twoTangentPoints (cr : ℝ) (a b : Body) : List Vec2 :=
  let dx := b.pos.x - a.pos.x
  let dy := b.pos.y - a.pos.y
  let d := hypot dx dy
  if d = 0 then []
  else
    let RA := a.contactRadius + cr
    let RB := b.contactRadius + cr
    if d > RA + RB ∨ d < |RA - RB| then []
    else
      let ex := dx / d
      let ey := dy / d
      let aLen := (RA * RA - RB * RB + d * d) / (2 * d)
      let h2 := RA * RA - aLen * aLen
      if h2 < 0 then []
      else
        let h := Real.sqrt h2
        let x0 := a.pos.x + ex * aLen
        let y0 := a.pos.y + ey * aLen
        [⟨x0 + -ey * h, y0 + ex * h⟩, ⟨x0 - -ey * h, y0 - ex * h⟩]

/-- Candidate tier 1: tangency to two existing bodies. -/
def tier1 (bodies : List Body) (bX bY : ℝ) (localVerts : List Vec2)
    (rot : ℝ) (shapeType : ShapeType) (cr : ℝ) : List Candidate :=
  if 2 ≤ bodies.length then
    (listPairs bodies).flatMap fun p =>
      (twoTangentPoints cr p.1 p.2).filterMap fun c =>
        evaluateCandidate bodies bX bY localVerts rot shapeType cr c.x c.y
  else []

/-- Candidate tier 2: 96 samples on the tangent circle around each body. -/
def tier2 (bodies : List Body) (bX bY : ℝ) (localVerts : List Vec2)
    (rot : ℝ) (shapeType : ShapeType) (cr : ℝ) : List Candidate :=
  bodies.flatMap fun body =>
    (List.range 96).filterMap fun k =>
      let angle := 2 * Real.pi * k / 96
      let R := body.contactRadius + cr
      evaluateCandidate bodies bX bY localVerts rot shapeType cr
        (body.pos.x + Real.cos angle * R) (body.pos.y + Real.sin angle * R)

/-- The arithmetic progression walked by a `for (v = lo; v <= hi; v += step)`
loop (the program only runs it with `step > 0`). -/
def gridCoords (lo hi step : ℝ) : List ℝ :=
  if 0 < step ∧ lo ≤ hi then
    (List.range ((⌊(hi - lo) / step⌋).toNat + 1)).map fun k => lo + k * step
  else []

/-- Candidate tier 3: the dense grid fallback (step `contactRadius * 0.6`). -/
def tier3 (bodies : List Body) (bX bY : ℝ) (localVerts : List Vec2)
    (rot : ℝ) (shapeType : ShapeType) (cr : ℝ) : List Candidate :=
  (gridCoords (-bY + cr) (bY - cr) (cr * 0.6)).flatMap fun y =>
    (gridCoords (-bX + cr) (bX - cr) (cr * 0.6)).filterMap fun x =>
      evaluateCandidate bodies bX bY localVerts rot shapeType cr x y

/-- The selection loop with the `requiredContacts` filter: keeps the first
candidate of strictly smallest score among those with enough contacts. -/
def pickBest (req : ℕ) (cs : List Candidate) : Option Candidate :=
  cs.foldl
    (fun best c =>
      if c.contacts < req then best
      else
        match best with
        | none => some c
        | some b => if c.score < b.score then some c else some b)
    none

/-- The fallback selection loop without the contacts filter. -/
def pickFirstMin (cs : List Candidate) : Option Candidate :=
  cs.foldl
    (fun best c =>
      match best with
      | none => some c
      | some b => if c.score < b.score then some c else some b)
    none

/-- `maxContacts` scan of the selection phase. -/
def maxContactsOf (cs : List Candidate) : ℕ :=
  cs.foldl (fun m c => max m c.contacts) 0

/-- The two candidate centers of the third-circle special case, in source
order (`{x0 - ey*h, y0 + ex*h}` then `{x0 + ey*h, y0 - ex*h}`). -/
def thirdCircleCandidates (a b : Body) (r3 : ℝ) : List Vec2 :=
  let dx := b.pos.x - a.pos.x
  let dy := b.pos.y - a.pos.y
  let d := hypot dx dy
  let RA := a.contactRadius + r3
  let RB := b.contactRadius + r3
  let ex := dx / d
  let ey := dy / d
  let aLen := (RA * RA - RB * RB + d * d) / (2 * d)
  let h := Real.sqrt (RA * RA - aLen * aLen)
  let x0 := a.pos.x + ex * aLen
  let y0 := a.pos.y + ey * aLen
  [⟨x0 - ey * h, y0 + ex * h⟩, ⟨x0 + ey * h, y0 - ex * h⟩]

/-- The candidate loop of the third-circle special case: skip a candidate
that leaves the bounds (`marginLocal = 0.001`) or misses tangency by more
than `4%` of the respective ideal distance; accept the first survivor. -/
def firstTangentCandidate (a b : Body) (r3 bX bY : ℝ) :
    List Vec2 → Option Vec2
  | [] => none
  | c :: rest =>
    if c.x - r3 < -bX + 0.001 ∨ c.x + r3 > bX - 0.001 ∨
        c.y - r3 < -bY + 0.001 ∨ c.y + r3 > bY - 0.001 then
      firstTangentCandidate a b r3 bX bY rest
    else
      let d1 := hypot (c.x - a.pos.x) (c.y - a.pos.y)
      let d2 := hypot (c.x - b.pos.x) (c.y - b.pos.y)
      let ideal1 := a.contactRadius + r3
      let ideal2 := b.contactRadius + r3
      if |d1 - ideal1| > ideal1 * 0.04 ∨ |d2 - ideal2| > ideal2 * 0.04 then
        firstTangentCandidate a b r3 bX bY rest
      else some c

/-- The third-circle special case of `placeMesh`: guards
`d > 1e-6`, `|RA - RB| ≤ d ≤ RA + RB`, `h2 ≥ 0`, then the candidate loop. -/
def thirdCirclePoint (a b : Body) (r3 bX bY : ℝ) : Option Vec2 :=
  let dx := b.pos.x - a.pos.x
  let dy := b.pos.y - a.pos.y
  let d := hypot dx dy
  if d > 1e-6 then
    let RA := a.contactRadius + r3
    let RB := b.contactRadius + r3
    if d ≤ RA + RB ∧ d ≥ |RA - RB| then
      let aLen := (RA * RA - RB * RB + d * d) / (2 * d)
      if RA * RA - aLen * aLen ≥ 0 then
        firstTangentCandidate a b r3 bX bY (thirdCircleCandidates a b r3)
      else none
    else none
  else none

/-- The general candidate search of `placeMesh` (tiers in order, then the
contact-count/score selection), returning the chosen center. -/
def generalPlacePoint (bodies : List Body) (bX bY : ℝ)
    (localVerts : List Vec2) (rot : ℝ) (shapeType : ShapeType) (cr : ℝ) :
    Option Candidate :=
  let c1 := tier1 bodies bX bY localVerts rot shapeType cr
  let cs :=
    if c1.isEmpty then
      let c2 := tier2 bodies bX bY localVerts rot shapeType cr
      if c2.isEmpty then tier3 bodies bX bY localVerts rot shapeType cr
      else c2
    else c1
  if cs.isEmpty then none
  else
    let req : ℕ :=
      if 2 ≤ bodies.length ∧ 2 ≤ maxContactsOf cs then 2 else 1
    match pickBest req cs with
    | some best => some best
    | none => pickFirstMin cs

/-- The third-circle special case as `placeMesh` guards it: only for a
circle arriving while exactly two bodies exist and both are circles. -/
def specialPoint (st : WorldState) (shapeType : ShapeType)
    (contactRadius : ℝ) : Option Vec2 :=
  match st.bodies with
  | [a, b] =>
    if shapeType = ShapeType.circle ∧ a.shapeType = ShapeType.circle ∧
        b.shapeType = ShapeType.circle then
      thirdCirclePoint a b contactRadius st.worldBoundsX st.worldBoundsY
    else none
  | _ => none

/-- The center `placeMesh` decides on (`none` = `return false`): the
origin for the first shape, the third-circle special case, then the
general candidate search. -/
def placePoint (st : WorldState) (rot boundingRadius : ℝ)
    (localVerts : List Vec2) (shapeType : ShapeType) (contactRadius : ℝ) :
    Option Vec2 :=
  if st.bodies.isEmpty then
    if (0 : ℝ) - boundingRadius < -st.worldBoundsX ∨
        (0 : ℝ) + boundingRadius > st.worldBoundsX ∨
        (0 : ℝ) - boundingRadius < -st.worldBoundsY ∨
        (0 : ℝ) + boundingRadius > st.worldBoundsY then
      none
    else some ⟨0, 0⟩
  else
    match specialPoint st shapeType contactRadius with
    | some c => some c
    | none =>
      (generalPlacePoint st.bodies st.worldBoundsX st.worldBoundsY
        localVerts rot shapeType contactRadius).map fun best => ⟨best.x, best.y⟩

/-- `placeMesh(mesh, boundingRadius, localVerts, shapeType, contactRadius,
colorIndex)` with `rot = mesh.rotation.z` at call time: every successful
branch sets `mesh.position` to the decided center and registers the same
body record; `none` is the `return false` (shape skipped). -/
def placeMesh (st : WorldState) (rot boundingRadius : ℝ)
    (localVerts : List Vec2) (shapeType : ShapeType) (contactRadius : ℝ)
    (colorIndex : ℕ) : Option WorldState :=
  (placePoint st rot boundingRadius localVerts shapeType contactRadius).map
    fun p =>
      addBodyEntry st
        (mkPlacedBody p rot localVerts boundingRadius contactRadius
          shapeType colorIndex)

/-- The per-pair tolerance the placement engine enforces (read off
`rejectsBody`): a circle–circle pair keeps center distance at least the
sum of contact radii minus `3%` of it; any other pair is either SAT-
separated or has penetration depth at most `0.002`. `a` is the earlier
body, `x` the later one. -/
def placementTolOk (a x : Body) : Prop :=
  if x.shapeType = ShapeType.circle ∧ a.shapeType = ShapeType.circle then
    (a.contactRadius + x.contactRadius) -
        (a.contactRadius + x.contactRadius) * 0.03 ≤
      hypot (a.pos.x - x.pos.x) (a.pos.y - x.pos.y)
  else
    match polygonPolygonSAT (getWorldVertices a) (getWorldVertices x) with
    | none => True
    | some none => False
    | some (some r) => r.depth ≤ 0.002

/-! ### Composition building (`createShapes`, `regenerateComposition`) -/

/-- The kind of each entry of `COLOR_PRESETS` (10 presets, in order). -/
inductive PresetKind where
  | solid
  | gradient
deriving DecidableEq

/-- The kinds of the 10 entries of `COLOR_PRESETS`. -/
def COLOR_PRESETS : List PresetKind :=
  [PresetKind.solid, PresetKind.gradient, PresetKind.gradient,
   PresetKind.solid, PresetKind.gradient, PresetKind.solid,
   PresetKind.gradient, PresetKind.gradient, PresetKind.gradient,
   PresetKind.gradient]

/-- `randomColor()` consumes three RNG draws (`h`, `s`, `l`). -/
def randomColorRng (rs : ℕ) : ℕ := (randR (randR (randR rs).2).2).2

/-- The RNG consumption of `makeMaterialFromPreset`: solid and gradient
presets draw nothing; a missing preset falls back to `randomColor`. -/
def makeMaterialRng (preset : Option PresetKind) (rs : ℕ) : ℕ :=
  match preset with
  | some PresetKind.solid => rs
  | some PresetKind.gradient => rs
  | none => randomColorRng rs

/-- The RNG consumption of the triangle gradient construction: gradient
and solid presets draw nothing; otherwise `randomColor` is drawn once. -/
def triangleColorRng (preset : Option PresetKind) (rs : ℕ) : ℕ :=
  match preset with
  | some PresetKind.gradient => rs
  | some PresetKind.solid => rs
  | none => randomColorRng rs

/-- `takePresetIndex()`: one RNG draw picks a position in the remaining
pool, which is then removed (`splice`); an exhausted pool yields `0`. -/
def takePresetIndex (rs : ℕ) (avail : List ℕ) : ℕ × ℕ × List ℕ :=
  if avail.isEmpty then (0, rs, avail)
  else
    let r := randR rs
    let idx := ⌊r.1 * (avail.length : ℝ)⌋₊
    (avail.getD idx 0, r.2, avail.eraseIdx idx)

/-- The local vertices of an `addRect` rectangle with the given
half-extents. -/
def rectVerts (hw hh : ℝ) : List Vec2 :=
  [⟨-hw, -hh⟩, ⟨hw, -hh⟩, ⟨hw, hh⟩, ⟨-hw, hh⟩]

/-- The 20-gon approximating a circle of the given physical radius. -/
def circleVerts (physicalRadius : ℝ) : List Vec2 :=
  (List.range 20).map fun i =>
    ⟨Real.cos (((i : ℝ) / 20) * Real.pi * 2) * physicalRadius,
     Real.sin (((i : ℝ) / 20) * Real.pi * 2) * physicalRadius⟩

/-- The builder state while `createShapes` runs: RNG state, remaining
color-preset pool, world state. -/
structure BuildState where
  rs : ℕ
  avail : List ℕ
  st : WorldState

/-- `addCircle(radius)` (`scale = 1`): take a preset, build the material,
then a single `placeMesh` attempt at rotation `0`. -/
def addCircle (radius : ℝ) (s : BuildState) : BuildState :=
  let physicalRadius := radius * 1
  let t := takePresetIndex s.rs s.avail
  let rs1 := makeMaterialRng (COLOR_PRESETS.get? t.1) t.2.1
  let localVerts := circleVerts physicalRadius
  match placeMesh s.st 0 physicalRadius localVerts ShapeType.circle
      physicalRadius t.1 with
  | some st' => ⟨rs1, t.2.2, st'⟩
  | none => ⟨rs1, t.2.2, s.st⟩

/-- The rotation-retry loop shared by `addRect` and `addTriangle`: each
attempt draws one RNG value for `mesh.rotation.z = rng() * π * 2`. -/
def tryAttempts (st : WorldState) (boundingRadius : ℝ)
    (localVerts : List Vec2) (shapeType : ShapeType) (contactRadius : ℝ)
    (colorIndex : ℕ) : ℕ → ℕ → ℕ × WorldState
  | 0, rs => (rs, st)
  | n + 1, rs =>
    let r := randR rs
    match placeMesh st (r.1 * Real.pi * 2) boundingRadius localVerts
        shapeType contactRadius colorIndex with
    | some st' => (r.2, st')
    | none =>
      tryAttempts st boundingRadius localVerts shapeType contactRadius
        colorIndex n r.2

/-- `addRect(width, height)`: contact radius `min(hw, hh) * 0.7`, up to 12
rotation attempts.  `addSquare(size)` is `addRect(size, size)`. -/
def addRect (width height : ℝ) (s : BuildState) : BuildState :=
  let hw := width * 1 * 0.5
  let hh := height * 1 * 0.5
  let t := takePresetIndex s.rs s.avail
  let rs1 := makeMaterialRng (COLOR_PRESETS.get? t.1) t.2.1
  let localVerts : List Vec2 := rectVerts hw hh
  let boundingRadius := localVerts.foldl (fun r v => max r (hypot v.x v.y)) 0
  let contactRadius := min hw hh * 0.7
  let res := tryAttempts s.st boundingRadius localVerts ShapeType.rect
    contactRadius t.1 12 rs1
  ⟨res.1, t.2.2, res.2⟩

/-- `addTriangle(size)`: equilateral triangle, contact radius
`boundingRadius * 0.6`, up to 10 rotation attempts. -/
def addTriangle (size : ℝ) (s : BuildState) : BuildState :=
  let ps := size * 1
  let localVerts : List Vec2 :=
    [⟨0, ps⟩, ⟨-ps * 0.866, -ps * 0.5⟩, ⟨ps * 0.866, -ps * 0.5⟩]
  let t := takePresetIndex s.rs s.avail
  let rs1 := triangleColorRng (COLOR_PRESETS.get? t.1) t.2.1
  let boundingRadius := localVerts.foldl (fun r v => max r (hypot v.x v.y)) 0
  let contactRadius := boundingRadius * 0.6
  let res := tryAttempts s.st boundingRadius localVerts ShapeType.tri
    contactRadius t.1 10 rs1
  ⟨res.1, t.2.2, res.2⟩

/-- The post-placement finalization of one body: assign
`speedScale = 1.8 / (0.6 + max(0.3, r))`, a random velocity when the
stored one is zero (two draws), and a random spin (one draw). -/
def finalizeBody (rs : ℕ) (b : Body) : ℕ × Body :=
  let sizeNorm := max 0.3 b.boundingRadius
  let speedScale := 1.8 / (0.6 + sizeNorm)
  let b1 := { b with speedScale := speedScale }
  let spinBase : ℝ :=
    if b1.shapeType = ShapeType.rect ∨ b1.shapeType = ShapeType.tri ∨
        b1.shapeType = ShapeType.circle then 0.8 else 0.4
  if b1.velocity.x = 0 ∧ b1.velocity.y = 0 then
    let r1 := randR rs
    let r2 := randR r1.2
    let angle := r1.1 * Real.pi * 2
    let speed := (0.4 + r2.1 * 0.6) * 2 * speedScale
    let b2 := { b1 with
      velocity := ⟨Real.cos angle * speed, Real.sin angle * speed⟩ }
    let r3 := randR r2.2
    (r3.2, { b2 with
      angularVelocity := (r3.1 - 0.5) * spinBase * (speedScale * 1.1) })
  else
    let r3 := randR rs
    (r3.2, { b1 with
      angularVelocity := (r3.1 - 0.5) * spinBase * (speedScale * 1.1) })

/-- The `for (const body of bodies)` finalization loop, threading the RNG. -/
def finalizeList (rs : ℕ) : List Body → List Body
  | [] => []
  | b :: rest =>
    let r := finalizeBody rs b
    r.2 :: finalizeList r.1 rest

/-- `createShapes(rng, scene)`: the fixed shape sequence, then
`setPhysicsEnabled(true)` and the velocity/spin finalization pass. -/
def createShapes (rs0 : ℕ) (st0 : WorldState) : WorldState :=
  let s1 := addCircle 0.3 ⟨rs0, [0, 1, 2, 3, 4, 5, 6, 7, 8, 9], st0⟩
  let s2 := addRect 0.3 0.3 s1
  let s3 := addTriangle 0.3 s2
  let s4 := addRect 1 0.2 s3
  let s5 := addCircle 0.65 s4
  let s6 := addRect 0.8 0.8 s5
  let s7 := addRect 1 0.4 s6
  let s8 := addTriangle 1 s7
  let s9 := addCircle 0.8 s8
  let s10 := addRect 1.2 1.2 s9
  { s10.st with
      physicsEnabled := true
      bodies := finalizeList s10.rs s10.st.bodies }

/-- `regenerateComposition(seed)`: build the RNG from the seed, clear the
registry (`bodies.length = 0`, `setPhysicsEnabled(false)`,
`bodyById.clear()`, `nextBodyId = 1`), then rebuild via `createShapes`. -/
def regenerateComposition (st : WorldState) (seed : String) : WorldState :=
  createShapes (hashSeedString seed)
    { st with bodies := [], physicsEnabled := false, nextBodyId := 1 }

/-! ### Simulation step (`updatePhysics`) -/

/-- `globalSpeedFactor` of `updatePhysics`. -/
def globalSpeedFactor : ℝ := 1

/-- The integration-and-walls pass of `updatePhysics` on one body:
dragged bodies only damp velocity by `0.9`; otherwise integrate rotation,
damp spin and velocity exponentially, integrate position, and reflect off
each wall independently (clamping position to the bound). -/
def integrateBody (bX bY dt : ℝ) (b : Body) : Body :=
  if b.isDragged then
    { b with velocity := ⟨b.velocity.x * 0.9, b.velocity.y * 0.9⟩ }
  else
    let b1 :=
      if b.angularVelocity ≠ 0 then
        { b with
            rot := b.rot + b.angularVelocity * dt * globalSpeedFactor
            angularVelocity :=
              b.angularVelocity * (0.99 * Real.exp (-(0.8) * dt)) }
      else b
    let linearDrag := 0.998 * Real.exp (-(1.2) * dt)
    let vx := b1.velocity.x * linearDrag
    let vy := b1.velocity.y * linearDrag
    let px := b1.pos.x + vx * dt * globalSpeedFactor
    let py := b1.pos.y + vy * dt * globalSpeedFactor
    let r := b1.boundingRadius
    let wx : ℝ × ℝ :=
      if px - r < -bX then (-bX + r, vx * (-1))
      else if px + r > bX then (bX - r, vx * (-1))
      else (px, vx)
    let wy : ℝ × ℝ :=
      if py - r < -bY then (-bY + r, vy * (-1))
      else if py + r > bY then (bY - r, vy * (-1))
      else (py, vy)
    { b1 with pos := ⟨wx.1, wy.1⟩, velocity := ⟨wx.2, wy.2⟩ }

/-- `transferColorOnCollision(a, b)`: swap the two color-preset indices. -/
def transferColorOnCollision (a b : Body) : Body × Body :=
  ({ a with colorIndex := b.colorIndex }, { b with colorIndex := a.colorIndex })

/-- The collision normal after the orientation fix of `updatePhysics`:
flipped when it does not point from `a`'s center towards `b`'s. -/
def orientedNormal (a b : Body) (n : Vec2) : Vec2 :=
  if (b.pos.x - a.pos.x) * n.x + (b.pos.y - a.pos.y) * n.y < 0 then
    ⟨n.x * (-1), n.y * (-1)⟩
  else n

/-- The relative velocity of `b` with respect to `a` along an axis
(`velAlongNormal` of the source when the axis is the collision normal). -/
def relVelAlong (a b : Body) (n : Vec2) : ℝ :=
  (b.velocity.x - a.velocity.x) * n.x + (b.velocity.y - a.velocity.y) * n.y

/-- The body–body resolution for one pair `(a, b)`: SAT, orient the normal
from `a` to `b`, positional correction split by inverse mass (dragged
bodies count as immovable), then—when the pair is approaching—the
restitution-1 impulse, tangential spin transfer clamped to `±4`, and the
optional color swap. -/
def resolveBodies (colorTransferEnabled : Bool) (a b : Body) : Body × Body :=
  match polygonPolygonSAT (getWorldVertices a) (getWorldVertices b) with
  | none => (a, b)
  | some none => (a, b)
  | some (some res) =>
    let normal := orientedNormal a b res.normal
    let depth := res.depth
    let invMassA : ℝ := if a.isDragged then 0 else a.invMass
    let invMassB : ℝ := if b.isDragged then 0 else b.invMass
    let invMassSum := invMassA + invMassB
    if invMassSum = 0 then (a, b)
    else
      let correctionA := depth * (invMassA / invMassSum)
      let correctionB := depth * (invMassB / invMassSum)
      let a1 := { a with pos := ⟨a.pos.x - normal.x * correctionA,
        a.pos.y - normal.y * correctionA⟩ }
      let b1 := { b with pos := ⟨b.pos.x + normal.x * correctionB,
        b.pos.y + normal.y * correctionB⟩ }
      let rvx := b1.velocity.x - a1.velocity.x
      let rvy := b1.velocity.y - a1.velocity.y
      let velAlongNormal := rvx * normal.x + rvy * normal.y
      if velAlongNormal < 0 then
        let invMassA2 : ℝ := if a1.isDragged then 0 else a1.invMass
        let invMassB2 : ℝ := if b1.isDragged then 0 else b1.invMass
        let invMassSum2 := invMassA2 + invMassB2
        if invMassSum2 = 0 then (a1, b1)
        else
          let jImpulse := -(1 + 1) * velAlongNormal / invMassSum2
          let impulseX := jImpulse * normal.x
          let impulseY := jImpulse * normal.y
          let a2 := { a1 with velocity :=
            ⟨a1.velocity.x - impulseX * invMassA2,
             a1.velocity.y - impulseY * invMassA2⟩ }
          let b2 := { b1 with velocity :=
            ⟨b1.velocity.x + impulseX * invMassB2,
             b1.velocity.y + impulseY * invMassB2⟩ }
          let velTangent := rvx * (-normal.y) + rvy * normal.x
          let spinFactorA :=
            0.18 * (if a2.speedScale = 0 then 1 else a2.speedScale)
          let spinFactorB :=
            0.18 * (if b2.speedScale = 0 then 1 else b2.speedScale)
          let a3 :=
            if a2.shapeType = ShapeType.rect ∨ a2.shapeType = ShapeType.tri ∨
                a2.shapeType = ShapeType.circle then
              let w := a2.angularVelocity - velTangent * spinFactorA
              let w := if w > 4 then 4 else w
              let w := if w < -4 then -4 else w
              { a2 with angularVelocity := w }
            else a2
          let b3 :=
            if b2.shapeType = ShapeType.rect ∨ b2.shapeType = ShapeType.tri ∨
                b2.shapeType = ShapeType.circle then
              let w := b2.angularVelocity + velTangent * spinFactorB
              let w := if w > 4 then 4 else w
              let w := if w < -4 then -4 else w
              { b2 with angularVelocity := w }
            else b2
          if colorTransferEnabled then transferColorOnCollision a3 b3
          else (a3, b3)
      else (a1, b1)

/-- One iteration of the pair loop: read the two bodies at `p`, resolve,
write both back. -/
def pairStep (colorTransferEnabled : Bool) (bs : List Body) (p : ℕ × ℕ) :
    List Body :=
  match bs.get? p.1, bs.get? p.2 with
  | some a, some b =>
    let r := resolveBodies colorTransferEnabled a b
    (bs.set p.1 r.1).set p.2 r.2
  | _, _ => bs

/-- The index pairs `(i, j)` with `i < j < n`, in loop order. -/
def allPairs (n : ℕ) : List (ℕ × ℕ) :=
  (List.range n).flatMap fun i =>
    ((List.range n).filter fun j => i < j).map fun j => (i, j)

/-- The settledness scan at the end of `updatePhysics`
(`linearEps = 0.02`, `angularEps = 0.4`). -/
def anyMoving (bs : List Body) : Bool :=
  bs.any fun b =>
    b.isDragged ||
      decide (hypot b.velocity.x b.velocity.y > 0.02) ||
      decide (|b.angularVelocity| > 0.4)

/-- A concrete axis-aligned square test body (rotation `0`, centered on
the x-axis), used to instantiate the physics theorems on explicit
states. -/
def squareBody (cx half mass vx : ℝ) (ci : ℕ) : Body :=
  { id := 0
    localVerts := rectVerts half half
    pos := ⟨cx, 0⟩
    rot := 0
    boundingRadius := half * Real.sqrt 2
    contactRadius := half * 0.7
    mass := mass
    invMass := 1 / mass
    velocity := ⟨vx, 0⟩
    angularVelocity := 0
    shapeType := ShapeType.rect
    colorIndex := ci
    isDragged := false
    speedScale := 1 }


/-- A concrete circle test body (20-gon hull, centered on the x-axis,
contact radius = bounding radius = `r`), used to instantiate the
placement theorems on explicit states. -/
def circleBody (cx r : ℝ) : Body :=
  { id := 0
    localVerts := circleVerts r
    pos := ⟨cx, 0⟩
    rot := 0
    boundingRadius := r
    contactRadius := r
    mass := r * r
    invMass := 1 / (r * r)
    velocity := ⟨0, 0⟩
    angularVelocity := 0
    shapeType := ShapeType.circle
    colorIndex := 0
    isDragged := false
    speedScale := 1 }

/-- `updatePhysics(dt)`: no-op while paused; otherwise integrate and
resolve walls, run the pair loop, and auto-pause when nothing moves. -/
def updatePhysics (dt : ℝ) (colorTransferEnabled : Bool)
    (st : WorldState) : WorldState :=
  if st.physicsEnabled = false then st
  else
    let moved := st.bodies.map (integrateBody st.worldBoundsX st.worldBoundsY dt)
    let resolved := (allPairs moved.length).foldl (pairStep colorTransferEnabled) moved
    if anyMoving resolved then { st with bodies := resolved }
    else { st with bodies := resolved, physicsEnabled := false }

/-! ## Structural lemmas about the placement engine -/

theorem addBodyEntry_bodies (st : WorldState) (b : Body) :
    (addBodyEntry st b).bodies =
      st.bodies ++ [{ b with id := st.nextBodyId }] := rfl

theorem placeMesh_eq_some {st st' : WorldState} {rot br : ℝ}
    {lv : List Vec2} {ty : ShapeType} {cr : ℝ} {ci : ℕ}
    (h : placeMesh st rot br lv ty cr ci = some st') :
    ∃ p : Vec2, placePoint st rot br lv ty cr = some p ∧
      st' = addBodyEntry st (mkPlacedBody p rot lv br cr ty ci) := by
  rcases Option.map_eq_some'.mp h with ⟨p, hp, hst⟩
  exact ⟨p, hp, hst.symm⟩

theorem placeMesh_bodies {st st' : WorldState} {rot br : ℝ}
    {lv : List Vec2} {ty : ShapeType} {cr : ℝ} {ci : ℕ}
    (h : placeMesh st rot br lv ty cr ci = some st') :
    ∃ nb : Body, st'.bodies = st.bodies ++ [nb] ∧
      st'.nextBodyId = st.nextBodyId + 1 := by
  rcases placeMesh_eq_some h with ⟨p, _, hst⟩
  exact ⟨_, by rw [hst]; rfl, by rw [hst]; rfl⟩

theorem tryAttempts_bodies (st : WorldState) (br : ℝ) (lv : List Vec2)
    (ty : ShapeType) (cr : ℝ) (ci : ℕ) :
    ∀ n rs : ℕ, ∃ suf,
      (tryAttempts st br lv ty cr ci n rs).2.bodies = st.bodies ++ suf := by
  intro n
  induction n with
  | zero => intro rs; exact ⟨[], by simp [tryAttempts]⟩
  | succ n ih =>
    intro rs
    simp only [tryAttempts]
    cases h : placeMesh st ((randR rs).1 * Real.pi * 2) br lv ty cr ci with
    | some st' =>
      rcases placeMesh_bodies h with ⟨nb, hb, _⟩
      exact ⟨[nb], by simp [hb]⟩
    | none => simpa using ih (randR rs).2

theorem addCircle_st_bodies (r : ℝ) (s : BuildState) :
    ∃ suf, (addCircle r s).st.bodies = s.st.bodies ++ suf := by
  simp only [addCircle]
  cases h : placeMesh s.st 0 (r * 1) (circleVerts (r * 1)) ShapeType.circle
      (r * 1) (takePresetIndex s.rs s.avail).1 with
  | some st' =>
    rcases placeMesh_bodies h with ⟨nb, hb, _⟩
    exact ⟨[nb], by simp [hb]⟩
  | none => exact ⟨[], by simp⟩

theorem addRect_st_bodies (w h : ℝ) (s : BuildState) :
    ∃ suf, (addRect w h s).st.bodies = s.st.bodies ++ suf := by
  simp only [addRect]
  exact tryAttempts_bodies _ _ _ _ _ _ 12 _

theorem addTriangle_st_bodies (sz : ℝ) (s : BuildState) :
    ∃ suf, (addTriangle sz s).st.bodies = s.st.bodies ++ suf := by
  simp only [addTriangle]
  exact tryAttempts_bodies _ _ _ _ _ _ 10 _

theorem finalizeBody_id (rs : ℕ) (b : Body) :
    (finalizeBody rs b).2.id = b.id := by
  simp only [finalizeBody]
  split <;> rfl

theorem finalizeList_map_id (bs : List Body) :
    ∀ rs, (finalizeList rs bs).map Body.id = bs.map Body.id := by
  induction bs with
  | nil => intro rs; rfl
  | cons b rest ih =>
    intro rs
    simp [finalizeList, finalizeBody_id, ih]

/-- The nine building steps after the first circle only append bodies. -/
theorem restSteps_bodies (s : BuildState) :
    ∃ suf,
      (addRect 1.2 1.2 (addCircle 0.8 (addTriangle 1 (addRect 1 0.4
        (addRect 0.8 0.8 (addCircle 0.65 (addRect 1 0.2 (addTriangle 0.3
          (addRect 0.3 0.3 s))))))))).st.bodies = s.st.bodies ++ suf := by
  obtain ⟨u1, e1⟩ := addRect_st_bodies 0.3 0.3 s
  obtain ⟨u2, e2⟩ := addTriangle_st_bodies 0.3 (addRect 0.3 0.3 s)
  obtain ⟨u3, e3⟩ := addRect_st_bodies 1 0.2 (addTriangle 0.3 (addRect 0.3 0.3 s))
  obtain ⟨u4, e4⟩ := addCircle_st_bodies 0.65
    (addRect 1 0.2 (addTriangle 0.3 (addRect 0.3 0.3 s)))
  obtain ⟨u5, e5⟩ := addRect_st_bodies 0.8 0.8
    (addCircle 0.65 (addRect 1 0.2 (addTriangle 0.3 (addRect 0.3 0.3 s))))
  obtain ⟨u6, e6⟩ := addRect_st_bodies 1 0.4
    (addRect 0.8 0.8 (addCircle 0.65 (addRect 1 0.2 (addTriangle 0.3
      (addRect 0.3 0.3 s)))))
  obtain ⟨u7, e7⟩ := addTriangle_st_bodies 1
    (addRect 1 0.4 (addRect 0.8 0.8 (addCircle 0.65 (addRect 1 0.2
      (addTriangle 0.3 (addRect 0.3 0.3 s))))))
  obtain ⟨u8, e8⟩ := addCircle_st_bodies 0.8
    (addTriangle 1 (addRect 1 0.4 (addRect 0.8 0.8 (addCircle 0.65
      (addRect 1 0.2 (addTriangle 0.3 (addRect 0.3 0.3 s)))))))
  obtain ⟨u9, e9⟩ := addRect_st_bodies 1.2 1.2
    (addCircle 0.8 (addTriangle 1 (addRect 1 0.4 (addRect 0.8 0.8
      (addCircle 0.65 (addRect 1 0.2 (addTriangle 0.3 (addRect 0.3 0.3 s))))))))
  refine ⟨u1 ++ u2 ++ u3 ++ u4 ++ u5 ++ u6 ++ u7 ++ u8 ++ u9, ?_⟩
  rw [e9, e8, e7, e6, e5, e4, e3, e2, e1]
  simp [List.append_assoc]

theorem placePoint_empty {st : WorldState} {rot br : ℝ} {lv : List Vec2}
    {ty : ShapeType} {cr : ℝ} (hb : st.bodies = [])
    (hx : br ≤ st.worldBoundsX) (hy : br ≤ st.worldBoundsY) :
    placePoint st rot br lv ty cr = some ⟨0, 0⟩ := by
  have h1 : ¬((0 : ℝ) - br < -st.worldBoundsX ∨
      (0 : ℝ) + br > st.worldBoundsX ∨
      (0 : ℝ) - br < -st.worldBoundsY ∨
      (0 : ℝ) + br > st.worldBoundsY) := by
    push_neg
    exact ⟨by linarith, by linarith, by linarith, by linarith⟩
  simp only [placePoint, hb, List.isEmpty_nil, if_true]
  rw [if_neg h1]

theorem addCircle_first {s : BuildState} (hb : s.st.bodies = [])
    (hx : (0.3 : ℝ) * 1 ≤ s.st.worldBoundsX)
    (hy : (0.3 : ℝ) * 1 ≤ s.st.worldBoundsY) :
    ∃ nb : Body, nb.id = s.st.nextBodyId ∧
      (addCircle 0.3 s).st.bodies = [nb] := by
  have hp : placePoint s.st 0 (0.3 * 1) (circleVerts (0.3 * 1))
      ShapeType.circle (0.3 * 1) = some ⟨0, 0⟩ := placePoint_empty hb hx hy
  have hm : placeMesh s.st 0 (0.3 * 1) (circleVerts (0.3 * 1))
        ShapeType.circle (0.3 * 1) (takePresetIndex s.rs s.avail).1 =
      some (addBodyEntry s.st
        (mkPlacedBody ⟨0, 0⟩ 0 (circleVerts (0.3 * 1)) (0.3 * 1) (0.3 * 1)
          ShapeType.circle (takePresetIndex s.rs s.avail).1)) := by
    unfold placeMesh
    rw [hp]
    rfl
  refine ⟨{ mkPlacedBody ⟨0, 0⟩ 0 (circleVerts (0.3 * 1)) (0.3 * 1) (0.3 * 1)
      ShapeType.circle (takePresetIndex s.rs s.avail).1 with
        id := s.st.nextBodyId }, rfl, ?_⟩
  simp only [addCircle, hm]
  rw [addBodyEntry_bodies, hb]
  rfl

/-! Frame lemmas: building never changes the world bounds. -/

theorem tryAttempts_bounds (st : WorldState) (br : ℝ) (lv : List Vec2)
    (ty : ShapeType) (cr : ℝ) (ci : ℕ) :
    ∀ n rs : ℕ,
      (tryAttempts st br lv ty cr ci n rs).2.worldBoundsX = st.worldBoundsX ∧
      (tryAttempts st br lv ty cr ci n rs).2.worldBoundsY = st.worldBoundsY := by
  intro n
  induction n with
  | zero => intro rs; exact ⟨rfl, rfl⟩
  | succ n ih =>
    intro rs
    simp only [tryAttempts]
    cases h : placeMesh st ((randR rs).1 * Real.pi * 2) br lv ty cr ci with
    | some st' =>
      rcases placeMesh_eq_some h with ⟨p, _, rfl⟩
      exact ⟨rfl, rfl⟩
    | none => simpa using ih (randR rs).2

theorem addCircle_bounds (r : ℝ) (s : BuildState) :
    (addCircle r s).st.worldBoundsX = s.st.worldBoundsX ∧
    (addCircle r s).st.worldBoundsY = s.st.worldBoundsY := by
  simp only [addCircle]
  cases h : placeMesh s.st 0 (r * 1) (circleVerts (r * 1)) ShapeType.circle
      (r * 1) (takePresetIndex s.rs s.avail).1 with
  | some st' =>
    rcases placeMesh_eq_some h with ⟨p, _, rfl⟩
    exact ⟨rfl, rfl⟩
  | none => exact ⟨rfl, rfl⟩

theorem addRect_bounds (w h : ℝ) (s : BuildState) :
    (addRect w h s).st.worldBoundsX = s.st.worldBoundsX ∧
    (addRect w h s).st.worldBoundsY = s.st.worldBoundsY := by
  simp only [addRect]
  exact tryAttempts_bounds _ _ _ _ _ _ 12 _

theorem addTriangle_bounds (sz : ℝ) (s : BuildState) :
    (addTriangle sz s).st.worldBoundsX = s.st.worldBoundsX ∧
    (addTriangle sz s).st.worldBoundsY = s.st.worldBoundsY := by
  simp only [addTriangle]
  exact tryAttempts_bounds _ _ _ _ _ _ 10 _

theorem createShapes_bounds (rs0 : ℕ) (st0 : WorldState) :
    (createShapes rs0 st0).worldBoundsX = st0.worldBoundsX ∧
    (createShapes rs0 st0).worldBoundsY = st0.worldBoundsY := by
  simp only [createShapes]
  refine ⟨?_, ?_⟩ <;>
    simp [addRect_bounds, addCircle_bounds, addTriangle_bounds]

theorem createShapes_head_id (rs0 : ℕ) (st0 : WorldState)
    (hb : st0.bodies = []) (hx : (0.3 : ℝ) ≤ st0.worldBoundsX)
    (hy : (0.3 : ℝ) ≤ st0.worldBoundsY) :
    ((createShapes rs0 st0).bodies.map Body.id).head? =
      some st0.nextBodyId := by
  obtain ⟨nb, hid, h1⟩ :=
    addCircle_first (s := ⟨rs0, [0, 1, 2, 3, 4, 5, 6, 7, 8, 9], st0⟩) hb
      (by linarith) (by linarith)
  obtain ⟨suf, hrest⟩ :=
    restSteps_bodies (addCircle 0.3 ⟨rs0, [0, 1, 2, 3, 4, 5, 6, 7, 8, 9], st0⟩)
  simp only [createShapes]
  rw [finalizeList_map_id, hrest, h1]
  simp [hid]

/-! The id-assignment invariant: all stored ids are below the counter and
strictly increase in registry order. -/

/-- Stored ids are below `nextBodyId` and strictly increasing. -/
def IdOk (st : WorldState) : Prop :=
  (∀ b ∈ st.bodies, b.id < st.nextBodyId) ∧
    List.Pairwise (fun x y : Body => x.id < y.id) st.bodies

theorem IdOk_addBodyEntry {st : WorldState} (h : IdOk st) (b : Body) :
    IdOk (addBodyEntry st b) := by
  constructor
  · intro x hx
    rcases List.mem_append.mp hx with hx | hx
    · exact Nat.lt_succ_of_lt (h.1 x hx)
    · rw [List.mem_singleton.mp hx]
      exact Nat.lt_succ_self _
  · refine List.pairwise_append.mpr ⟨h.2, by simp, ?_⟩
    intro x hx y hy
    rw [List.mem_singleton.mp hy]
    exact h.1 x hx

theorem IdOk_placeMesh {st st' : WorldState} {rot br : ℝ} {lv : List Vec2}
    {ty : ShapeType} {cr : ℝ} {ci : ℕ}
    (h : placeMesh st rot br lv ty cr ci = some st') (hok : IdOk st) :
    IdOk st' := by
  rcases placeMesh_eq_some h with ⟨p, _, rfl⟩
  exact IdOk_addBodyEntry hok _

theorem IdOk_tryAttempts {st : WorldState} {br : ℝ} {lv : List Vec2}
    {ty : ShapeType} {cr : ℝ} {ci : ℕ} (hok : IdOk st) :
    ∀ n rs : ℕ, IdOk (tryAttempts st br lv ty cr ci n rs).2 := by
  intro n
  induction n with
  | zero => intro rs; exact hok
  | succ n ih =>
    intro rs
    simp only [tryAttempts]
    cases h : placeMesh st ((randR rs).1 * Real.pi * 2) br lv ty cr ci with
    | some st' => exact IdOk_placeMesh h hok
    | none => simpa using ih (randR rs).2

theorem IdOk_addCircle (r : ℝ) {s : BuildState} (h : IdOk s.st) :
    IdOk (addCircle r s).st := by
  simp only [addCircle]
  cases hm : placeMesh s.st 0 (r * 1) (circleVerts (r * 1)) ShapeType.circle
      (r * 1) (takePresetIndex s.rs s.avail).1 with
  | some st' => exact IdOk_placeMesh hm h
  | none => exact h

theorem IdOk_addRect (w hgt : ℝ) {s : BuildState} (h : IdOk s.st) :
    IdOk (addRect w hgt s).st := by
  simp only [addRect]
  exact IdOk_tryAttempts h 12 _

theorem IdOk_addTriangle (sz : ℝ) {s : BuildState} (h : IdOk s.st) :
    IdOk (addTriangle sz s).st := by
  simp only [addTriangle]
  exact IdOk_tryAttempts h 10 _

theorem pairwise_id_finalizeList {rs : ℕ} {bs : List Body}
    (h : List.Pairwise (fun x y : Body => x.id < y.id) bs) :
    List.Pairwise (fun x y : Body => x.id < y.id) (finalizeList rs bs) := by
  have hmap : ((bs.map Body.id).Pairwise (· < ·)) := List.pairwise_map.mpr h
  rw [← finalizeList_map_id bs rs] at hmap
  exact List.pairwise_map.mp hmap

theorem IdOk_createShapes_pairwise (rs0 : ℕ) {st0 : WorldState}
    (h : IdOk st0) :
    List.Pairwise (fun x y : Body => x.id < y.id)
      (createShapes rs0 st0).bodies := by
  have h1 := IdOk_addCircle 0.3 (s := ⟨rs0, [0, 1, 2, 3, 4, 5, 6, 7, 8, 9], st0⟩) h
  have h2 := IdOk_addRect 0.3 0.3 h1
  have h3 := IdOk_addTriangle 0.3 h2
  have h4 := IdOk_addRect 1 0.2 h3
  have h5 := IdOk_addCircle 0.65 h4
  have h6 := IdOk_addRect 0.8 0.8 h5
  have h7 := IdOk_addRect 1 0.4 h6
  have h8 := IdOk_addTriangle 1 h7
  have h9 := IdOk_addCircle 0.8 h8
  have h10 := IdOk_addRect 1.2 1.2 h9
  simp only [createShapes]
  exact pairwise_id_finalizeList h10.2

/-! ## Claim C1 -/

/-- C1: rebuilding the composition with the same seed string is
deterministic — `regenerateComposition` clears the registry, resets the
id counter and physics flag, and derives everything else from the RNG
hashed from the seed, so two rebuilds from arbitrary prior registry
states (same world bounds) produce identical body lists: the same body
count, and the same position, rotation and color-preset index for every
body, in the same order. -/
theorem rebuild_deterministic (b₁ b₂ : List Body) (n₁ n₂ : ℕ)
    (p₁ p₂ : Bool) (bX bY : ℝ) (seed : String) :
    (regenerateComposition ⟨b₁, n₁, p₁, bX, bY⟩ seed).bodies =
      (regenerateComposition ⟨b₂, n₂, p₂, bX, bY⟩ seed).bodies := rfl

/-! ## Claim C10 -/

/-- C10 counterexample: ids are reused across rebuilds within a session.
`regenerateComposition` resets `nextBodyId` to `1`, so after two rebuilds
(seeds "a" then "b", standard bounds 4 × 2.2) the first body of each
rebuilt composition carries id `1` — two bodies that existed during the
session share an id. -/
theorem id_reused_after_rebuild :
    ((regenerateComposition ⟨[], 5, false, 4, 2.2⟩ "a").bodies.map
        Body.id).head? = some 1 ∧
    ((regenerateComposition (regenerateComposition ⟨[], 5, false, 4, 2.2⟩ "a")
        "b").bodies.map Body.id).head? = some 1 := by
  have hb := createShapes_bounds (hashSeedString "a")
    (⟨[], 1, false, 4, 2.2⟩ : WorldState)
  constructor
  · exact createShapes_head_id _ _ rfl (by norm_num) (by norm_num)
  · exact createShapes_head_id _ _ rfl
      (by rw [show (regenerateComposition ⟨[], 5, false, 4, 2.2⟩
          "a").worldBoundsX = (4 : ℝ) from hb.1]; norm_num)
      (by rw [show (regenerateComposition ⟨[], 5, false, 4, 2.2⟩
          "a").worldBoundsY = (2.2 : ℝ) from hb.2]; norm_num)

/-- C10 amended: within a single composition build the ids are unique,
assigned by the monotonically increasing counter (strictly increasing in
registry order); however the counter is reset to `1` by every rebuild, so
ids are reused across rebuilds of the same session. -/
theorem ids_strictly_increasing_within_build (st : WorldState)
    (seed : String) :
    List.Pairwise (fun x y : Body => x.id < y.id)
      (regenerateComposition st seed).bodies := by
  exact IdOk_createShapes_pairwise _ ⟨by simp, by simp⟩

/-! ## SAT characterization (claim C4) -/

theorem edgeAxis_unit {p q : Vec2} (h : ¬ edgeDegenerate p q) :
    (edgeAxis p q).x ^ 2 + (edgeAxis p q).y ^ 2 = 1 := by
  unfold edgeDegenerate hypot at h
  have hnn : (0 : ℝ) ≤ (-(q.y - p.y)) ^ 2 + (q.x - p.x) ^ 2 := by positivity
  have hsum : (-(q.y - p.y)) ^ 2 + (q.x - p.x) ^ 2 ≠ 0 := fun h0 =>
    h (by rw [h0, Real.sqrt_zero])
  simp only [edgeAxis, hypot]
  rw [div_pow, div_pow, ← add_div, Real.sq_sqrt hnn, div_self hsum]

theorem axisStep_deg {A B : List Vec2} (p q : Vec2) (st : Option SatResult)
    (hd : hypot (-(q.y - p.y)) (q.x - p.x) = 0) :
    axisStep A B p q st = some st := by
  simp only [axisStep]
  rw [if_pos hd]

theorem axisStep_sep {A B : List Vec2} (p q : Vec2) (st : Option SatResult)
    (hd : ¬ hypot (-(q.y - p.y)) (q.x - p.x) = 0)
    (ho : overlapOn A B (edgeAxis p q) ≤ 0) :
    axisStep A B p q st = none := by
  simp only [axisStep]
  rw [if_neg hd, if_pos ho]

theorem axisStep_start {A B : List Vec2} (p q : Vec2)
    (hd : ¬ hypot (-(q.y - p.y)) (q.x - p.x) = 0)
    (ho : ¬ overlapOn A B (edgeAxis p q) ≤ 0) :
    axisStep A B p q none =
      some (some ⟨edgeAxis p q, overlapOn A B (edgeAxis p q)⟩) := by
  simp only [axisStep]
  rw [if_neg hd, if_neg ho]

theorem axisStep_update {A B : List Vec2} (p q : Vec2) (r : SatResult)
    (hd : ¬ hypot (-(q.y - p.y)) (q.x - p.x) = 0)
    (ho : ¬ overlapOn A B (edgeAxis p q) ≤ 0)
    (hlt : overlapOn A B (edgeAxis p q) < r.depth) :
    axisStep A B p q (some r) =
      some (some ⟨edgeAxis p q, overlapOn A B (edgeAxis p q)⟩) := by
  simp only [axisStep]
  rw [if_neg hd, if_neg ho]
  simp [hlt]

theorem axisStep_keep {A B : List Vec2} (p q : Vec2) (r : SatResult)
    (hd : ¬ hypot (-(q.y - p.y)) (q.x - p.x) = 0)
    (ho : ¬ overlapOn A B (edgeAxis p q) ≤ 0)
    (hge : ¬ overlapOn A B (edgeAxis p q) < r.depth) :
    axisStep A B p q (some r) = some (some r) := by
  simp only [axisStep]
  rw [if_neg hd, if_neg ho]
  simp [hge]

theorem checkAxes_cons_of_none {A B : List Vec2} {e : Vec2 × Vec2}
    {rest : List (Vec2 × Vec2)} {st : Option SatResult}
    (h : axisStep A B e.1 e.2 st = none) :
    checkAxes A B (e :: rest) st = none := by
  simp only [checkAxes]
  rw [h]

theorem checkAxes_cons_of_some {A B : List Vec2} {e : Vec2 × Vec2}
    {rest : List (Vec2 × Vec2)} {st st2 : Option SatResult}
    (h : axisStep A B e.1 e.2 st = some st2) :
    checkAxes A B (e :: rest) st = checkAxes A B rest st2 := by
  simp only [checkAxes]
  rw [h]

theorem checkAxes_pair_of_some {A B : List Vec2} (p q : Vec2)
    {rest : List (Vec2 × Vec2)} {st st2 : Option SatResult}
    (h : axisStep A B p q st = some st2) :
    checkAxes A B ((p, q) :: rest) st = checkAxes A B rest st2 := by
  simp only [checkAxes]
  rw [h]

/-- `axisStep` never aborts unless the edge is nondegenerate with
overlap `≤ 0`; this names its result in the remaining cases. -/
theorem axisStep_some {A B : List Vec2} {p q : Vec2} (st : Option SatResult)
    (h : ¬ (¬ edgeDegenerate p q ∧ overlapOn A B (edgeAxis p q) ≤ 0)) :
    ∃ st2, axisStep A B p q st = some st2 := by
  by_cases hd : edgeDegenerate p q
  · exact ⟨st, axisStep_deg p q st hd⟩
  · have ho : ¬ overlapOn A B (edgeAxis p q) ≤ 0 := fun hle => h ⟨hd, hle⟩
    cases st with
    | none => exact ⟨_, axisStep_start p q hd ho⟩
    | some r =>
      by_cases hlt : overlapOn A B (edgeAxis p q) < r.depth
      · exact ⟨_, axisStep_update p q r hd ho hlt⟩
      · exact ⟨_, axisStep_keep p q r hd ho hlt⟩

theorem checkAxes_eq_none_iff (A B : List Vec2) :
    ∀ (es : List (Vec2 × Vec2)) (st : Option SatResult),
      checkAxes A B es st = none ↔
        ∃ e ∈ es, ¬ edgeDegenerate e.1 e.2 ∧
          overlapOn A B (edgeAxis e.1 e.2) ≤ 0 := by
  intro es
  induction es with
  | nil => intro st; simp [checkAxes]
  | cons e rest ih =>
    intro st
    by_cases hbad : ¬ edgeDegenerate e.1 e.2 ∧
        overlapOn A B (edgeAxis e.1 e.2) ≤ 0
    · rw [checkAxes_cons_of_none (axisStep_sep e.1 e.2 st hbad.1 hbad.2)]
      exact iff_of_true rfl ⟨e, List.mem_cons_self e rest, hbad⟩
    · obtain ⟨st2, hstep⟩ := axisStep_some st hbad
      rw [checkAxes_cons_of_some hstep, ih st2]
      constructor
      · rintro ⟨e', he', hp⟩
        exact ⟨e', List.mem_cons_of_mem _ he', hp⟩
      · rintro ⟨e', he', hp⟩
        rcases List.mem_cons.mp he' with rfl | he'
        · exact absurd hp hbad
        · exact ⟨e', he', hp⟩

theorem checkAxes_some_inv (A B : List Vec2) :
    ∀ (es : List (Vec2 × Vec2)) (st : Option SatResult) (S : List Vec2),
      SatInv A B S st → ∀ st', checkAxes A B es st = some st' →
        SatInv A B (S ++ axesOfEdges es) st' := by
  intro es
  induction es with
  | nil =>
    intro st S hinv st' h
    simp only [checkAxes, Option.some.injEq] at h
    subst h
    simpa [axesOfEdges] using hinv
  | cons e rest ih =>
    intro st S hinv st' h
    by_cases hdeg : edgeDegenerate e.1 e.2
    · rw [checkAxes_cons_of_some (axisStep_deg e.1 e.2 st hdeg)] at h
      have hax : axesOfEdges (e :: rest) = axesOfEdges rest := by
        unfold axesOfEdges
        rw [List.filter_cons, decide_eq_true hdeg]
        simp
      rw [hax]
      exact ih st S hinv st' h
    · by_cases ho : overlapOn A B (edgeAxis e.1 e.2) ≤ 0
      · rw [checkAxes_cons_of_none (axisStep_sep e.1 e.2 st hdeg ho)] at h
        exact absurd h (by simp)
      · have hopos : 0 < overlapOn A B (edgeAxis e.1 e.2) := lt_of_not_le ho
        have hax : axesOfEdges (e :: rest) =
            edgeAxis e.1 e.2 :: axesOfEdges rest := by
          unfold axesOfEdges
          rw [List.filter_cons, decide_eq_false hdeg]
          simp
        rw [hax, show S ++ edgeAxis e.1 e.2 :: axesOfEdges rest =
          (S ++ [edgeAxis e.1 e.2]) ++ axesOfEdges rest by simp]
        cases st with
        | none =>
          rw [checkAxes_cons_of_some (axisStep_start e.1 e.2 hdeg ho)] at h
          have hS : S = [] := hinv
          subst hS
          refine ih _ _ ?_ st' h
          exact ⟨by simp, rfl, by
            intro ax hax'
            simp only [List.nil_append, List.mem_singleton] at hax'
            subst hax'
            exact ⟨hopos, le_refl _⟩⟩
        | some r =>
          obtain ⟨hmem, hdepth, hall⟩ := hinv
          by_cases hlt : overlapOn A B (edgeAxis e.1 e.2) < r.depth
          · rw [checkAxes_cons_of_some (axisStep_update e.1 e.2 r hdeg ho hlt)] at h
            refine ih _ _ ?_ st' h
            refine ⟨List.mem_append_right _ (by simp), rfl, ?_⟩
            intro ax hax'
            rcases List.mem_append.mp hax' with hS | hone
            · exact ⟨(hall ax hS).1, le_trans (le_of_lt hlt) (hall ax hS).2⟩
            · rw [List.mem_singleton.mp hone]
              exact ⟨hopos, le_refl _⟩
          · rw [checkAxes_cons_of_some (axisStep_keep e.1 e.2 r hdeg ho hlt)] at h
            refine ih _ _ ?_ st' h
            refine ⟨List.mem_append_left _ hmem, hdepth, ?_⟩
            intro ax hax'
            rcases List.mem_append.mp hax' with hS | hone
            · exact hall ax hS
            · rw [List.mem_singleton.mp hone]
              exact ⟨hopos, le_of_not_lt hlt⟩

theorem polygonPolygonSAT_eq_none_iff (A B : List Vec2) :
    polygonPolygonSAT A B = none ↔
      ∃ ax ∈ testedAxes A B, overlapOn A B ax ≤ 0 := by
  have hmem : ∀ es : List (Vec2 × Vec2),
      ((∃ ax ∈ axesOfEdges es, overlapOn A B ax ≤ 0) ↔
        ∃ e ∈ es, ¬ edgeDegenerate e.1 e.2 ∧
          overlapOn A B (edgeAxis e.1 e.2) ≤ 0) := by
    intro es
    constructor
    · rintro ⟨ax, hax, ho⟩
      rcases List.mem_map.mp hax with ⟨e, hef, rfl⟩
      rcases List.mem_filter.mp hef with ⟨he, hd⟩
      refine ⟨e, he, ?_, ho⟩
      simpa using hd
    · rintro ⟨e, he, hd, ho⟩
      exact ⟨edgeAxis e.1 e.2,
        List.mem_map.mpr ⟨e, List.mem_filter.mpr ⟨he, by simpa using hd⟩, rfl⟩,
        ho⟩
  rw [testedAxes, hmem, polygonPolygonSAT]
  cases hA : checkAxes A B (edgesOf A) none with
  | none =>
    rw [Option.none_bind]
    exact iff_of_true rfl
      (by
        rcases (checkAxes_eq_none_iff A B (edgesOf A) none).mp hA with ⟨e, he, h⟩
        exact ⟨e, List.mem_append_left _ he, h⟩)
  | some st =>
    rw [Option.some_bind, checkAxes_eq_none_iff A B (edgesOf B) st]
    have hnoA : ¬ ∃ e ∈ edgesOf A, ¬ edgeDegenerate e.1 e.2 ∧
        overlapOn A B (edgeAxis e.1 e.2) ≤ 0 := by
      intro hex
      rw [← checkAxes_eq_none_iff A B (edgesOf A) none] at hex
      rw [hA] at hex
      exact absurd hex (by simp)
    constructor
    · rintro ⟨e, he, h⟩
      exact ⟨e, List.mem_append_right _ he, h⟩
    · rintro ⟨e, he, h⟩
      rcases List.mem_append.mp he with he | he
      · exact absurd ⟨e, he, h⟩ hnoA
      · exact ⟨e, he, h⟩

theorem axesOfEdges_append (es1 es2 : List (Vec2 × Vec2)) :
    axesOfEdges (es1 ++ es2) = axesOfEdges es1 ++ axesOfEdges es2 := by
  simp [axesOfEdges, List.filter_append]

theorem polygonPolygonSAT_some_inv {A B : List Vec2} {st' : Option SatResult}
    (h : polygonPolygonSAT A B = some st') :
    SatInv A B (testedAxes A B) st' := by
  rw [polygonPolygonSAT] at h
  rcases Option.bind_eq_some.mp h with ⟨st1, hA, hB⟩
  have h1 := checkAxes_some_inv A B (edgesOf A) none [] rfl st1 hA
  have h2 := checkAxes_some_inv A B (edgesOf B) st1 _ h1 st' hB
  have heq : testedAxes A B =
      ([] ++ axesOfEdges (edgesOf A)) ++ axesOfEdges (edgesOf B) := by
    simp [testedAxes, axesOfEdges_append]
  rw [heq]
  exact h2

/-- C4: for convex polygons `A`, `B` with at least 3 vertices (and at
least one nonzero-length edge between them), `polygonPolygonSAT` returns
`null` iff some edge-normal axis of `A` or `B` — zero-length edges
skipped — yields interval overlap `≤ 0`; otherwise it returns a
`{normal, depth}` pair whose normal is one of the normalized tested axes
and whose depth is the minimum (positive) overlap over all tested axes. -/
theorem polygonPolygonSAT_spec (A B : List Vec2) (hA : 3 ≤ A.length)
    (hB : 3 ≤ B.length) (hax : testedAxes A B ≠ []) :
    (polygonPolygonSAT A B = none ↔
      ∃ ax ∈ testedAxes A B, overlapOn A B ax ≤ 0) ∧
    (∀ r : SatResult, polygonPolygonSAT A B = some (some r) →
      r.normal.x ^ 2 + r.normal.y ^ 2 = 1 ∧
      r.normal ∈ testedAxes A B ∧
      r.depth = overlapOn A B r.normal ∧
      ∀ ax ∈ testedAxes A B, 0 < overlapOn A B ax ∧
        r.depth ≤ overlapOn A B ax) ∧
    (polygonPolygonSAT A B ≠ none →
      ∃ r : SatResult, polygonPolygonSAT A B = some (some r)) := by
  refine ⟨polygonPolygonSAT_eq_none_iff A B, ?_, ?_⟩
  · intro r hr
    obtain ⟨hmem, hdepth, hall⟩ := polygonPolygonSAT_some_inv hr
    have hunit : r.normal.x ^ 2 + r.normal.y ^ 2 = 1 := by
      rcases List.mem_map.mp hmem with ⟨e, hef, hax'⟩
      rcases List.mem_filter.mp hef with ⟨_, hd⟩
      rw [← hax']
      exact edgeAxis_unit (by simpa using hd)
    exact ⟨hunit, hmem, hdepth, hall⟩
  · intro hne
    cases hres : polygonPolygonSAT A B with
    | none => exact absurd hres hne
    | some st' =>
      cases st' with
      | none =>
        have := polygonPolygonSAT_some_inv hres
        exact absurd this hax
      | some r => exact ⟨r, rfl⟩

theorem polygonPolygonSAT_spec_witness :
    3 ≤ ([⟨0, 0⟩, ⟨2, 0⟩, ⟨0, 2⟩] : List Vec2).length ∧
    3 ≤ ([⟨1, 0⟩, ⟨3, 0⟩, ⟨1, 2⟩] : List Vec2).length ∧
    testedAxes [⟨0, 0⟩, ⟨2, 0⟩, ⟨0, 2⟩] [⟨1, 0⟩, ⟨3, 0⟩, ⟨1, 2⟩] ≠ [] ∧
    ((polygonPolygonSAT [⟨0, 0⟩, ⟨2, 0⟩, ⟨0, 2⟩] [⟨1, 0⟩, ⟨3, 0⟩, ⟨1, 2⟩] =
        none ↔
      ∃ ax ∈ testedAxes [⟨0, 0⟩, ⟨2, 0⟩, ⟨0, 2⟩] [⟨1, 0⟩, ⟨3, 0⟩, ⟨1, 2⟩],
        overlapOn [⟨0, 0⟩, ⟨2, 0⟩, ⟨0, 2⟩] [⟨1, 0⟩, ⟨3, 0⟩, ⟨1, 2⟩] ax ≤ 0) ∧
    (∀ r : SatResult,
      polygonPolygonSAT [⟨0, 0⟩, ⟨2, 0⟩, ⟨0, 2⟩] [⟨1, 0⟩, ⟨3, 0⟩, ⟨1, 2⟩] =
          some (some r) →
        r.normal.x ^ 2 + r.normal.y ^ 2 = 1 ∧
        r.normal ∈
          testedAxes [⟨0, 0⟩, ⟨2, 0⟩, ⟨0, 2⟩] [⟨1, 0⟩, ⟨3, 0⟩, ⟨1, 2⟩] ∧
        r.depth =
          overlapOn [⟨0, 0⟩, ⟨2, 0⟩, ⟨0, 2⟩] [⟨1, 0⟩, ⟨3, 0⟩, ⟨1, 2⟩]
            r.normal ∧
        ∀ ax ∈ testedAxes [⟨0, 0⟩, ⟨2, 0⟩, ⟨0, 2⟩] [⟨1, 0⟩, ⟨3, 0⟩, ⟨1, 2⟩],
          0 < overlapOn [⟨0, 0⟩, ⟨2, 0⟩, ⟨0, 2⟩] [⟨1, 0⟩, ⟨3, 0⟩, ⟨1, 2⟩] ax ∧
          r.depth ≤
            overlapOn [⟨0, 0⟩, ⟨2, 0⟩, ⟨0, 2⟩] [⟨1, 0⟩, ⟨3, 0⟩, ⟨1, 2⟩] ax) ∧
    (polygonPolygonSAT [⟨0, 0⟩, ⟨2, 0⟩, ⟨0, 2⟩] [⟨1, 0⟩, ⟨3, 0⟩, ⟨1, 2⟩] ≠
        none →
      ∃ r : SatResult,
        polygonPolygonSAT [⟨0, 0⟩, ⟨2, 0⟩, ⟨0, 2⟩] [⟨1, 0⟩, ⟨3, 0⟩, ⟨1, 2⟩] =
          some (some r))) := by
  have hnd : ¬ edgeDegenerate (⟨0, 0⟩ : Vec2) ⟨2, 0⟩ := by
    intro h
    simp only [edgeDegenerate, hypot] at h
    rw [Real.sqrt_eq_zero'] at h
    norm_num at h
  have hmem : ((⟨0, 0⟩ : Vec2), (⟨2, 0⟩ : Vec2)) ∈
      edgesOf ([⟨0, 0⟩, ⟨2, 0⟩, ⟨0, 2⟩] : List Vec2) ++
        edgesOf ([⟨1, 0⟩, ⟨3, 0⟩, ⟨1, 2⟩] : List Vec2) := by
    exact List.mem_append_left _ (List.mem_cons_self _ _)
  have haxne : testedAxes [⟨0, 0⟩, ⟨2, 0⟩, ⟨0, 2⟩]
      [⟨1, 0⟩, ⟨3, 0⟩, ⟨1, 2⟩] ≠ [] := by
    refine List.ne_nil_of_mem (a := edgeAxis ⟨0, 0⟩ ⟨2, 0⟩) ?_
    exact List.mem_map.mpr
      ⟨(⟨0, 0⟩, ⟨2, 0⟩), List.mem_filter.mpr ⟨hmem, by simpa using hnd⟩, rfl⟩
  exact ⟨by simp, by simp, haxne,
    polygonPolygonSAT_spec _ _ (by simp) (by simp) haxne⟩

/-! ## Concrete SAT evaluation on axis-aligned boxes -/

theorem hypot_nonneg (x y : ℝ) : 0 ≤ hypot x y := Real.sqrt_nonneg _

theorem hypot_ne_zero {x y : ℝ} (h : x ≠ 0 ∨ y ≠ 0) : hypot x y ≠ 0 := by
  unfold hypot
  intro h0
  rw [Real.sqrt_eq_zero'] at h0
  rcases h with h | h
  · nlinarith [sq_nonneg y, sq_pos_of_ne_zero h]
  · nlinarith [sq_nonneg x, sq_pos_of_ne_zero h]

theorem edge_nondeg {p q : Vec2} (h : p.x ≠ q.x ∨ p.y ≠ q.y) :
    ¬ hypot (-(q.y - p.y)) (q.x - p.x) = 0 := by
  apply hypot_ne_zero
  rcases h with h | h
  · exact Or.inr (sub_ne_zero.mpr (Ne.symm h))
  · refine Or.inl fun h0 => h ?_
    have h1 : q.y - p.y = 0 := neg_eq_zero.mp h0
    exact (sub_eq_zero.mp h1).symm

theorem edgeAxis_eval {p q : Vec2} {ax ay L : ℝ} (hL : 0 < L)
    (hx : -(q.y - p.y) = ax * L) (hy : q.x - p.x = ay * L)
    (hunit : ax ^ 2 + ay ^ 2 = 1) :
    edgeAxis p q = ⟨ax, ay⟩ := by
  have hL0 : L ≠ 0 := ne_of_gt hL
  have hlen : Real.sqrt ((-(q.y - p.y)) ^ 2 + (q.x - p.x) ^ 2) = L := by
    rw [hx, hy, show (ax * L) ^ 2 + (ay * L) ^ 2 = (ax ^ 2 + ay ^ 2) * L ^ 2
      by ring, hunit, one_mul]
    exact Real.sqrt_sq (le_of_lt hL)
  simp only [edgeAxis, hypot, Vec2.mk.injEq]
  rw [hlen, hx, hy]
  constructor <;> field_simp

theorem projectOntoAxis_four (v0 v1 v2 v3 axis : Vec2) :
    projectOntoAxis [v0, v1, v2, v3] axis =
      ⟨min (min (min (v0.x * axis.x + v0.y * axis.y)
            (v1.x * axis.x + v1.y * axis.y))
          (v2.x * axis.x + v2.y * axis.y))
        (v3.x * axis.x + v3.y * axis.y),
       max (max (max (v0.x * axis.x + v0.y * axis.y)
            (v1.x * axis.x + v1.y * axis.y))
          (v2.x * axis.x + v2.y * axis.y))
        (v3.x * axis.x + v3.y * axis.y)⟩ := rfl

theorem projectOntoAxis_box (XL XH YL YH : ℝ) (hx : XL ≤ XH) (hy : YL ≤ YH) :
    projectOntoAxis [⟨XL, YL⟩, ⟨XH, YL⟩, ⟨XH, YH⟩, ⟨XL, YH⟩] ⟨0, 1⟩ =
      ⟨YL, YH⟩ ∧
    projectOntoAxis [⟨XL, YL⟩, ⟨XH, YL⟩, ⟨XH, YH⟩, ⟨XL, YH⟩] ⟨-1, 0⟩ =
      ⟨-XH, -XL⟩ ∧
    projectOntoAxis [⟨XL, YL⟩, ⟨XH, YL⟩, ⟨XH, YH⟩, ⟨XL, YH⟩] ⟨0, -1⟩ =
      ⟨-YH, -YL⟩ ∧
    projectOntoAxis [⟨XL, YL⟩, ⟨XH, YL⟩, ⟨XH, YH⟩, ⟨XL, YH⟩] ⟨1, 0⟩ =
      ⟨XL, XH⟩ := by
  have hx' : -XH ≤ -XL := neg_le_neg hx
  have hy' : -YH ≤ -YL := neg_le_neg hy
  refine ⟨?_, ?_, ?_, ?_⟩
  · show (⟨min (min (min (XL * 0 + YL * 1) (XH * 0 + YL * 1)) (XH * 0 + YH * 1))
        (XL * 0 + YH * 1),
      max (max (max (XL * 0 + YL * 1) (XH * 0 + YL * 1)) (XH * 0 + YH * 1))
        (XL * 0 + YH * 1)⟩ : Interval) = ⟨YL, YH⟩
    rw [show XL * 0 + YL * 1 = YL by ring, show XH * 0 + YL * 1 = YL by ring,
      show XH * 0 + YH * 1 = YH by ring, show XL * 0 + YH * 1 = YH by ring]
    rw [min_self, min_eq_left hy, min_eq_left hy,
      max_self, max_eq_right hy, max_self]
  · show (⟨min (min (min (XL * -1 + YL * 0) (XH * -1 + YL * 0))
          (XH * -1 + YH * 0)) (XL * -1 + YH * 0),
      max (max (max (XL * -1 + YL * 0) (XH * -1 + YL * 0)) (XH * -1 + YH * 0))
        (XL * -1 + YH * 0)⟩ : Interval) = ⟨-XH, -XL⟩
    rw [show XL * -1 + YL * 0 = -XL by ring,
      show XH * -1 + YL * 0 = -XH by ring,
      show XH * -1 + YH * 0 = -XH by ring,
      show XL * -1 + YH * 0 = -XL by ring]
    rw [min_eq_right hx', min_self, min_eq_left hx',
      max_eq_left hx', max_eq_left hx', max_self]
  · show (⟨min (min (min (XL * 0 + YL * -1) (XH * 0 + YL * -1))
          (XH * 0 + YH * -1)) (XL * 0 + YH * -1),
      max (max (max (XL * 0 + YL * -1) (XH * 0 + YL * -1)) (XH * 0 + YH * -1))
        (XL * 0 + YH * -1)⟩ : Interval) = ⟨-YH, -YL⟩
    rw [show XL * 0 + YL * -1 = -YL by ring,
      show XH * 0 + YL * -1 = -YL by ring,
      show XH * 0 + YH * -1 = -YH by ring,
      show XL * 0 + YH * -1 = -YH by ring]
    rw [min_self, min_eq_right hy', min_self,
      max_self, max_eq_left hy', max_eq_left hy']
  · show (⟨min (min (min (XL * 1 + YL * 0) (XH * 1 + YL * 0))
          (XH * 1 + YH * 0)) (XL * 1 + YH * 0),
      max (max (max (XL * 1 + YL * 0) (XH * 1 + YL * 0)) (XH * 1 + YH * 0))
        (XL * 1 + YH * 0)⟩ : Interval) = ⟨XL, XH⟩
    rw [show XL * 1 + YL * 0 = XL by ring, show XH * 1 + YL * 0 = XH by ring,
      show XH * 1 + YH * 0 = XH by ring, show XL * 1 + YH * 0 = XL by ring]
    rw [min_eq_left hx, min_eq_left hx, min_self,
      max_eq_right hx, max_self, max_eq_left hx]

set_option maxHeartbeats 1600000 in
theorem polygonPolygonSAT_boxes (cx dx s t : ℝ) (hs : 0 < s) (ht : 0 < t)
    (hL : cx - s < dx - t) (hR : cx + s < dx + t)
    (hox : 0 < cx + s - (dx - t))
    (h1 : cx + s - (dx - t) < 2 * s) (h2 : cx + s - (dx - t) < 2 * t) :
    polygonPolygonSAT
        [⟨cx - s, -s⟩, ⟨cx + s, -s⟩, ⟨cx + s, s⟩, ⟨cx - s, s⟩]
        [⟨dx - t, -t⟩, ⟨dx + t, -t⟩, ⟨dx + t, t⟩, ⟨dx - t, t⟩] =
      some (some ⟨⟨-1, 0⟩, cx + s - (dx - t)⟩) := by
  obtain ⟨pA1, pA2, pA3, pA4⟩ :=
    projectOntoAxis_box (cx - s) (cx + s) (-s) s (by linarith) (by linarith)
  obtain ⟨pB1, pB2, pB3, pB4⟩ :=
    projectOntoAxis_box (dx - t) (dx + t) (-t) t (by linarith) (by linarith)
  have hmin : 0 < min s t := lt_min hs ht
  have hoxlt : cx + s - (dx - t) < 2 * min s t := by
    rcases le_total s t with hst | hst
    · rw [min_eq_left hst]; linarith
    · rw [min_eq_right hst]; linarith
  have hoy : overlapOn
      [⟨cx - s, -s⟩, ⟨cx + s, -s⟩, ⟨cx + s, s⟩, ⟨cx - s, s⟩]
      [⟨dx - t, -t⟩, ⟨dx + t, -t⟩, ⟨dx + t, t⟩, ⟨dx - t, t⟩] ⟨0, 1⟩ =
      2 * min s t := by
    unfold overlapOn
    rw [pA1, pB1]
    show min s t - max (-s) (-t) = 2 * min s t
    rw [max_neg_neg]
    ring
  have honegy : overlapOn
      [⟨cx - s, -s⟩, ⟨cx + s, -s⟩, ⟨cx + s, s⟩, ⟨cx - s, s⟩]
      [⟨dx - t, -t⟩, ⟨dx + t, -t⟩, ⟨dx + t, t⟩, ⟨dx - t, t⟩] ⟨0, -1⟩ =
      2 * min s t := by
    unfold overlapOn
    rw [pA3, pB3]
    show min (- -s) (- -t) - max (-s) (-t) = 2 * min s t
    rw [neg_neg, neg_neg, max_neg_neg]
    ring
  have honegx : overlapOn
      [⟨cx - s, -s⟩, ⟨cx + s, -s⟩, ⟨cx + s, s⟩, ⟨cx - s, s⟩]
      [⟨dx - t, -t⟩, ⟨dx + t, -t⟩, ⟨dx + t, t⟩, ⟨dx - t, t⟩] ⟨-1, 0⟩ =
      cx + s - (dx - t) := by
    unfold overlapOn
    rw [pA2, pB2]
    show min (-(cx - s)) (-(dx - t)) - max (-(cx + s)) (-(dx + t)) =
      cx + s - (dx - t)
    rw [min_neg_neg, max_neg_neg, max_eq_right (le_of_lt hL),
      min_eq_left (le_of_lt hR)]
    ring
  have hopx : overlapOn
      [⟨cx - s, -s⟩, ⟨cx + s, -s⟩, ⟨cx + s, s⟩, ⟨cx - s, s⟩]
      [⟨dx - t, -t⟩, ⟨dx + t, -t⟩, ⟨dx + t, t⟩, ⟨dx - t, t⟩] ⟨1, 0⟩ =
      cx + s - (dx - t) := by
    unfold overlapOn
    rw [pA4, pB4]
    show min (cx + s) (dx + t) - max (cx - s) (dx - t) = cx + s - (dx - t)
    rw [max_eq_right (le_of_lt hL), min_eq_left (le_of_lt hR)]
  -- the eight edge axes
  have hax1 : edgeAxis (⟨cx - s, -s⟩ : Vec2) ⟨cx + s, -s⟩ = ⟨0, 1⟩ :=
    edgeAxis_eval (L := 2 * s) (by linarith)
      (show -((-s : ℝ) - -s) = 0 * (2 * s) by ring)
      (show (cx + s) - (cx - s) = 1 * (2 * s) by ring) (by norm_num)
  have hax2 : edgeAxis (⟨cx + s, -s⟩ : Vec2) ⟨cx + s, s⟩ = ⟨-1, 0⟩ :=
    edgeAxis_eval (L := 2 * s) (by linarith)
      (show -((s : ℝ) - -s) = (-1) * (2 * s) by ring)
      (show (cx + s) - (cx + s) = 0 * (2 * s) by ring) (by norm_num)
  have hax3 : edgeAxis (⟨cx + s, s⟩ : Vec2) ⟨cx - s, s⟩ = ⟨0, -1⟩ :=
    edgeAxis_eval (L := 2 * s) (by linarith)
      (show -((s : ℝ) - s) = 0 * (2 * s) by ring)
      (show (cx - s) - (cx + s) = (-1) * (2 * s) by ring) (by norm_num)
  have hax4 : edgeAxis (⟨cx - s, s⟩ : Vec2) ⟨cx - s, -s⟩ = ⟨1, 0⟩ :=
    edgeAxis_eval (L := 2 * s) (by linarith)
      (show -((-s : ℝ) - s) = 1 * (2 * s) by ring)
      (show (cx - s) - (cx - s) = 0 * (2 * s) by ring) (by norm_num)
  have hbx1 : edgeAxis (⟨dx - t, -t⟩ : Vec2) ⟨dx + t, -t⟩ = ⟨0, 1⟩ :=
    edgeAxis_eval (L := 2 * t) (by linarith)
      (show -((-t : ℝ) - -t) = 0 * (2 * t) by ring)
      (show (dx + t) - (dx - t) = 1 * (2 * t) by ring) (by norm_num)
  have hbx2 : edgeAxis (⟨dx + t, -t⟩ : Vec2) ⟨dx + t, t⟩ = ⟨-1, 0⟩ :=
    edgeAxis_eval (L := 2 * t) (by linarith)
      (show -((t : ℝ) - -t) = (-1) * (2 * t) by ring)
      (show (dx + t) - (dx + t) = 0 * (2 * t) by ring) (by norm_num)
  have hbx3 : edgeAxis (⟨dx + t, t⟩ : Vec2) ⟨dx - t, t⟩ = ⟨0, -1⟩ :=
    edgeAxis_eval (L := 2 * t) (by linarith)
      (show -((t : ℝ) - t) = 0 * (2 * t) by ring)
      (show (dx - t) - (dx + t) = (-1) * (2 * t) by ring) (by norm_num)
  have hbx4 : edgeAxis (⟨dx - t, t⟩ : Vec2) ⟨dx - t, -t⟩ = ⟨1, 0⟩ :=
    edgeAxis_eval (L := 2 * t) (by linarith)
      (show -((-t : ℝ) - t) = 1 * (2 * t) by ring)
      (show (dx - t) - (dx - t) = 0 * (2 * t) by ring) (by norm_num)
  -- nondegeneracy of the eight edges
  have hndA1 : ¬ hypot (-((-s : ℝ) - -s)) ((cx + s) - (cx - s)) = 0 :=
    edge_nondeg (p := ⟨cx - s, -s⟩) (q := ⟨cx + s, -s⟩)
      (Or.inl (ne_of_lt (show cx - s < cx + s by linarith)))
  have hndA2 : ¬ hypot (-((s : ℝ) - -s)) ((cx + s) - (cx + s)) = 0 :=
    edge_nondeg (p := ⟨cx + s, -s⟩) (q := ⟨cx + s, s⟩)
      (Or.inr (ne_of_lt (show (-s : ℝ) < s by linarith)))
  have hndA3 : ¬ hypot (-((s : ℝ) - s)) ((cx - s) - (cx + s)) = 0 :=
    edge_nondeg (p := ⟨cx + s, s⟩) (q := ⟨cx - s, s⟩)
      (Or.inl (ne_of_gt (show cx - s < cx + s by linarith)))
  have hndA4 : ¬ hypot (-((-s : ℝ) - s)) ((cx - s) - (cx - s)) = 0 :=
    edge_nondeg (p := ⟨cx - s, s⟩) (q := ⟨cx - s, -s⟩)
      (Or.inr (ne_of_gt (show (-s : ℝ) < s by linarith)))
  have hndB1 : ¬ hypot (-((-t : ℝ) - -t)) ((dx + t) - (dx - t)) = 0 :=
    edge_nondeg (p := ⟨dx - t, -t⟩) (q := ⟨dx + t, -t⟩)
      (Or.inl (ne_of_lt (show dx - t < dx + t by linarith)))
  have hndB2 : ¬ hypot (-((t : ℝ) - -t)) ((dx + t) - (dx + t)) = 0 :=
    edge_nondeg (p := ⟨dx + t, -t⟩) (q := ⟨dx + t, t⟩)
      (Or.inr (ne_of_lt (show (-t : ℝ) < t by linarith)))
  have hndB3 : ¬ hypot (-((t : ℝ) - t)) ((dx - t) - (dx + t)) = 0 :=
    edge_nondeg (p := ⟨dx + t, t⟩) (q := ⟨dx - t, t⟩)
      (Or.inl (ne_of_gt (show dx - t < dx + t by linarith)))
  have hndB4 : ¬ hypot (-((-t : ℝ) - t)) ((dx - t) - (dx - t)) = 0 :=
    edge_nondeg (p := ⟨dx - t, t⟩) (q := ⟨dx - t, -t⟩)
      (Or.inr (ne_of_gt (show (-t : ℝ) < t by linarith)))
  rw [polygonPolygonSAT]
  have hca : checkAxes
      [⟨cx - s, -s⟩, ⟨cx + s, -s⟩, ⟨cx + s, s⟩, ⟨cx - s, s⟩]
      [⟨dx - t, -t⟩, ⟨dx + t, -t⟩, ⟨dx + t, t⟩, ⟨dx - t, t⟩]
      (edgesOf [⟨cx - s, -s⟩, ⟨cx + s, -s⟩, ⟨cx + s, s⟩, ⟨cx - s, s⟩]) none =
      some (some ⟨⟨-1, 0⟩, cx + s - (dx - t)⟩) := by
    show checkAxes _ _
      [((⟨cx - s, -s⟩ : Vec2), (⟨cx + s, -s⟩ : Vec2)),
       (⟨cx + s, -s⟩, ⟨cx + s, s⟩), (⟨cx + s, s⟩, ⟨cx - s, s⟩),
       (⟨cx - s, s⟩, ⟨cx - s, -s⟩)] none = _
    rw [checkAxes_pair_of_some ⟨cx - s, -s⟩ ⟨cx + s, -s⟩ (axisStep_start ⟨cx - s, -s⟩ ⟨cx + s, -s⟩ hndA1
      (by rw [hax1, hoy]; exact not_le.mpr (by linarith)))]
    rw [hax1, hoy]
    rw [checkAxes_pair_of_some ⟨cx + s, -s⟩ ⟨cx + s, s⟩ (axisStep_update ⟨cx + s, -s⟩ ⟨cx + s, s⟩
      ⟨⟨0, 1⟩, 2 * min s t⟩ hndA2
      (by rw [hax2, honegx]; exact not_le.mpr hox)
      (by rw [hax2, honegx]; exact hoxlt))]
    rw [hax2, honegx]
    rw [checkAxes_pair_of_some ⟨cx + s, s⟩ ⟨cx - s, s⟩ (axisStep_keep ⟨cx + s, s⟩ ⟨cx - s, s⟩
      ⟨⟨-1, 0⟩, cx + s - (dx - t)⟩ hndA3
      (by rw [hax3, honegy]; exact not_le.mpr (by linarith))
      (by rw [hax3, honegy]; exact not_lt.mpr (le_of_lt hoxlt)))]
    rw [checkAxes_pair_of_some ⟨cx - s, s⟩ ⟨cx - s, -s⟩ (axisStep_keep ⟨cx - s, s⟩ ⟨cx - s, -s⟩
      ⟨⟨-1, 0⟩, cx + s - (dx - t)⟩ hndA4
      (by rw [hax4, hopx]; exact not_le.mpr hox)
      (by rw [hax4, hopx]; exact lt_irrefl _))]
    rfl
  rw [hca, Option.some_bind]
  show checkAxes _ _
    [((⟨dx - t, -t⟩ : Vec2), (⟨dx + t, -t⟩ : Vec2)),
     (⟨dx + t, -t⟩, ⟨dx + t, t⟩), (⟨dx + t, t⟩, ⟨dx - t, t⟩),
     (⟨dx - t, t⟩, ⟨dx - t, -t⟩)] _ = _
  rw [checkAxes_pair_of_some ⟨dx - t, -t⟩ ⟨dx + t, -t⟩ (axisStep_keep ⟨dx - t, -t⟩ ⟨dx + t, -t⟩
    ⟨⟨-1, 0⟩, cx + s - (dx - t)⟩ hndB1
    (by rw [hbx1, hoy]; exact not_le.mpr (by linarith))
    (by rw [hbx1, hoy]; exact not_lt.mpr (le_of_lt hoxlt)))]
  rw [checkAxes_pair_of_some ⟨dx + t, -t⟩ ⟨dx + t, t⟩ (axisStep_keep ⟨dx + t, -t⟩ ⟨dx + t, t⟩
    ⟨⟨-1, 0⟩, cx + s - (dx - t)⟩ hndB2
    (by rw [hbx2, honegx]; exact not_le.mpr hox)
    (by rw [hbx2, honegx]; exact lt_irrefl _))]
  rw [checkAxes_pair_of_some ⟨dx + t, t⟩ ⟨dx - t, t⟩ (axisStep_keep ⟨dx + t, t⟩ ⟨dx - t, t⟩
    ⟨⟨-1, 0⟩, cx + s - (dx - t)⟩ hndB3
    (by rw [hbx3, honegy]; exact not_le.mpr (by linarith))
    (by rw [hbx3, honegy]; exact not_lt.mpr (le_of_lt hoxlt)))]
  rw [checkAxes_pair_of_some ⟨dx - t, t⟩ ⟨dx - t, -t⟩ (axisStep_keep ⟨dx - t, t⟩ ⟨dx - t, -t⟩
    ⟨⟨-1, 0⟩, cx + s - (dx - t)⟩ hndB4
    (by rw [hbx4, hopx]; exact not_le.mpr hox)
    (by rw [hbx4, hopx]; exact lt_irrefl _))]
  rfl

/-! ## Claim C6: the impulse response -/

theorem shapeType_total (t : ShapeType) :
    t = ShapeType.rect ∨ t = ShapeType.tri ∨ t = ShapeType.circle := by
  cases t <;> simp

/-- The two sequential clamps of the source bound the result by `±4`. -/
theorem clamped_abs_le (w : ℝ) :
    |if (if w > 4 then (4 : ℝ) else w) < -4 then (-4 : ℝ)
      else if w > 4 then (4 : ℝ) else w| ≤ 4 := by
  by_cases h1 : w > 4
  · rw [if_pos h1, if_neg (show ¬ (4 : ℝ) < -4 by norm_num)]
    norm_num
  · rw [if_neg h1]
    by_cases h2 : w < -4
    · rw [if_pos h2]
      norm_num
    · rw [if_neg h2]
      exact abs_le.mpr ⟨le_of_not_lt h2, le_of_not_lt h1⟩

/-- C6: for a colliding pair of non-dragged bodies, when the relative
velocity along the (oriented, unit-length) collision normal is negative,
the applied impulse realizes restitution `1.0` split by inverse mass —
after the impulse the relative normal velocity is the exact negation of
its previous value — and both resulting angular velocities are clamped to
`|ω| ≤ 4`; when the relative normal velocity is non-negative, no impulse
is applied (velocities and spins are untouched). -/
theorem collision_impulse_spec (ct : Bool) (a b : Body) (res : SatResult)
    (hsat : polygonPolygonSAT (getWorldVertices a) (getWorldVertices b) =
      some (some res))
    (hda : a.isDragged = false) (hdb : b.isDragged = false)
    (hia : 0 < a.invMass) (hib : 0 < b.invMass)
    (hn : (orientedNormal a b res.normal).x ^ 2 +
      (orientedNormal a b res.normal).y ^ 2 = 1) :
    (relVelAlong a b (orientedNormal a b res.normal) < 0 →
      relVelAlong (resolveBodies ct a b).1 (resolveBodies ct a b).2
          (orientedNormal a b res.normal) =
        -(relVelAlong a b (orientedNormal a b res.normal)) ∧
      |(resolveBodies ct a b).1.angularVelocity| ≤ 4 ∧
      |(resolveBodies ct a b).2.angularVelocity| ≤ 4) ∧
    (0 ≤ relVelAlong a b (orientedNormal a b res.normal) →
      (resolveBodies ct a b).1.velocity = a.velocity ∧
      (resolveBodies ct a b).2.velocity = b.velocity ∧
      (resolveBodies ct a b).1.angularVelocity = a.angularVelocity ∧
      (resolveBodies ct a b).2.angularVelocity = b.angularVelocity) := by
  have hsum : a.invMass + b.invMass ≠ 0 := by positivity
  constructor
  · intro hvel
    have hvel' : (b.velocity.x - a.velocity.x) *
          (orientedNormal a b res.normal).x +
        (b.velocity.y - a.velocity.y) * (orientedNormal a b res.normal).y <
          0 := hvel
    simp only [resolveBodies, hsat, hda, hdb, Bool.false_eq_true, if_false,
      if_neg hsum, if_pos hvel', if_pos (shapeType_total _)]
    cases ct <;>
      simp only [transferColorOnCollision, Bool.false_eq_true, if_false,
        if_true] <;>
    · refine ⟨?_, clamped_abs_le _, clamped_abs_le _⟩
      unfold relVelAlong
      field_simp
      linear_combination (-2 * ((b.velocity.x - a.velocity.x) *
          (orientedNormal a b res.normal).x +
        (b.velocity.y - a.velocity.y) *
          (orientedNormal a b res.normal).y) *
        (a.invMass + b.invMass)) * hn
  · intro hvel
    have hvel' : ¬ ((b.velocity.x - a.velocity.x) *
          (orientedNormal a b res.normal).x +
        (b.velocity.y - a.velocity.y) * (orientedNormal a b res.normal).y <
          0) := not_lt.mpr hvel
    simp only [resolveBodies, hsat, hda, hdb, Bool.false_eq_true, if_false,
      if_neg hsum, if_neg hvel']
    exact ⟨by trivial, by trivial, by trivial, by trivial⟩

theorem getWorldVertices_squareBody (cx half mass vx : ℝ) (ci : ℕ) :
    getWorldVertices (squareBody cx half mass vx ci) =
      [⟨cx - half, -half⟩, ⟨cx + half, -half⟩, ⟨cx + half, half⟩,
        ⟨cx - half, half⟩] := by
  simp only [getWorldVertices, transformVerts, squareBody, rectVerts,
    List.map_cons, List.map_nil, Real.cos_zero, Real.sin_zero,
    List.cons.injEq, List.nil_eq, and_true, Vec2.mk.injEq]
  refine ⟨⟨by ring, by ring⟩, ⟨by ring, by ring⟩, ⟨by ring, by ring⟩,
    by ring, by ring⟩

theorem impulse_witness_sat :
    polygonPolygonSAT (getWorldVertices (squareBody 0 1 2 1 2))
        (getWorldVertices (squareBody 1.2 0.4 0.32 (-1) 7)) =
      some (some ⟨⟨-1, 0⟩, 0 + 1 - (1.2 - 0.4)⟩) := by
  rw [getWorldVertices_squareBody, getWorldVertices_squareBody]
  exact polygonPolygonSAT_boxes 0 1.2 1 0.4 (by norm_num) (by norm_num)
    (by norm_num) (by norm_num) (by norm_num) (by norm_num) (by norm_num)

theorem impulse_witness_normal :
    orientedNormal (squareBody 0 1 2 1 2) (squareBody 1.2 0.4 0.32 (-1) 7)
      ⟨-1, 0⟩ = ⟨1, 0⟩ := by
  unfold orientedNormal
  rw [if_pos]
  · show (⟨(-1 : ℝ) * (-1), (0 : ℝ) * (-1)⟩ : Vec2) = ⟨1, 0⟩
    norm_num
  · show ((1.2 : ℝ) - 0) * (-1) + ((0 : ℝ) - 0) * 0 < 0
    norm_num

theorem collision_impulse_spec_witness :
    polygonPolygonSAT (getWorldVertices (squareBody 0 1 2 1 2))
        (getWorldVertices (squareBody 1.2 0.4 0.32 (-1) 7)) =
      some (some ⟨⟨-1, 0⟩, 0 + 1 - (1.2 - 0.4)⟩) ∧
    (squareBody 0 1 2 1 2).isDragged = false ∧
    (squareBody 1.2 0.4 0.32 (-1) 7).isDragged = false ∧
    0 < (squareBody 0 1 2 1 2).invMass ∧
    0 < (squareBody 1.2 0.4 0.32 (-1) 7).invMass ∧
    (orientedNormal (squareBody 0 1 2 1 2) (squareBody 1.2 0.4 0.32 (-1) 7)
        ⟨-1, 0⟩).x ^ 2 +
      (orientedNormal (squareBody 0 1 2 1 2)
        (squareBody 1.2 0.4 0.32 (-1) 7) ⟨-1, 0⟩).y ^ 2 = 1 ∧
    ((relVelAlong (squareBody 0 1 2 1 2) (squareBody 1.2 0.4 0.32 (-1) 7)
        (orientedNormal (squareBody 0 1 2 1 2)
          (squareBody 1.2 0.4 0.32 (-1) 7) ⟨-1, 0⟩) < 0 →
      relVelAlong
          (resolveBodies false (squareBody 0 1 2 1 2)
            (squareBody 1.2 0.4 0.32 (-1) 7)).1
          (resolveBodies false (squareBody 0 1 2 1 2)
            (squareBody 1.2 0.4 0.32 (-1) 7)).2
          (orientedNormal (squareBody 0 1 2 1 2)
            (squareBody 1.2 0.4 0.32 (-1) 7) ⟨-1, 0⟩) =
        -(relVelAlong (squareBody 0 1 2 1 2) (squareBody 1.2 0.4 0.32 (-1) 7)
          (orientedNormal (squareBody 0 1 2 1 2)
            (squareBody 1.2 0.4 0.32 (-1) 7) ⟨-1, 0⟩)) ∧
      |(resolveBodies false (squareBody 0 1 2 1 2)
          (squareBody 1.2 0.4 0.32 (-1) 7)).1.angularVelocity| ≤ 4 ∧
      |(resolveBodies false (squareBody 0 1 2 1 2)
          (squareBody 1.2 0.4 0.32 (-1) 7)).2.angularVelocity| ≤ 4) ∧
    (0 ≤ relVelAlong (squareBody 0 1 2 1 2) (squareBody 1.2 0.4 0.32 (-1) 7)
        (orientedNormal (squareBody 0 1 2 1 2)
          (squareBody 1.2 0.4 0.32 (-1) 7) ⟨-1, 0⟩) →
      (resolveBodies false (squareBody 0 1 2 1 2)
          (squareBody 1.2 0.4 0.32 (-1) 7)).1.velocity =
        (squareBody 0 1 2 1 2).velocity ∧
      (resolveBodies false (squareBody 0 1 2 1 2)
          (squareBody 1.2 0.4 0.32 (-1) 7)).2.velocity =
        (squareBody 1.2 0.4 0.32 (-1) 7).velocity ∧
      (resolveBodies false (squareBody 0 1 2 1 2)
          (squareBody 1.2 0.4 0.32 (-1) 7)).1.angularVelocity =
        (squareBody 0 1 2 1 2).angularVelocity ∧
      (resolveBodies false (squareBody 0 1 2 1 2)
          (squareBody 1.2 0.4 0.32 (-1) 7)).2.angularVelocity =
        (squareBody 1.2 0.4 0.32 (-1) 7).angularVelocity)) := by
  refine ⟨impulse_witness_sat, rfl, rfl, by norm_num [squareBody],
    by norm_num [squareBody], by rw [impulse_witness_normal]; norm_num, ?_⟩
  exact collision_impulse_spec false (squareBody 0 1 2 1 2)
    (squareBody 1.2 0.4 0.32 (-1) 7) ⟨⟨-1, 0⟩, 0 + 1 - (1.2 - 0.4)⟩
    impulse_witness_sat rfl rfl (by norm_num [squareBody])
    (by norm_num [squareBody]) (by rw [impulse_witness_normal]; norm_num)

/-- In every branch of `resolveBodies`, a dragged first body keeps its
position and velocity (its inverse mass counts as `0`), and stays
dragged. -/
theorem resolveBodies_dragged_fst (ct : Bool) (a b : Body)
    (h : a.isDragged = true) :
    (resolveBodies ct a b).1.pos = a.pos ∧
    (resolveBodies ct a b).1.velocity = a.velocity ∧
    (resolveBodies ct a b).1.isDragged = true := by
  rcases hs : polygonPolygonSAT (getWorldVertices a) (getWorldVertices b) with
    _ | _ | res
  · simp only [resolveBodies, hs]
    exact ⟨by trivial, by trivial, h⟩
  · simp only [resolveBodies, hs]
    exact ⟨by trivial, by trivial, h⟩
  · simp only [resolveBodies, hs, h, if_true, zero_div, mul_zero, sub_zero]
    by_cases hsum : (0 + if b.isDragged = true then (0:ℝ) else b.invMass) = 0
    · simp only [if_pos hsum]
      exact ⟨by trivial, by trivial, h⟩
    · simp only [if_neg hsum]
      by_cases hv : (b.velocity.x - a.velocity.x) *
            (orientedNormal a b res.normal).x +
          (b.velocity.y - a.velocity.y) * (orientedNormal a b res.normal).y < 0
      · simp only [if_pos hv, transferColorOnCollision,
          if_pos (shapeType_total a.shapeType),
          if_pos (shapeType_total b.shapeType)]
        cases ct
        · simp only [Bool.false_eq_true, if_false]
          exact ⟨by trivial, by trivial, by trivial⟩
        · simp only [eq_self_iff_true, if_true]
          exact ⟨by trivial, by trivial, by trivial⟩
      · simp only [if_neg hv]
        exact ⟨by trivial, by trivial, by trivial⟩

/-- In every branch of `resolveBodies`, a dragged second body keeps its
position and velocity, and stays dragged. -/
theorem resolveBodies_dragged_snd (ct : Bool) (a b : Body)
    (h : b.isDragged = true) :
    (resolveBodies ct a b).2.pos = b.pos ∧
    (resolveBodies ct a b).2.velocity = b.velocity ∧
    (resolveBodies ct a b).2.isDragged = true := by
  rcases hs : polygonPolygonSAT (getWorldVertices a) (getWorldVertices b) with
    _ | _ | res
  · simp only [resolveBodies, hs]
    exact ⟨by trivial, by trivial, h⟩
  · simp only [resolveBodies, hs]
    exact ⟨by trivial, by trivial, h⟩
  · simp only [resolveBodies, hs, h, if_true, zero_div, mul_zero, add_zero]
    by_cases hsum : (if a.isDragged = true then (0:ℝ) else a.invMass) = 0
    · simp only [if_pos hsum]
      exact ⟨by trivial, by trivial, h⟩
    · simp only [if_neg hsum]
      by_cases hv : (b.velocity.x - a.velocity.x) *
            (orientedNormal a b res.normal).x +
          (b.velocity.y - a.velocity.y) * (orientedNormal a b res.normal).y < 0
      · simp only [if_pos hv, transferColorOnCollision,
          if_pos (shapeType_total a.shapeType),
          if_pos (shapeType_total b.shapeType)]
        cases ct
        · simp only [Bool.false_eq_true, if_false]
          exact ⟨by trivial, by trivial, by trivial⟩
        · simp only [eq_self_iff_true, if_true]
          exact ⟨by trivial, by trivial, by trivial⟩
      · simp only [if_neg hv]
        exact ⟨by trivial, by trivial, by trivial⟩

/-- One pair-resolution step of the collision loop leaves any dragged
body in place with its velocity untouched. -/
theorem pairStep_dragged (ct : Bool) (bs : List Body) (p : ℕ × ℕ)
    (i : ℕ) (c : Body) (hi : bs.get? i = some c) (hd : c.isDragged = true) :
    ∃ c', (pairStep ct bs p).get? i = some c' ∧ c'.isDragged = true ∧
      c'.pos = c.pos ∧ c'.velocity = c.velocity := by
  obtain ⟨p1, p2⟩ := p
  unfold pairStep
  rcases hj : bs.get? p1 with _ | a
  · exact ⟨c, hi, hd, rfl, rfl⟩
  rcases hk : bs.get? p2 with _ | b
  · exact ⟨c, hi, hd, rfl, rfl⟩
  by_cases h2 : i = p2
  · subst h2
    have hbc : b = c := by rw [hi] at hk; exact (Option.some.injEq _ _ ▸ hk).symm
    subst hbc
    have hlen : i < bs.length := (List.get?_eq_some.mp hi).1
    obtain ⟨g1, g2, g3⟩ := resolveBodies_dragged_snd ct a b hd
    refine ⟨(resolveBodies ct a b).2, ?_, g3, g1, g2⟩
    dsimp only
    rw [List.get?_eq_getElem?, List.getElem?_set_self (by simpa using hlen)]
  · by_cases h1 : i = p1
    · subst h1
      have hac : a = c := by rw [hi] at hj; exact (Option.some.injEq _ _ ▸ hj).symm
      subst hac
      have hlen : i < bs.length := (List.get?_eq_some.mp hi).1
      obtain ⟨g1, g2, g3⟩ := resolveBodies_dragged_fst ct a b hd
      refine ⟨(resolveBodies ct a b).1, ?_, g3, g1, g2⟩
      dsimp only
      rw [List.get?_eq_getElem?, List.getElem?_set_ne (Ne.symm h2),
        List.getElem?_set_self hlen]
    · refine ⟨c, ?_, hd, rfl, rfl⟩
      dsimp only
      rw [List.get?_eq_getElem?, List.getElem?_set_ne (Ne.symm h2),
        List.getElem?_set_ne (Ne.symm h1), ← List.get?_eq_getElem?]
      exact hi

/-- The whole pair loop leaves any dragged body in place with its
velocity untouched. -/
theorem foldl_pairStep_dragged (ct : Bool) (ps : List (ℕ × ℕ))
    (bs : List Body) (i : ℕ) (c : Body) (hi : bs.get? i = some c)
    (hd : c.isDragged = true) :
    ∃ c', (ps.foldl (pairStep ct) bs).get? i = some c' ∧
      c'.isDragged = true ∧ c'.pos = c.pos ∧ c'.velocity = c.velocity := by
  induction ps generalizing bs c with
  | nil => exact ⟨c, hi, hd, rfl, rfl⟩
  | cons p ps ih =>
    obtain ⟨c1, h1, h2, h3, h4⟩ := pairStep_dragged ct bs p i c hi hd
    obtain ⟨c2, g1, g2, g3, g4⟩ := ih (pairStep ct bs p) c1 h1 h2
    exact ⟨c2, g1, g2, g3.trans h3, g4.trans h4⟩

/-- Integration of a dragged body only damps its velocity by `0.9`. -/
theorem integrateBody_dragged (bX bY dt : ℝ) (c : Body)
    (hd : c.isDragged = true) :
    integrateBody bX bY dt c =
      { c with velocity := ⟨c.velocity.x * 0.9, c.velocity.y * 0.9⟩ } := by
  unfold integrateBody
  rw [if_pos hd]

/-- C9: during a running simulation step, every dragged body keeps its
position exactly — it is skipped by integration and wall handling, and
collision resolution moves it by zero because its inverse mass counts as
`0` — and its linear velocity is exactly multiplied by the damping
factor `0.9`, never integrated into the position. -/
theorem dragged_body_step (dt : ℝ) (ct : Bool) (st : WorldState) (i : ℕ)
    (c : Body) (hp : st.physicsEnabled = true)
    (hi : st.bodies.get? i = some c) (hd : c.isDragged = true) :
    ∃ c', (updatePhysics dt ct st).bodies.get? i = some c' ∧
      c'.pos = c.pos ∧
      c'.velocity = ⟨c.velocity.x * 0.9, c.velocity.y * 0.9⟩ := by
  have hmi : (st.bodies.map
        (integrateBody st.worldBoundsX st.worldBoundsY dt)).get? i =
      some (integrateBody st.worldBoundsX st.worldBoundsY dt c) := by
    rw [List.get?_eq_getElem?, List.getElem?_map, ← List.get?_eq_getElem?, hi]
    rfl
  have hci : integrateBody st.worldBoundsX st.worldBoundsY dt c =
      { c with velocity := ⟨c.velocity.x * 0.9, c.velocity.y * 0.9⟩ } :=
    integrateBody_dragged _ _ _ c hd
  obtain ⟨c', h1, h2, h3, h4⟩ := foldl_pairStep_dragged ct
    (allPairs (st.bodies.map
      (integrateBody st.worldBoundsX st.worldBoundsY dt)).length)
    (st.bodies.map (integrateBody st.worldBoundsX st.worldBoundsY dt)) i _
    hmi (by rw [hci]; exact hd)
  have hbodies : (updatePhysics dt ct st).bodies =
      (allPairs (st.bodies.map
        (integrateBody st.worldBoundsX st.worldBoundsY dt)).length).foldl
        (pairStep ct)
        (st.bodies.map (integrateBody st.worldBoundsX st.worldBoundsY dt)) := by
    unfold updatePhysics
    rw [hp, if_neg (by simp)]
    by_cases ham : anyMoving ((allPairs (st.bodies.map
        (integrateBody st.worldBoundsX st.worldBoundsY dt)).length).foldl
        (pairStep ct)
        (st.bodies.map (integrateBody st.worldBoundsX st.worldBoundsY dt))) =
        true
    · rw [if_pos ham]
    · rw [if_neg ham]
  refine ⟨c', ?_, ?_, ?_⟩
  · rw [hbodies]; exact h1
  · rw [h3, hci]
  · rw [h4, hci]

theorem dragged_body_step_witness :
    (⟨[{ squareBody 0 1 2 1 2 with isDragged := true }], 1, true, 4,
        4⟩ : WorldState).physicsEnabled = true ∧
    (⟨[{ squareBody 0 1 2 1 2 with isDragged := true }], 1, true, 4,
        4⟩ : WorldState).bodies.get? 0 =
      some { squareBody 0 1 2 1 2 with isDragged := true } ∧
    { squareBody 0 1 2 1 2 with isDragged := true }.isDragged = true ∧
    ∃ c', (updatePhysics 0.01 false
        ⟨[{ squareBody 0 1 2 1 2 with isDragged := true }], 1, true, 4,
          4⟩).bodies.get? 0 = some c' ∧
      c'.pos = { squareBody 0 1 2 1 2 with isDragged := true }.pos ∧
      c'.velocity =
        ⟨{ squareBody 0 1 2 1 2 with isDragged := true }.velocity.x * 0.9,
          { squareBody 0 1 2 1 2 with isDragged := true }.velocity.y * 0.9⟩ :=
  ⟨rfl, rfl, rfl,
    dragged_body_step 0.01 false
      ⟨[{ squareBody 0 1 2 1 2 with isDragged := true }], 1, true, 4, 4⟩ 0
      { squareBody 0 1 2 1 2 with isDragged := true } rfl rfl rfl⟩

/-- Setting index `i` of a list exchanges the old element for the new
one in the underlying multiset. -/
theorem multiset_set (L : List ℕ) (i : ℕ) (x : ℕ) (h : i < L.length) :
    (↑(L.set i x) : Multiset ℕ) + {L.get ⟨i, h⟩} = ↑L + {x} := by
  induction L generalizing i with
  | nil => exact absurd h (by simp)
  | cons a t ih =>
    cases i with
    | zero =>
      show (↑(x :: t) : Multiset ℕ) + {a} = ↑(a :: t) + {x}
      rw [← Multiset.cons_coe, ← Multiset.cons_coe,
        ← Multiset.singleton_add, ← Multiset.singleton_add]
      abel
    | succ n =>
      show (↑(a :: t.set n x) : Multiset ℕ) + {t.get ⟨n, _⟩} = ↑(a :: t) + {x}
      rw [← Multiset.cons_coe, ← Multiset.cons_coe, Multiset.cons_add,
        Multiset.cons_add]
      rw [ih n (by simpa using h)]

/-- Writing back the two read elements of a list at two distinct
indices, in either order, preserves the underlying multiset. -/
theorem colors_set_set (L : List ℕ) (i j : ℕ) (x y : ℕ)
    (hi : i < L.length) (hj : j < L.length) (hij : i ≠ j)
    (hxy : (x = L.get ⟨i, hi⟩ ∧ y = L.get ⟨j, hj⟩) ∨
           (x = L.get ⟨j, hj⟩ ∧ y = L.get ⟨i, hi⟩)) :
    (↑((L.set i x).set j y) : Multiset ℕ) = ↑L := by
  have hj' : j < (L.set i x).length := by simpa using hj
  have hgj : (L.set i x).get ⟨j, hj'⟩ = L.get ⟨j, hj⟩ := by
    rw [List.get_eq_getElem, List.get_eq_getElem]
    exact List.getElem_set_ne hij _
  have h1 : (↑(L.set i x) : Multiset ℕ) + {L.get ⟨i, hi⟩} = ↑L + {x} :=
    multiset_set L i x hi
  have h2 : (↑((L.set i x).set j y) : Multiset ℕ) + {L.get ⟨j, hj⟩} =
      ↑(L.set i x) + {y} := by
    rw [← hgj]
    exact multiset_set (L.set i x) j y hj'
  rcases hxy with ⟨hx, hy⟩ | ⟨hx, hy⟩
  · subst hx; subst hy
    have e1 : (↑(L.set i (L.get ⟨i, hi⟩)) : Multiset ℕ) = ↑L :=
      add_right_cancel h1
    rw [e1] at h2
    exact add_right_cancel h2
  · subst hx; subst hy
    rw [h1] at h2
    exact add_right_cancel h2



/-- `resolveBodies` either keeps both color indices or swaps them. -/
theorem resolveBodies_colors (ct : Bool) (a b : Body) :
    ((resolveBodies ct a b).1.colorIndex = a.colorIndex ∧
     (resolveBodies ct a b).2.colorIndex = b.colorIndex) ∨
    ((resolveBodies ct a b).1.colorIndex = b.colorIndex ∧
     (resolveBodies ct a b).2.colorIndex = a.colorIndex) := by
  rcases hs : polygonPolygonSAT (getWorldVertices a) (getWorldVertices b) with
    _ | _ | res
  · left; simp only [resolveBodies, hs]; exact ⟨by trivial, by trivial⟩
  · left; simp only [resolveBodies, hs]; exact ⟨by trivial, by trivial⟩
  · simp only [resolveBodies, hs]
    by_cases hsum : ((if a.isDragged = true then (0:ℝ) else a.invMass) +
        if b.isDragged = true then (0:ℝ) else b.invMass) = 0
    · left; simp only [if_pos hsum]; exact ⟨by trivial, by trivial⟩
    · simp only [if_neg hsum]
      by_cases hv : (b.velocity.x - a.velocity.x) *
            (orientedNormal a b res.normal).x +
          (b.velocity.y - a.velocity.y) * (orientedNormal a b res.normal).y < 0
      · simp only [if_pos hv, transferColorOnCollision,
          if_pos (shapeType_total a.shapeType),
          if_pos (shapeType_total b.shapeType)]
        cases ct
        · left; simp only [Bool.false_eq_true, if_false]; exact ⟨by trivial, by trivial⟩
        · right; simp only [eq_self_iff_true, if_true]; exact ⟨by trivial, by trivial⟩
      · left; simp only [if_neg hv]; exact ⟨by trivial, by trivial⟩

/-- Integration never touches the color index. -/
theorem integrateBody_colorIndex (bX bY dt : ℝ) (b : Body) :
    (integrateBody bX bY dt b).colorIndex = b.colorIndex := by
  unfold integrateBody
  by_cases hd : b.isDragged = true
  · rw [if_pos hd]
  · rw [if_neg hd]
    by_cases hw : b.angularVelocity ≠ 0
    · simp only [if_pos hw]
    · simp only [if_neg hw]

/-- One pair-resolution step preserves the multiset of color indices. -/
theorem pairStep_colors (ct : Bool) (bs : List Body) (p : ℕ × ℕ)
    (hp : p.1 ≠ p.2) :
    (↑((pairStep ct bs p).map Body.colorIndex) : Multiset ℕ) =
      ↑(bs.map Body.colorIndex) := by
  obtain ⟨p1, p2⟩ := p
  unfold pairStep
  rcases hj : bs.get? p1 with _ | a
  · rfl
  rcases hk : bs.get? p2 with _ | b
  · rfl
  dsimp only
  have h1 : p1 < bs.length := (List.get?_eq_some.mp hj).1
  have h2 : p2 < bs.length := (List.get?_eq_some.mp hk).1
  have h1' : p1 < (bs.map Body.colorIndex).length := by simpa using h1
  have h2' : p2 < (bs.map Body.colorIndex).length := by simpa using h2
  have ga : (bs.map Body.colorIndex).get ⟨p1, h1'⟩ = a.colorIndex := by
    rw [List.get_eq_getElem, List.getElem_map]
    have := (List.get?_eq_some.mp hj).2
    rw [List.get_eq_getElem] at this
    rw [this]
  have gb : (bs.map Body.colorIndex).get ⟨p2, h2'⟩ = b.colorIndex := by
    rw [List.get_eq_getElem, List.getElem_map]
    have := (List.get?_eq_some.mp hk).2
    rw [List.get_eq_getElem] at this
    rw [this]
  rw [List.map_set, List.map_set]
  refine colors_set_set _ p1 p2 _ _ h1' h2' hp ?_
  rcases resolveBodies_colors ct a b with ⟨c1, c2⟩ | ⟨c1, c2⟩
  · left; rw [ga, gb]; exact ⟨c1, c2⟩
  · right; rw [ga, gb]; exact ⟨c1, c2⟩

/-- The pair loop only visits pairs of distinct indices. -/
theorem allPairs_ne (n : ℕ) (p : ℕ × ℕ) (hp : p ∈ allPairs n) :
    p.1 ≠ p.2 := by
  unfold allPairs at hp
  rw [List.mem_flatMap] at hp
  obtain ⟨i, _, hmem⟩ := hp
  rw [List.mem_map] at hmem
  obtain ⟨j, hj, hpe⟩ := hmem
  rw [List.mem_filter] at hj
  have : i < j := by simpa using hj.2
  rw [← hpe]
  exact Nat.ne_of_lt this

/-- The whole pair loop preserves the multiset of color indices. -/
theorem foldl_pairStep_colors (ct : Bool) (ps : List (ℕ × ℕ))
    (hps : ∀ p ∈ ps, p.1 ≠ p.2) (bs : List Body) :
    (↑((ps.foldl (pairStep ct) bs).map Body.colorIndex) : Multiset ℕ) =
      ↑(bs.map Body.colorIndex) := by
  induction ps generalizing bs with
  | nil => rfl
  | cons p ps ih =>
    rw [List.foldl_cons, ih (fun q hq => hps q (List.mem_cons_of_mem p hq))]
    exact pairStep_colors ct bs p (hps p (List.mem_cons_self p ps))



/-- C8: with color exchange enabled, the two color indices are swapped
exactly when the pair is resolved with approaching relative normal
velocity; a grazing SAT overlap with non-negative relative normal
velocity leaves both colors unchanged; and a whole simulation step
preserves the multiset of color indices over all bodies. -/
theorem color_exchange_spec (dt : ℝ) (st : WorldState) (a b : Body)
    (res : SatResult)
    (hsat : polygonPolygonSAT (getWorldVertices a) (getWorldVertices b) =
      some (some res))
    (hda : a.isDragged = false) (hdb : b.isDragged = false)
    (hia : 0 < a.invMass) (hib : 0 < b.invMass) :
    (relVelAlong a b (orientedNormal a b res.normal) < 0 →
      (resolveBodies true a b).1.colorIndex = b.colorIndex ∧
      (resolveBodies true a b).2.colorIndex = a.colorIndex) ∧
    (0 ≤ relVelAlong a b (orientedNormal a b res.normal) →
      (resolveBodies true a b).1.colorIndex = a.colorIndex ∧
      (resolveBodies true a b).2.colorIndex = b.colorIndex) ∧
    (↑((updatePhysics dt true st).bodies.map Body.colorIndex) : Multiset ℕ) =
      ↑(st.bodies.map Body.colorIndex) := by
  have hsum : a.invMass + b.invMass ≠ 0 := by positivity
  refine ⟨?_, ?_, ?_⟩
  · intro hvel
    have hvel' : (b.velocity.x - a.velocity.x) *
          (orientedNormal a b res.normal).x +
        (b.velocity.y - a.velocity.y) * (orientedNormal a b res.normal).y <
          0 := hvel
    simp only [resolveBodies, hsat, hda, hdb, Bool.false_eq_true, if_false,
      if_neg hsum, if_pos hvel', if_pos (shapeType_total _),
      transferColorOnCollision, eq_self_iff_true, if_true]
    exact ⟨by trivial, by trivial⟩
  · intro hvel
    have hvel' : ¬ ((b.velocity.x - a.velocity.x) *
          (orientedNormal a b res.normal).x +
        (b.velocity.y - a.velocity.y) * (orientedNormal a b res.normal).y <
          0) := not_lt.mpr hvel
    simp only [resolveBodies, hsat, hda, hdb, Bool.false_eq_true, if_false,
      if_neg hsum, if_neg hvel']
    exact ⟨by trivial, by trivial⟩
  · unfold updatePhysics
    by_cases hpe : st.physicsEnabled = false
    · rw [if_pos hpe]
    · rw [if_neg hpe]
      have hmap : ((st.bodies.map
            (integrateBody st.worldBoundsX st.worldBoundsY dt)).map
            Body.colorIndex) = st.bodies.map Body.colorIndex := by
        rw [List.map_map]
        exact List.map_congr_left (fun x _ => integrateBody_colorIndex _ _ _ x)
      have hfold : (↑((((allPairs (st.bodies.map
            (integrateBody st.worldBoundsX st.worldBoundsY dt)).length)).foldl
            (pairStep true)
            (st.bodies.map (integrateBody st.worldBoundsX st.worldBoundsY
              dt))).map Body.colorIndex) : Multiset ℕ) =
          ↑(st.bodies.map Body.colorIndex) := by
        rw [foldl_pairStep_colors true _ (fun p hp => allPairs_ne _ p hp) _]
        rw [hmap]
      by_cases ham : anyMoving ((allPairs (st.bodies.map
          (integrateBody st.worldBoundsX st.worldBoundsY dt)).length).foldl
          (pairStep true)
          (st.bodies.map (integrateBody st.worldBoundsX st.worldBoundsY
            dt))) = true
      · rw [if_pos ham]
        exact hfold
      · rw [if_neg ham]
        exact hfold



theorem color_exchange_spec_witness :
    polygonPolygonSAT (getWorldVertices (squareBody 0 1 2 1 2))
        (getWorldVertices (squareBody 1.2 0.4 0.32 (-1) 7)) =
      some (some ⟨⟨-1, 0⟩, 0 + 1 - (1.2 - 0.4)⟩) ∧
    (squareBody 0 1 2 1 2).isDragged = false ∧
    (squareBody 1.2 0.4 0.32 (-1) 7).isDragged = false ∧
    0 < (squareBody 0 1 2 1 2).invMass ∧
    0 < (squareBody 1.2 0.4 0.32 (-1) 7).invMass ∧
    ((relVelAlong (squareBody 0 1 2 1 2) (squareBody 1.2 0.4 0.32 (-1) 7)
        (orientedNormal (squareBody 0 1 2 1 2)
          (squareBody 1.2 0.4 0.32 (-1) 7) ⟨-1, 0⟩) < 0 →
      (resolveBodies true (squareBody 0 1 2 1 2)
          (squareBody 1.2 0.4 0.32 (-1) 7)).1.colorIndex =
        (squareBody 1.2 0.4 0.32 (-1) 7).colorIndex ∧
      (resolveBodies true (squareBody 0 1 2 1 2)
          (squareBody 1.2 0.4 0.32 (-1) 7)).2.colorIndex =
        (squareBody 0 1 2 1 2).colorIndex) ∧
    (0 ≤ relVelAlong (squareBody 0 1 2 1 2) (squareBody 1.2 0.4 0.32 (-1) 7)
        (orientedNormal (squareBody 0 1 2 1 2)
          (squareBody 1.2 0.4 0.32 (-1) 7) ⟨-1, 0⟩) →
      (resolveBodies true (squareBody 0 1 2 1 2)
          (squareBody 1.2 0.4 0.32 (-1) 7)).1.colorIndex =
        (squareBody 0 1 2 1 2).colorIndex ∧
      (resolveBodies true (squareBody 0 1 2 1 2)
          (squareBody 1.2 0.4 0.32 (-1) 7)).2.colorIndex =
        (squareBody 1.2 0.4 0.32 (-1) 7).colorIndex) ∧
    (↑((updatePhysics 0.01 true
          ⟨[], 1, false, 4, 4⟩).bodies.map Body.colorIndex) : Multiset ℕ) =
      ↑((⟨[], 1, false, 4, 4⟩ : WorldState).bodies.map Body.colorIndex)) :=
  ⟨impulse_witness_sat, rfl, rfl, by norm_num [squareBody],
    by norm_num [squareBody],
    color_exchange_spec 0.01 ⟨[], 1, false, 4, 4⟩ (squareBody 0 1 2 1 2)
      (squareBody 1.2 0.4 0.32 (-1) 7) ⟨⟨-1, 0⟩, 0 + 1 - (1.2 - 0.4)⟩
      impulse_witness_sat rfl rfl (by norm_num [squareBody])
      (by norm_num [squareBody])⟩

/-- Writing back the element read at an index leaves a list unchanged. -/
theorem set_get_self (l : List Body) (i : ℕ) (a : Body)
    (h : l.get? i = some a) : l.set i a = l := by
  induction l generalizing i with
  | nil => rfl
  | cons x t ih =>
    cases i with
    | zero =>
      have : x = a := by simpa using h
      rw [List.set, this]
    | succ n =>
      rw [List.set, ih n (by simpa using h)]

/-- When SAT reports no collision, `resolveBodies` returns the pair
unchanged. -/
theorem resolveBodies_of_sat_none (ct : Bool) (a b : Body)
    (h : polygonPolygonSAT (getWorldVertices a) (getWorldVertices b) = none) :
    resolveBodies ct a b = (a, b) := by
  simp only [resolveBodies, h]

/-- A pair-resolution step on a separated pair is the identity. -/
theorem pairStep_of_sep (ct : Bool) (bs : List Body) (p : ℕ × ℕ)
    (h : ∀ a b, bs.get? p.1 = some a → bs.get? p.2 = some b →
      polygonPolygonSAT (getWorldVertices a) (getWorldVertices b) = none) :
    pairStep ct bs p = bs := by
  obtain ⟨p1, p2⟩ := p
  unfold pairStep
  rcases hj : bs.get? p1 with _ | a
  · rfl
  rcases hk : bs.get? p2 with _ | b
  · rfl
  dsimp only
  rw [resolveBodies_of_sat_none ct a b (h a b hj hk)]
  rw [set_get_self _ _ _ hj, set_get_self _ _ _ hk]

/-- The pair loop is the identity when every visited pair is separated. -/
theorem foldl_pairStep_of_sep (ct : Bool) (ps : List (ℕ × ℕ))
    (bs : List Body)
    (h : ∀ p ∈ ps, ∀ a b, bs.get? p.1 = some a → bs.get? p.2 = some b →
      polygonPolygonSAT (getWorldVertices a) (getWorldVertices b) = none) :
    ps.foldl (pairStep ct) bs = bs := by
  induction ps with
  | nil => rfl
  | cons p ps ih =>
    rw [List.foldl_cons, pairStep_of_sep ct bs p (h p (List.mem_cons_self p ps)),
      ih (fun q hq => h q (List.mem_cons_of_mem p hq))]

set_option maxHeartbeats 800000 in
/-- For `dt ≥ 0`, integration never increases a non-dragged body's
linear speed or angular speed, and keeps it non-dragged: the drag
factors are at most `1` and the wall bounces only flip velocity
components. -/
theorem integrateBody_quiet (bX bY dt : ℝ) (c : Body) (hdt : 0 ≤ dt)
    (hd : c.isDragged = false) :
    (integrateBody bX bY dt c).isDragged = false ∧
    hypot (integrateBody bX bY dt c).velocity.x
        (integrateBody bX bY dt c).velocity.y ≤
      hypot c.velocity.x c.velocity.y ∧
    |(integrateBody bX bY dt c).angularVelocity| ≤ |c.angularVelocity| := by
  have hl1 : 0.998 * Real.exp (-(1.2) * dt) ≤ 1 := by
    have : Real.exp (-(1.2) * dt) ≤ 1 := Real.exp_le_one_iff.mpr (by nlinarith)
    nlinarith [Real.exp_pos (-(1.2) * dt)]
  have hl2 : (0.998 * Real.exp (-(1.2) * dt)) ^ 2 ≤ 1 := by
    have h0 : (0:ℝ) ≤ 0.998 * Real.exp (-(1.2) * dt) := by positivity
    nlinarith
  have hw0 : (0:ℝ) ≤ 0.99 * Real.exp (-(0.8) * dt) := by positivity
  have hw1 : 0.99 * Real.exp (-(0.8) * dt) ≤ 1 := by
    have : Real.exp (-(0.8) * dt) ≤ 1 := Real.exp_le_one_iff.mpr (by nlinarith)
    nlinarith [Real.exp_pos (-(0.8) * dt)]
  unfold integrateBody
  rw [if_neg (by rw [hd]; exact Bool.false_ne_true)]
  by_cases hav : c.angularVelocity ≠ 0
  · simp only [if_pos hav]
    refine ⟨hd, ?_, ?_⟩
    · split_ifs <;>
      · unfold hypot
        dsimp only
        apply Real.sqrt_le_sqrt
        nlinarith [sq_nonneg c.velocity.x, sq_nonneg c.velocity.y]
    · rw [abs_mul, abs_of_nonneg hw0]
      nlinarith [abs_nonneg c.angularVelocity]
  · simp only [if_neg hav]
    refine ⟨hd, ?_, ?_⟩
    · split_ifs <;>
      · unfold hypot
        dsimp only
        apply Real.sqrt_le_sqrt
        nlinarith [sq_nonneg c.velocity.x, sq_nonneg c.velocity.y]
    · exact le_refl _



/-- The exact post-impulse velocity of the second body in the
approaching branch of `resolveBodies`. -/
theorem resolveBodies_impulse_vel (ct : Bool) (a b : Body) (res : SatResult)
    (hsat : polygonPolygonSAT (getWorldVertices a) (getWorldVertices b) =
      some (some res))
    (hda : a.isDragged = false) (hdb : b.isDragged = false)
    (hsum : a.invMass + b.invMass ≠ 0)
    (hv : (b.velocity.x - a.velocity.x) * (orientedNormal a b res.normal).x +
        (b.velocity.y - a.velocity.y) *
          (orientedNormal a b res.normal).y < 0) :
    (resolveBodies ct a b).2.velocity =
      ⟨b.velocity.x + -(1 + 1) * ((b.velocity.x - a.velocity.x) *
            (orientedNormal a b res.normal).x +
          (b.velocity.y - a.velocity.y) * (orientedNormal a b res.normal).y) /
          (a.invMass + b.invMass) * (orientedNormal a b res.normal).x *
          b.invMass,
        b.velocity.y + -(1 + 1) * ((b.velocity.x - a.velocity.x) *
            (orientedNormal a b res.normal).x +
          (b.velocity.y - a.velocity.y) * (orientedNormal a b res.normal).y) /
          (a.invMass + b.invMass) * (orientedNormal a b res.normal).y *
          b.invMass⟩ := by
  simp only [resolveBodies, hsat, hda, hdb, Bool.false_eq_true, if_false,
    if_neg hsum, if_pos hv, if_pos (shapeType_total _)]
  cases ct <;>
    simp only [transferColorOnCollision, Bool.false_eq_true, if_false,
      eq_self_iff_true, if_true]






/-- Integrating the heavy probe square for one `0.01` step only damps
its velocity and advances its position. -/
theorem integrate_heavy_ce :
    integrateBody 4 4 0.01 (squareBody 0 1 2 0.019 0) =
      squareBody (0.019 * (0.998 * Real.exp (-(1.2) * 0.01)) * 0.01) 1 2
        (0.019 * (0.998 * Real.exp (-(1.2) * 0.01))) 0 := by
  have hs2u : Real.sqrt 2 < 1.5 := by
    rw [show (1.5:ℝ) = Real.sqrt (1.5^2) by rw [Real.sqrt_sq]; norm_num]
    exact Real.sqrt_lt_sqrt (by norm_num) (by norm_num)
  have hs2l : (1.4:ℝ) < Real.sqrt 2 := by
    rw [show (1.4:ℝ) = Real.sqrt (1.4^2) by rw [Real.sqrt_sq]; norm_num]
    exact Real.sqrt_lt_sqrt (by norm_num) (by norm_num)
  have hl0 : (0:ℝ) < 0.998 * Real.exp (-(1.2) * 0.01) := by positivity
  have hl1 : 0.998 * Real.exp (-(1.2) * 0.01) ≤ 0.998 := by
    have : Real.exp (-(1.2) * 0.01) ≤ 1 := Real.exp_le_one_iff.mpr (by norm_num)
    nlinarith
  simp only [integrateBody, squareBody, globalSpeedFactor, ne_eq,
    eq_self_iff_true, not_true, Bool.false_eq_true, if_false]
  split_ifs with h1 h2 h3 h4 <;>
    first
      | (exfalso; nlinarith)
      | (simp only [Body.mk.injEq, Vec2.mk.injEq]
         norm_num)

/-- Integrating the resting light probe square is the identity. -/
theorem integrate_light_ce :
    integrateBody 4 4 0.01 (squareBody 1.1 0.2 0.08 0 1) =
      squareBody 1.1 0.2 0.08 0 1 := by
  have hs2u : Real.sqrt 2 < 1.5 := by
    rw [show (1.5:ℝ) = Real.sqrt (1.5^2) by rw [Real.sqrt_sq]; norm_num]
    exact Real.sqrt_lt_sqrt (by norm_num) (by norm_num)
  have hs2l : (1.4:ℝ) < Real.sqrt 2 := by
    rw [show (1.4:ℝ) = Real.sqrt (1.4^2) by rw [Real.sqrt_sq]; norm_num]
    exact Real.sqrt_lt_sqrt (by norm_num) (by norm_num)
  have hl0 : (0:ℝ) < 0.998 * Real.exp (-(1.2) * 0.01) := by positivity
  have hl1 : 0.998 * Real.exp (-(1.2) * 0.01) ≤ 0.998 := by
    have : Real.exp (-(1.2) * 0.01) ≤ 1 := Real.exp_le_one_iff.mpr (by norm_num)
    nlinarith
  simp only [integrateBody, squareBody, globalSpeedFactor, ne_eq,
    eq_self_iff_true, not_true, Bool.false_eq_true, if_false]
  split_ifs with h1 h2 h3 h4 <;>
    first
      | (exfalso; nlinarith)
      | (simp only [Body.mk.injEq, Vec2.mk.injEq]
         norm_num)

/-- The integrated probe squares overlap, with SAT normal `(-1, 0)`. -/
theorem sat_ce :
    polygonPolygonSAT
        (getWorldVertices (squareBody
          (0.019 * (0.998 * Real.exp (-(1.2) * 0.01)) * 0.01) 1 2
          (0.019 * (0.998 * Real.exp (-(1.2) * 0.01))) 0))
        (getWorldVertices (squareBody 1.1 0.2 0.08 0 1)) =
      some (some ⟨⟨-1, 0⟩,
        0.019 * (0.998 * Real.exp (-(1.2) * 0.01)) * 0.01 + 1 -
          (1.1 - 0.2)⟩) := by
  have hl0 : (0:ℝ) < 0.998 * Real.exp (-(1.2) * 0.01) := by positivity
  have hl1 : 0.998 * Real.exp (-(1.2) * 0.01) ≤ 0.998 := by
    have : Real.exp (-(1.2) * 0.01) ≤ 1 := Real.exp_le_one_iff.mpr (by norm_num)
    nlinarith
  rw [getWorldVertices_squareBody, getWorldVertices_squareBody]
  exact polygonPolygonSAT_boxes _ 1.1 1 0.2 (by norm_num) (by norm_num)
    (by nlinarith) (by nlinarith) (by nlinarith) (by nlinarith) (by nlinarith)

/-- The collision normal of the probe pair is oriented to `(1, 0)`. -/
theorem normal_ce :
    orientedNormal
        (squareBody (0.019 * (0.998 * Real.exp (-(1.2) * 0.01)) * 0.01) 1 2
          (0.019 * (0.998 * Real.exp (-(1.2) * 0.01))) 0)
        (squareBody 1.1 0.2 0.08 0 1) ⟨-1, 0⟩ = ⟨1, 0⟩ := by
  have hl0 : (0:ℝ) < 0.998 * Real.exp (-(1.2) * 0.01) := by positivity
  have hl1 : 0.998 * Real.exp (-(1.2) * 0.01) ≤ 0.998 := by
    have : Real.exp (-(1.2) * 0.01) ≤ 1 := Real.exp_le_one_iff.mpr (by norm_num)
    nlinarith
  unfold orientedNormal
  rw [if_pos]
  · show (⟨(-1 : ℝ) * (-1), (0 : ℝ) * (-1)⟩ : Vec2) = ⟨1, 0⟩
    norm_num
  · show ((1.1 : ℝ) - 0.019 * (0.998 * Real.exp (-(1.2) * 0.01)) * 0.01) *
        (-1) + ((0 : ℝ) - 0) * 0 < 0
    nlinarith



/-- The post-impulse velocity of the light probe square. -/
theorem impulse_vel_ce :
    (resolveBodies false
        (squareBody (0.019 * (0.998 * Real.exp (-(1.2) * 0.01)) * 0.01) 1 2
          (0.019 * (0.998 * Real.exp (-(1.2) * 0.01))) 0)
        (squareBody 1.1 0.2 0.08 0 1)).2.velocity =
      ⟨0 + -(1 + 1) * ((0 - 0.019 * (0.998 * Real.exp (-(1.2) * 0.01))) * 1 +
          (0 - 0) * 0) / (1 / 2 + 1 / 0.08) * 1 * (1 / 0.08),
        0 + -(1 + 1) * ((0 - 0.019 * (0.998 * Real.exp (-(1.2) * 0.01))) * 1 +
          (0 - 0) * 0) / (1 / 2 + 1 / 0.08) * 0 * (1 / 0.08)⟩ := by
  have hl0 : (0:ℝ) < 0.998 * Real.exp (-(1.2) * 0.01) := by positivity
  have hveq := resolveBodies_impulse_vel false
    (squareBody (0.019 * (0.998 * Real.exp (-(1.2) * 0.01)) * 0.01) 1 2
      (0.019 * (0.998 * Real.exp (-(1.2) * 0.01))) 0)
    (squareBody 1.1 0.2 0.08 0 1)
    ⟨⟨-1, 0⟩, 0.019 * (0.998 * Real.exp (-(1.2) * 0.01)) * 0.01 + 1 -
      (1.1 - 0.2)⟩
    sat_ce rfl rfl (by norm_num [squareBody])
    (by rw [normal_ce]
        show ((0 : ℝ) - 0.019 * (0.998 * Real.exp (-(1.2) * 0.01))) * 1 +
          ((0 : ℝ) - 0) * 0 < 0
        nlinarith)
  dsimp only at hveq
  rw [normal_ce] at hveq
  exact hveq



/-- After the impulse, the light probe square moves faster than the
linear epsilon `0.02`, so the settledness scan reports motion. -/
theorem moving_ce :
    anyMoving [(resolveBodies false
        (squareBody (0.019 * (0.998 * Real.exp (-(1.2) * 0.01)) * 0.01) 1 2
          (0.019 * (0.998 * Real.exp (-(1.2) * 0.01))) 0)
        (squareBody 1.1 0.2 0.08 0 1)).1,
      (resolveBodies false
        (squareBody (0.019 * (0.998 * Real.exp (-(1.2) * 0.01)) * 0.01) 1 2
          (0.019 * (0.998 * Real.exp (-(1.2) * 0.01))) 0)
        (squareBody 1.1 0.2 0.08 0 1)).2] = true := by
  have hl0 : (0:ℝ) < 0.998 * Real.exp (-(1.2) * 0.01) := by positivity
  have hll : (0.986:ℝ) ≤ 0.998 * Real.exp (-(1.2) * 0.01) := by
    nlinarith [Real.add_one_le_exp (-(1.2) * 0.01)]
  have hgt : hypot (resolveBodies false
        (squareBody (0.019 * (0.998 * Real.exp (-(1.2) * 0.01)) * 0.01) 1 2
          (0.019 * (0.998 * Real.exp (-(1.2) * 0.01))) 0)
        (squareBody 1.1 0.2 0.08 0 1)).2.velocity.x
      (resolveBodies false
        (squareBody (0.019 * (0.998 * Real.exp (-(1.2) * 0.01)) * 0.01) 1 2
          (0.019 * (0.998 * Real.exp (-(1.2) * 0.01))) 0)
        (squareBody 1.1 0.2 0.08 0 1)).2.velocity.y > 0.02 := by
    rw [impulse_vel_ce]
    show hypot _ _ > 0.02
    unfold hypot
    dsimp only
    rw [show (0 : ℝ) + -(1 + 1) *
        ((0 - 0.019 * (0.998 * Real.exp (-(1.2) * 0.01))) * 1 +
          (0 - 0) * 0) / (1 / 2 + 1 / 0.08) * 0 * (1 / 0.08) = 0 by ring]
    have hx : (0 : ℝ) + -(1 + 1) *
        ((0 - 0.019 * (0.998 * Real.exp (-(1.2) * 0.01))) * 1 +
          (0 - 0) * 0) / (1 / 2 + 1 / 0.08) * 1 * (1 / 0.08) =
        0.019 * (0.998 * Real.exp (-(1.2) * 0.01)) * (25 / 13) := by
      field_simp
      ring
    rw [hx]
    rw [show (0.02 : ℝ) = Real.sqrt (0.02 ^ 2) by
      rw [Real.sqrt_sq]; norm_num]
    apply Real.sqrt_lt_sqrt (by norm_num)
    nlinarith
  have hdec : decide (hypot (resolveBodies false
        (squareBody (0.019 * (0.998 * Real.exp (-(1.2) * 0.01)) * 0.01) 1 2
          (0.019 * (0.998 * Real.exp (-(1.2) * 0.01))) 0)
        (squareBody 1.1 0.2 0.08 0 1)).2.velocity.x
      (resolveBodies false
        (squareBody (0.019 * (0.998 * Real.exp (-(1.2) * 0.01)) * 0.01) 1 2
          (0.019 * (0.998 * Real.exp (-(1.2) * 0.01))) 0)
        (squareBody 1.1 0.2 0.08 0 1)).2.velocity.y > 0.02) = true :=
    decide_eq_true hgt
  unfold anyMoving
  rw [List.any_cons, List.any_cons, List.any_nil]
  rw [hdec]
  simp only [Bool.or_true, Bool.true_or]



/-- C5, counterexample: a running step in which every body starts
non-dragged with linear speed below `0.02` and angular speed below
`0.4` does NOT necessarily pause: the collision impulse between a heavy
and a light square boosts the light square above the linear epsilon
before the settledness scan runs, so `physicsEnabled` stays `true`. -/
theorem auto_pause_can_fail :
    (∀ b ∈ ([squareBody 0 1 2 0.019 0,
        squareBody 1.1 0.2 0.08 0 1] : List Body),
      b.isDragged = false ∧ hypot b.velocity.x b.velocity.y < 0.02 ∧
        |b.angularVelocity| < 0.4) ∧
    (⟨[squareBody 0 1 2 0.019 0, squareBody 1.1 0.2 0.08 0 1], 1, true, 4,
        4⟩ : WorldState).physicsEnabled = true ∧
    (updatePhysics 0.01 false
        ⟨[squareBody 0 1 2 0.019 0, squareBody 1.1 0.2 0.08 0 1], 1, true, 4,
          4⟩).physicsEnabled = true := by
  refine ⟨?_, rfl, ?_⟩
  · intro b hb
    rcases List.mem_cons.mp hb with hbA | hb
    · subst hbA
      refine ⟨rfl, ?_, ?_⟩
      · show hypot 0.019 0 < 0.02
        unfold hypot
        rw [show (0.02 : ℝ) = Real.sqrt (0.02 ^ 2) by
          rw [Real.sqrt_sq]; norm_num]
        exact Real.sqrt_lt_sqrt (by norm_num) (by norm_num)
      · show |(0 : ℝ)| < 0.4
        rw [abs_zero]; norm_num
    rcases List.mem_cons.mp hb with hbB | hb
    · subst hbB
      refine ⟨rfl, ?_, ?_⟩
      · show hypot 0 0 < 0.02
        unfold hypot
        rw [show (0.02 : ℝ) = Real.sqrt (0.02 ^ 2) by
          rw [Real.sqrt_sq]; norm_num]
        exact Real.sqrt_lt_sqrt (by norm_num) (by norm_num)
      · show |(0 : ℝ)| < 0.4
        rw [abs_zero]; norm_num
    · exact absurd hb (List.not_mem_nil b)
  · unfold updatePhysics
    rw [if_neg (by simp)]
    dsimp only
    have hlist : ([squareBody 0 1 2 0.019 0,
        squareBody 1.1 0.2 0.08 0 1].map (integrateBody 4 4 0.01)) =
        [squareBody (0.019 * (0.998 * Real.exp (-(1.2) * 0.01)) * 0.01) 1 2
          (0.019 * (0.998 * Real.exp (-(1.2) * 0.01))) 0,
         squareBody 1.1 0.2 0.08 0 1] := by
      rw [List.map_cons, List.map_cons, List.map_nil, integrate_heavy_ce, integrate_light_ce]
    rw [hlist]
    rw [show (allPairs ([squareBody
        (0.019 * (0.998 * Real.exp (-(1.2) * 0.01)) * 0.01) 1 2
        (0.019 * (0.998 * Real.exp (-(1.2) * 0.01))) 0,
        squareBody 1.1 0.2 0.08 0 1] : List Body).length) = [(0, 1)] from rfl]
    rw [List.foldl_cons, List.foldl_nil]
    rw [show pairStep false
        [squareBody (0.019 * (0.998 * Real.exp (-(1.2) * 0.01)) * 0.01) 1 2
          (0.019 * (0.998 * Real.exp (-(1.2) * 0.01))) 0,
         squareBody 1.1 0.2 0.08 0 1] (0, 1) =
        [(resolveBodies false
          (squareBody (0.019 * (0.998 * Real.exp (-(1.2) * 0.01)) * 0.01) 1 2
            (0.019 * (0.998 * Real.exp (-(1.2) * 0.01))) 0)
          (squareBody 1.1 0.2 0.08 0 1)).1,
         (resolveBodies false
          (squareBody (0.019 * (0.998 * Real.exp (-(1.2) * 0.01)) * 0.01) 1 2
            (0.019 * (0.998 * Real.exp (-(1.2) * 0.01))) 0)
          (squareBody 1.1 0.2 0.08 0 1)).2] from rfl]
    rw [if_pos moving_ce]



/-- C5, amended: if additionally no pair of bodies is in SAT contact
after integration (so no impulse can re-energize anything), a step from
a state in which every body is non-dragged with linear speed below
`0.02` and angular speed below `0.4` ends paused. -/
theorem auto_pause_no_contacts (dt : ℝ) (ct : Bool) (st : WorldState)
    (hdt : 0 ≤ dt)
    (hquiet : ∀ b ∈ st.bodies, b.isDragged = false ∧
      hypot b.velocity.x b.velocity.y < 0.02 ∧ |b.angularVelocity| < 0.4)
    (hsep : ∀ p ∈ allPairs (st.bodies.map
        (integrateBody st.worldBoundsX st.worldBoundsY dt)).length,
      ∀ a b,
        (st.bodies.map (integrateBody st.worldBoundsX st.worldBoundsY
          dt)).get? p.1 = some a →
        (st.bodies.map (integrateBody st.worldBoundsX st.worldBoundsY
          dt)).get? p.2 = some b →
        polygonPolygonSAT (getWorldVertices a) (getWorldVertices b) = none) :
    (updatePhysics dt ct st).physicsEnabled = false := by
  unfold updatePhysics
  by_cases hpe : st.physicsEnabled = false
  · rw [if_pos hpe]; exact hpe
  · rw [if_neg hpe]
    dsimp only
    rw [foldl_pairStep_of_sep ct _ _ hsep]
    have hmq : anyMoving (st.bodies.map
        (integrateBody st.worldBoundsX st.worldBoundsY dt)) = false := by
      unfold anyMoving
      rw [List.any_eq_false]
      intro x hx
      rw [List.mem_map] at hx
      obtain ⟨c, hc, hxc⟩ := hx
      obtain ⟨q1, q2, q3⟩ := hquiet c hc
      obtain ⟨g1, g2, g3⟩ :=
        integrateBody_quiet st.worldBoundsX st.worldBoundsY dt c hdt q1
      subst hxc
      simp only [g1, Bool.false_or, Bool.or_eq_true, decide_eq_true_eq]
      push_neg
      constructor
      · linarith
      · linarith
    rw [if_neg (by rw [hmq]; exact Bool.false_ne_true)]

theorem auto_pause_no_contacts_witness :
    (0 : ℝ) ≤ 0.01 ∧
    (∀ b ∈ (⟨[squareBody 0 1 2 0.01 0], 1, true, 4, 4⟩ :
        WorldState).bodies, b.isDragged = false ∧
      hypot b.velocity.x b.velocity.y < 0.02 ∧ |b.angularVelocity| < 0.4) ∧
    (∀ p ∈ allPairs ((⟨[squareBody 0 1 2 0.01 0], 1, true, 4, 4⟩ :
        WorldState).bodies.map (integrateBody 4 4 0.01)).length,
      ∀ a b,
        ((⟨[squareBody 0 1 2 0.01 0], 1, true, 4, 4⟩ :
          WorldState).bodies.map (integrateBody 4 4 0.01)).get? p.1 =
            some a →
        ((⟨[squareBody 0 1 2 0.01 0], 1, true, 4, 4⟩ :
          WorldState).bodies.map (integrateBody 4 4 0.01)).get? p.2 =
            some b →
        polygonPolygonSAT (getWorldVertices a) (getWorldVertices b) = none) ∧
    (updatePhysics 0.01 false
        ⟨[squareBody 0 1 2 0.01 0], 1, true, 4, 4⟩).physicsEnabled =
      false := by
  have hq : ∀ b ∈ (⟨[squareBody 0 1 2 0.01 0], 1, true, 4, 4⟩ :
      WorldState).bodies, b.isDragged = false ∧
      hypot b.velocity.x b.velocity.y < 0.02 ∧ |b.angularVelocity| < 0.4 := by
    intro b hb
    rcases List.mem_cons.mp hb with hbA | hb
    · subst hbA
      refine ⟨rfl, ?_, ?_⟩
      · show hypot 0.01 0 < 0.02
        unfold hypot
        rw [show (0.02 : ℝ) = Real.sqrt (0.02 ^ 2) by
          rw [Real.sqrt_sq]; norm_num]
        exact Real.sqrt_lt_sqrt (by norm_num) (by norm_num)
      · show |(0 : ℝ)| < 0.4
        rw [abs_zero]; norm_num
    · exact absurd hb (List.not_mem_nil b)
  have hs : ∀ p ∈ allPairs ((⟨[squareBody 0 1 2 0.01 0], 1, true, 4, 4⟩ :
      WorldState).bodies.map (integrateBody 4 4 0.01)).length,
      ∀ a b,
        ((⟨[squareBody 0 1 2 0.01 0], 1, true, 4, 4⟩ :
          WorldState).bodies.map (integrateBody 4 4 0.01)).get? p.1 =
            some a →
        ((⟨[squareBody 0 1 2 0.01 0], 1, true, 4, 4⟩ :
          WorldState).bodies.map (integrateBody 4 4 0.01)).get? p.2 =
            some b →
        polygonPolygonSAT (getWorldVertices a) (getWorldVertices b) =
          none := by
    intro p hp
    exact absurd hp (by
      rw [show allPairs ((⟨[squareBody 0 1 2 0.01 0], 1, true, 4, 4⟩ :
        WorldState).bodies.map (integrateBody 4 4 0.01)).length =
          ([] : List (ℕ × ℕ)) from rfl]
      exact List.not_mem_nil p)
  exact ⟨by norm_num, hq, hs,
    auto_pause_no_contacts 0.01 false
      ⟨[squareBody 0 1 2 0.01 0], 1, true, 4, 4⟩ (by norm_num) hq hs⟩

set_option maxHeartbeats 1600000 in
/-- The wall clamp keeps an integrated non-dragged body inside the
bounds on both axes, and the drag strictly shrinks a nonzero linear
speed (wall bounces only flip components). -/
theorem integrateBody_single (bX bY dt : ℝ) (c : Body) (hdt : 0 < dt)
    (hd : c.isDragged = false) (hrx : c.boundingRadius ≤ bX)
    (hry : c.boundingRadius ≤ bY) :
    |(integrateBody bX bY dt c).pos.x| ≤ bX - c.boundingRadius ∧
    |(integrateBody bX bY dt c).pos.y| ≤ bY - c.boundingRadius ∧
    (hypot c.velocity.x c.velocity.y ≠ 0 →
      hypot (integrateBody bX bY dt c).velocity.x
          (integrateBody bX bY dt c).velocity.y <
        hypot c.velocity.x c.velocity.y) := by
  have hl0 : (0:ℝ) < 0.998 * Real.exp (-(1.2) * dt) := by positivity
  have hl2 : (0.998 * Real.exp (-(1.2) * dt)) ^ 2 ≤ 0.998 ^ 2 := by
    have h1 : Real.exp (-(1.2) * dt) ≤ 1 :=
      Real.exp_le_one_iff.mpr (by nlinarith)
    nlinarith [Real.exp_pos (-(1.2) * dt)]
  unfold integrateBody
  rw [if_neg (by rw [hd]; exact Bool.false_ne_true)]
  refine ⟨?_, ?_, ?_⟩
  · dsimp only
    split_ifs <;> · rw [abs_le]; constructor <;> linarith
  · dsimp only
    split_ifs <;> · rw [abs_le]; constructor <;> linarith
  · intro hne
    have hS : 0 < c.velocity.x ^ 2 + c.velocity.y ^ 2 := by
      rcases lt_or_eq_of_le
          (by positivity : (0:ℝ) ≤ c.velocity.x ^ 2 + c.velocity.y ^ 2) with
        h | h
      · exact h
      · exfalso
        apply hne
        unfold hypot
        rw [← h, Real.sqrt_zero]
    unfold hypot
    dsimp only
    split_ifs <;>
    · apply Real.sqrt_lt_sqrt (by positivity)
      nlinarith [sq_nonneg c.velocity.x, sq_nonneg c.velocity.y]



/-- C7: a running step on a composition with a single non-dragged body
whose bounding radius fits in the world bounds keeps the body inside
the bounds (|x| ≤ boundsX − r, |y| ≤ boundsY − r after the step), and
strictly decreases its linear speed whenever that speed is nonzero
(the pair loop is empty, drag is < 1, and bounces only flip velocity
components). -/
theorem single_body_step (dt : ℝ) (ct : Bool) (st : WorldState) (c : Body)
    (hb : st.bodies = [c]) (hp : st.physicsEnabled = true) (hdt : 0 < dt)
    (hd : c.isDragged = false)
    (hrx : c.boundingRadius ≤ st.worldBoundsX)
    (hry : c.boundingRadius ≤ st.worldBoundsY) :
    ∃ c', (updatePhysics dt ct st).bodies = [c'] ∧
      |c'.pos.x| ≤ st.worldBoundsX - c.boundingRadius ∧
      |c'.pos.y| ≤ st.worldBoundsY - c.boundingRadius ∧
      (hypot c.velocity.x c.velocity.y ≠ 0 →
        hypot c'.velocity.x c'.velocity.y <
          hypot c.velocity.x c.velocity.y) := by
  have hrec : (updatePhysics dt ct st).bodies =
      [integrateBody st.worldBoundsX st.worldBoundsY dt c] := by
    unfold updatePhysics
    rw [if_neg (by rw [hp]; exact fun h => Bool.true_eq_false.mp h)]
    dsimp only
    rw [hb, List.map_cons, List.map_nil]
    rw [show allPairs
        ([integrateBody st.worldBoundsX st.worldBoundsY dt c].length) =
        ([] : List (ℕ × ℕ)) from rfl]
    rw [List.foldl_nil]
    by_cases ham : anyMoving
        [integrateBody st.worldBoundsX st.worldBoundsY dt c] = true
    · rw [if_pos ham]
    · rw [if_neg ham]
  obtain ⟨g1, g2, g3⟩ :=
    integrateBody_single st.worldBoundsX st.worldBoundsY dt c hdt hd hrx hry
  exact ⟨integrateBody st.worldBoundsX st.worldBoundsY dt c, hrec, g1, g2, g3⟩



theorem single_body_step_witness :
    (⟨[squareBody 0 1 2 0.019 0], 1, true, 4, 4⟩ : WorldState).bodies =
      [squareBody 0 1 2 0.019 0] ∧
    (⟨[squareBody 0 1 2 0.019 0], 1, true, 4, 4⟩ :
      WorldState).physicsEnabled = true ∧
    (0 : ℝ) < 0.01 ∧
    (squareBody 0 1 2 0.019 0).isDragged = false ∧
    (squareBody 0 1 2 0.019 0).boundingRadius ≤
      (⟨[squareBody 0 1 2 0.019 0], 1, true, 4, 4⟩ :
        WorldState).worldBoundsX ∧
    (squareBody 0 1 2 0.019 0).boundingRadius ≤
      (⟨[squareBody 0 1 2 0.019 0], 1, true, 4, 4⟩ :
        WorldState).worldBoundsY ∧
    ∃ c', (updatePhysics 0.01 false
        ⟨[squareBody 0 1 2 0.019 0], 1, true, 4, 4⟩).bodies = [c'] ∧
      |c'.pos.x| ≤ (⟨[squareBody 0 1 2 0.019 0], 1, true, 4, 4⟩ :
        WorldState).worldBoundsX - (squareBody 0 1 2 0.019 0).boundingRadius ∧
      |c'.pos.y| ≤ (⟨[squareBody 0 1 2 0.019 0], 1, true, 4, 4⟩ :
        WorldState).worldBoundsY - (squareBody 0 1 2 0.019 0).boundingRadius ∧
      (hypot (squareBody 0 1 2 0.019 0).velocity.x
          (squareBody 0 1 2 0.019 0).velocity.y ≠ 0 →
        hypot c'.velocity.x c'.velocity.y <
          hypot (squareBody 0 1 2 0.019 0).velocity.x
            (squareBody 0 1 2 0.019 0).velocity.y) := by
  have hr : (squareBody 0 1 2 0.019 0).boundingRadius ≤ (4:ℝ) := by
    show (1:ℝ) * Real.sqrt 2 ≤ 4
    have hs2u : Real.sqrt 2 < 1.5 := by
      rw [show (1.5:ℝ) = Real.sqrt (1.5^2) by rw [Real.sqrt_sq]; norm_num]
      exact Real.sqrt_lt_sqrt (by norm_num) (by norm_num)
    nlinarith
  exact ⟨rfl, rfl, by norm_num, rfl, hr, hr,
    single_body_step 0.01 false
      ⟨[squareBody 0 1 2 0.019 0], 1, true, 4, 4⟩ (squareBody 0 1 2 0.019 0)
      rfl rfl (by norm_num) rfl hr hr⟩

/-- Any point accepted by the special-case candidate loop is within the
`4%` tangency tolerance of both circles. -/
theorem firstTangentCandidate_tol (a b : Body) (r3 bX bY : ℝ)
    (cs : List Vec2) (c : Vec2)
    (h : firstTangentCandidate a b r3 bX bY cs = some c) :
    |hypot (c.x - a.pos.x) (c.y - a.pos.y) - (a.contactRadius + r3)| ≤
      (a.contactRadius + r3) * 0.04 ∧
    |hypot (c.x - b.pos.x) (c.y - b.pos.y) - (b.contactRadius + r3)| ≤
      (b.contactRadius + r3) * 0.04 := by
  induction cs with
  | nil => exact absurd h (by simp [firstTangentCandidate])
  | cons p rest ih =>
    rw [firstTangentCandidate] at h
    dsimp only at h
    split_ifs at h with h1 h2
    · exact ih h
    · exact ih h
    · have hpc : p = c := by simpa using h
      subst hpc
      push_neg at h2
      exact h2

/-- C3: a circle placed while exactly two bodies exist, both circles,
with a valid tangent point `c` (the special-case guards and the
candidate loop succeed), is registered exactly at `c`, appended after
the two untouched circles, and `c` is simultaneously within the `4%`
tolerance of distance `r1 + r3` from circle 1 and `r2 + r3` from
circle 2. -/
theorem third_circle_spec (st : WorldState) (a b : Body) (rot br r3 : ℝ)
    (lv : List Vec2) (ci : ℕ) (c : Vec2)
    (hb : st.bodies = [a, b])
    (ha : a.shapeType = ShapeType.circle)
    (hbs : b.shapeType = ShapeType.circle)
    (hc : thirdCirclePoint a b r3 st.worldBoundsX st.worldBoundsY = some c) :
    placeMesh st rot br lv ShapeType.circle r3 ci =
      some (addBodyEntry st
        (mkPlacedBody c rot lv br r3 ShapeType.circle ci)) ∧
    (addBodyEntry st
        (mkPlacedBody c rot lv br r3 ShapeType.circle ci)).bodies =
      [a, b, { mkPlacedBody c rot lv br r3 ShapeType.circle ci with
        id := st.nextBodyId }] ∧
    |hypot (c.x - a.pos.x) (c.y - a.pos.y) - (a.contactRadius + r3)| ≤
      (a.contactRadius + r3) * 0.04 ∧
    |hypot (c.x - b.pos.x) (c.y - b.pos.y) - (b.contactRadius + r3)| ≤
      (b.contactRadius + r3) * 0.04 := by
  have hsp : specialPoint st ShapeType.circle r3 = some c := by
    unfold specialPoint
    rw [hb]
    dsimp only
    rw [if_pos ⟨rfl, ha, hbs⟩]
    exact hc
  have hpp : placePoint st rot br lv ShapeType.circle r3 = some c := by
    unfold placePoint
    rw [if_neg (by rw [hb]; simp)]
    rw [hsp]
  have htol :
      |hypot (c.x - a.pos.x) (c.y - a.pos.y) - (a.contactRadius + r3)| ≤
        (a.contactRadius + r3) * 0.04 ∧
      |hypot (c.x - b.pos.x) (c.y - b.pos.y) - (b.contactRadius + r3)| ≤
        (b.contactRadius + r3) * 0.04 := by
    unfold thirdCirclePoint at hc
    dsimp only at hc
    split_ifs at hc with h1 h2 h3
    exact firstTangentCandidate_tol a b r3 st.worldBoundsX st.worldBoundsY
      (thirdCircleCandidates a b r3) c hc
  refine ⟨?_, ?_, htol.1, htol.2⟩
  · unfold placeMesh
    rw [hpp]
    rfl
  · rw [addBodyEntry_bodies, hb]
    rfl



/-- Concrete special-case run: two radius-`3/4` circles `2` apart accept
the tangent point `(1, 0)` for a radius-`1/4` third circle. -/
theorem third_circle_hc :
    thirdCirclePoint (circleBody 0 (3/4)) (circleBody 2 (3/4)) (1/4) 4 4 =
      some ⟨1, 0⟩ := by
  have hd : hypot ((2:ℝ) - 0) ((0:ℝ) - 0) = 2 := by
    unfold hypot
    rw [show ((2:ℝ) - 0) ^ 2 + ((0:ℝ) - 0) ^ 2 = 2 ^ 2 by ring]
    exact Real.sqrt_sq (by norm_num)
  have hcands : thirdCircleCandidates (circleBody 0 (3/4))
      (circleBody 2 (3/4)) (1/4) = [⟨1, 0⟩, ⟨1, 0⟩] := by
    unfold thirdCircleCandidates
    simp only [circleBody]
    rw [hd]
    rw [show (3/4 + 1/4 : ℝ) * (3/4 + 1/4) -
        ((3/4 + 1/4) * (3/4 + 1/4) - (3/4 + 1/4) * (3/4 + 1/4) + 2 * 2) /
          (2 * 2) *
        (((3/4 + 1/4) * (3/4 + 1/4) - (3/4 + 1/4) * (3/4 + 1/4) + 2 * 2) /
          (2 * 2)) = 0 by ring]
    rw [Real.sqrt_zero]
    simp only [List.cons.injEq, Vec2.mk.injEq, and_true, List.nil_eq]
    norm_num
  unfold thirdCirclePoint
  rw [hcands]
  simp only [circleBody]
  rw [hd]
  rw [if_pos (by norm_num)]
  rw [if_pos (show (2:ℝ) ≤ 3/4 + 1/4 + (3/4 + 1/4) ∧
      (2:ℝ) ≥ |3/4 + 1/4 - (3/4 + 1/4)| by
    constructor
    · norm_num
    · rw [show (3/4 + 1/4 - (3/4 + 1/4) : ℝ) = 0 by ring, abs_zero]
      norm_num)]
  rw [if_pos (show (3/4 + 1/4 : ℝ) * (3/4 + 1/4) -
      ((3/4 + 1/4) * (3/4 + 1/4) - (3/4 + 1/4) * (3/4 + 1/4) + 2 * 2) /
        (2 * 2) *
      (((3/4 + 1/4) * (3/4 + 1/4) - (3/4 + 1/4) * (3/4 + 1/4) + 2 * 2) /
        (2 * 2)) ≥ 0 by norm_num)]
  have h1 : hypot ((1:ℝ) - 0) ((0:ℝ) - 0) = 1 := by
    unfold hypot
    rw [show ((1:ℝ) - 0) ^ 2 + ((0:ℝ) - 0) ^ 2 = 1 ^ 2 by ring]
    exact Real.sqrt_sq (by norm_num)
  have h2 : hypot ((1:ℝ) - 2) ((0:ℝ) - 0) = 1 := by
    unfold hypot
    rw [show ((1:ℝ) - 2) ^ 2 + ((0:ℝ) - 0) ^ 2 = 1 ^ 2 by ring]
    exact Real.sqrt_sq (by norm_num)
  rw [firstTangentCandidate]
  rw [if_neg (by push_neg; norm_num)]
  dsimp only
  rw [h1, h2]
  rw [if_neg (by
    push_neg
    constructor <;>
    · rw [show (1 - (3/4 + 1/4) : ℝ) = 0 by ring, abs_zero]
      norm_num)]



theorem third_circle_spec_witness :
    (⟨[circleBody 0 (3/4), circleBody 2 (3/4)], 7, false, 4, 4⟩ :
      WorldState).bodies = [circleBody 0 (3/4), circleBody 2 (3/4)] ∧
    (circleBody 0 (3/4)).shapeType = ShapeType.circle ∧
    (circleBody 2 (3/4)).shapeType = ShapeType.circle ∧
    thirdCirclePoint (circleBody 0 (3/4)) (circleBody 2 (3/4)) (1/4)
      (⟨[circleBody 0 (3/4), circleBody 2 (3/4)], 7, false, 4, 4⟩ :
        WorldState).worldBoundsX
      (⟨[circleBody 0 (3/4), circleBody 2 (3/4)], 7, false, 4, 4⟩ :
        WorldState).worldBoundsY = some ⟨1, 0⟩ ∧
    (placeMesh ⟨[circleBody 0 (3/4), circleBody 2 (3/4)], 7, false, 4, 4⟩
        0 (1/4) (circleVerts (1/4)) ShapeType.circle (1/4) 5 =
      some (addBodyEntry
        ⟨[circleBody 0 (3/4), circleBody 2 (3/4)], 7, false, 4, 4⟩
        (mkPlacedBody ⟨1, 0⟩ 0 (circleVerts (1/4)) (1/4) (1/4)
          ShapeType.circle 5)) ∧
    (addBodyEntry
        ⟨[circleBody 0 (3/4), circleBody 2 (3/4)], 7, false, 4, 4⟩
        (mkPlacedBody ⟨1, 0⟩ 0 (circleVerts (1/4)) (1/4) (1/4)
          ShapeType.circle 5)).bodies =
      [circleBody 0 (3/4), circleBody 2 (3/4),
        { mkPlacedBody ⟨1, 0⟩ 0 (circleVerts (1/4)) (1/4) (1/4)
            ShapeType.circle 5 with
          id := (⟨[circleBody 0 (3/4), circleBody 2 (3/4)], 7, false, 4,
            4⟩ : WorldState).nextBodyId }] ∧
    |hypot ((⟨1, 0⟩ : Vec2).x - (circleBody 0 (3/4)).pos.x)
        ((⟨1, 0⟩ : Vec2).y - (circleBody 0 (3/4)).pos.y) -
      ((circleBody 0 (3/4)).contactRadius + 1/4)| ≤
        ((circleBody 0 (3/4)).contactRadius + 1/4) * 0.04 ∧
    |hypot ((⟨1, 0⟩ : Vec2).x - (circleBody 2 (3/4)).pos.x)
        ((⟨1, 0⟩ : Vec2).y - (circleBody 2 (3/4)).pos.y) -
      ((circleBody 2 (3/4)).contactRadius + 1/4)| ≤
        ((circleBody 2 (3/4)).contactRadius + 1/4) * 0.04) :=
  ⟨rfl, rfl, rfl, third_circle_hc,
    third_circle_spec
      ⟨[circleBody 0 (3/4), circleBody 2 (3/4)], 7, false, 4, 4⟩
      (circleBody 0 (3/4)) (circleBody 2 (3/4)) 0 (1/4) (1/4)
      (circleVerts (1/4)) 5 ⟨1, 0⟩ rfl rfl rfl third_circle_hc⟩

/-- Squared distance from the first tangent candidate to the first
circle center. -/
theorem tangent_sq_a1 (px py dx dy D RA aL H : ℝ) (hd0 : D ≠ 0)
    (hD2 : D ^ 2 = dx ^ 2 + dy ^ 2) (hH2 : H ^ 2 = RA ^ 2 - aL ^ 2) :
    (px + dx / D * aL - dy / D * H - px) ^ 2 +
      (py + dy / D * aL + dx / D * H - py) ^ 2 = RA ^ 2 := by
  field_simp
  linear_combination D ^ 2 * hH2 - (aL ^ 2 + H ^ 2) * hD2

/-- Squared distance from the second tangent candidate to the first
circle center. -/
theorem tangent_sq_a2 (px py dx dy D RA aL H : ℝ) (hd0 : D ≠ 0)
    (hD2 : D ^ 2 = dx ^ 2 + dy ^ 2) (hH2 : H ^ 2 = RA ^ 2 - aL ^ 2) :
    (px + dx / D * aL + dy / D * H - px) ^ 2 +
      (py + dy / D * aL - dx / D * H - py) ^ 2 = RA ^ 2 := by
  field_simp
  linear_combination D ^ 2 * hH2 - (aL ^ 2 + H ^ 2) * hD2

/-- Squared distance from the first tangent candidate to the second
circle center. -/
theorem tangent_sq_b1 (px py dx dy D RA RB aL H : ℝ) (hd0 : D ≠ 0)
    (hD2 : D ^ 2 = dx ^ 2 + dy ^ 2) (hH2 : H ^ 2 = RA ^ 2 - aL ^ 2)
    (haL : aL * (2 * D) = RA * RA - RB * RB + D * D) :
    (px + dx / D * aL - dy / D * H - (px + dx)) ^ 2 +
      (py + dy / D * aL + dx / D * H - (py + dy)) ^ 2 = RB ^ 2 := by
  field_simp
  linear_combination D ^ 2 * hH2 - D ^ 2 * haL +
    (-((aL - D) ^ 2 + H ^ 2)) * hD2

/-- Squared distance from the second tangent candidate to the second
circle center. -/
theorem tangent_sq_b2 (px py dx dy D RA RB aL H : ℝ) (hd0 : D ≠ 0)
    (hD2 : D ^ 2 = dx ^ 2 + dy ^ 2) (hH2 : H ^ 2 = RA ^ 2 - aL ^ 2)
    (haL : aL * (2 * D) = RA * RA - RB * RB + D * D) :
    (px + dx / D * aL + dy / D * H - (px + dx)) ^ 2 +
      (py + dy / D * aL - dx / D * H - (py + dy)) ^ 2 = RB ^ 2 := by
  field_simp
  linear_combination D ^ 2 * hH2 - D ^ 2 * haL +
    (-((aL - D) ^ 2 + H ^ 2)) * hD2



/-- The special-case candidate loop only returns one of its inputs. -/
theorem firstTangentCandidate_mem (a b : Body) (r3 bX bY : ℝ)
    (cs : List Vec2) (c : Vec2)
    (h : firstTangentCandidate a b r3 bX bY cs = some c) : c ∈ cs := by
  induction cs with
  | nil => exact absurd h (by simp [firstTangentCandidate])
  | cons p rest ih =>
    rw [firstTangentCandidate] at h
    dsimp only at h
    split_ifs at h
    · exact List.mem_cons_of_mem p (ih h)
    · exact List.mem_cons_of_mem p (ih h)
    · have hpc : p = c := by simpa using h
      subst hpc
      exact List.mem_cons_self p rest

/-- A point produced by the third-circle special case is exactly
tangent to both existing circles: the construction places it at
distance `|r1 + r3|` from circle 1 and `|r2 + r3|` from circle 2. -/
theorem thirdCirclePoint_tangent (a b : Body) (r3 bX bY : ℝ) (c : Vec2)
    (h : thirdCirclePoint a b r3 bX bY = some c) :
    hypot (c.x - a.pos.x) (c.y - a.pos.y) = |a.contactRadius + r3| ∧
    hypot (c.x - b.pos.x) (c.y - b.pos.y) = |b.contactRadius + r3| := by
  unfold thirdCirclePoint at h
  dsimp only at h
  split_ifs at h with h1 h2 h3
  have hmem := firstTangentCandidate_mem a b r3 bX bY _ c h
  unfold thirdCircleCandidates at hmem
  dsimp only at hmem
  set dx := b.pos.x - a.pos.x with hdx
  set dy := b.pos.y - a.pos.y with hdy
  set D := hypot dx dy with hDdef
  set RA := a.contactRadius + r3 with hRA
  set RB := b.contactRadius + r3 with hRB
  set aL := (RA * RA - RB * RB + D * D) / (2 * D) with haLdef
  set H := Real.sqrt (RA * RA - aL * aL) with hHdef
  have hd0 : D ≠ 0 := ne_of_gt (lt_trans (by norm_num) h1)
  have hD2 : D ^ 2 = dx ^ 2 + dy ^ 2 := by
    rw [hDdef]
    unfold hypot
    exact Real.sq_sqrt (by positivity)
  have hH2 : H ^ 2 = RA ^ 2 - aL ^ 2 := by
    rw [hHdef]
    rw [Real.sq_sqrt h3]
    ring
  have haL : aL * (2 * D) = RA * RA - RB * RB + D * D := by
    rw [haLdef]
    field_simp
  have hbx : b.pos.x = a.pos.x + dx := by rw [hdx]; ring
  have hby : b.pos.y = a.pos.y + dy := by rw [hdy]; ring
  rcases (by simpa using hmem :
      c = (⟨a.pos.x + dx / D * aL - dy / D * H,
        a.pos.y + dy / D * aL + dx / D * H⟩ : Vec2) ∨
      c = (⟨a.pos.x + dx / D * aL + dy / D * H,
        a.pos.y + dy / D * aL - dx / D * H⟩ : Vec2)) with hc | hc <;>
    subst hc <;> refine ⟨?_, ?_⟩
  · show hypot (a.pos.x + dx / D * aL - dy / D * H - a.pos.x)
      (a.pos.y + dy / D * aL + dx / D * H - a.pos.y) = |RA|
    unfold hypot
    rw [tangent_sq_a1 a.pos.x a.pos.y dx dy D RA aL H hd0 hD2 hH2]
    exact Real.sqrt_sq_eq_abs RA
  · show hypot (a.pos.x + dx / D * aL - dy / D * H - b.pos.x)
      (a.pos.y + dy / D * aL + dx / D * H - b.pos.y) = |RB|
    unfold hypot
    rw [hbx, hby]
    rw [tangent_sq_b1 a.pos.x a.pos.y dx dy D RA RB aL H hd0 hD2 hH2 haL]
    exact Real.sqrt_sq_eq_abs RB
  · show hypot (a.pos.x + dx / D * aL + dy / D * H - a.pos.x)
      (a.pos.y + dy / D * aL - dx / D * H - a.pos.y) = |RA|
    unfold hypot
    rw [tangent_sq_a2 a.pos.x a.pos.y dx dy D RA aL H hd0 hD2 hH2]
    exact Real.sqrt_sq_eq_abs RA
  · show hypot (a.pos.x + dx / D * aL + dy / D * H - b.pos.x)
      (a.pos.y + dy / D * aL - dx / D * H - b.pos.y) = |RB|
    unfold hypot
    rw [hbx, hby]
    rw [tangent_sq_b2 a.pos.x a.pos.y dx dy D RA RB aL H hd0 hD2 hH2 haL]
    exact Real.sqrt_sq_eq_abs RB



/-- A successful `evaluateCandidate` scores the given center and
implies that no existing body fired its rejection test. -/
theorem evaluateCandidate_not_rejected (bodies : List Body) (bX bY : ℝ)
    (lv : List Vec2) (rot : ℝ) (ty : ShapeType) (cr x y : ℝ)
    (cand : Candidate)
    (h : evaluateCandidate bodies bX bY lv rot ty cr x y = some cand) :
    cand.x = x ∧ cand.y = y ∧
    ∀ b ∈ bodies,
      rejectsBody ty cr (transformVerts lv x y rot) x y b = false := by
  unfold evaluateCandidate at h
  dsimp only at h
  split_ifs at h with h1 h2
  have hc : (⟨x, y, contactsOf bodies cr x y,
      |minGapOf bodies cr x y - 0.0003| +
        minCenterDistOf bodies x y * 0.02⟩ : Candidate) = cand := by
    simpa using h
  refine ⟨by rw [← hc], by rw [← hc], ?_⟩
  intro b hb
  refine Bool.eq_false_iff.mpr fun hbt => h2 ?_
  exact List.any_eq_true.mpr ⟨b, hb, hbt⟩

/-- Membership in the tier-selection conditional comes from one of the
three tiers. -/
theorem mem_ite_lists (c : Candidate) (A B : Prop) [Decidable A]
    [Decidable B] (t1 t2 t3 : List Candidate)
    (h : c ∈ if A then (if B then t3 else t2) else t1) :
    c ∈ t1 ∨ c ∈ t2 ∨ c ∈ t3 := by
  split_ifs at h
  · exact Or.inr (Or.inr h)
  · exact Or.inr (Or.inl h)
  · exact Or.inl h

/-- Every tier-1 candidate came out of `evaluateCandidate`. -/
theorem tier1_eval (bodies : List Body) (bX bY : ℝ) (lv : List Vec2)
    (rot : ℝ) (ty : ShapeType) (cr : ℝ) (c : Candidate)
    (h : c ∈ tier1 bodies bX bY lv rot ty cr) :
    ∃ x y, evaluateCandidate bodies bX bY lv rot ty cr x y = some c := by
  unfold tier1 at h
  split_ifs at h
  · rw [List.mem_flatMap] at h
    obtain ⟨p, _, hm⟩ := h
    rw [List.mem_filterMap] at hm
    obtain ⟨v, _, he⟩ := hm
    exact ⟨v.x, v.y, he⟩
  · exact absurd h (List.not_mem_nil c)

/-- Every tier-2 candidate came out of `evaluateCandidate`. -/
theorem tier2_eval (bodies : List Body) (bX bY : ℝ) (lv : List Vec2)
    (rot : ℝ) (ty : ShapeType) (cr : ℝ) (c : Candidate)
    (h : c ∈ tier2 bodies bX bY lv rot ty cr) :
    ∃ x y, evaluateCandidate bodies bX bY lv rot ty cr x y = some c := by
  unfold tier2 at h
  rw [List.mem_flatMap] at h
  obtain ⟨body, _, hm⟩ := h
  rw [List.mem_filterMap] at hm
  obtain ⟨k, _, he⟩ := hm
  dsimp only at he
  exact ⟨_, _, he⟩

/-- Every tier-3 candidate came out of `evaluateCandidate`. -/
theorem tier3_eval (bodies : List Body) (bX bY : ℝ) (lv : List Vec2)
    (rot : ℝ) (ty : ShapeType) (cr : ℝ) (c : Candidate)
    (h : c ∈ tier3 bodies bX bY lv rot ty cr) :
    ∃ x y, evaluateCandidate bodies bX bY lv rot ty cr x y = some c := by
  unfold tier3 at h
  rw [List.mem_flatMap] at h
  obtain ⟨y, _, hm⟩ := h
  rw [List.mem_filterMap] at hm
  obtain ⟨x, _, he⟩ := hm
  exact ⟨x, y, he⟩

/-- A fold whose step keeps the accumulator or adopts the current
element returns the initial accumulator or a list member. -/
theorem foldl_pick_mem (step : Option Candidate → Candidate →
      Option Candidate)
    (hstep : ∀ acc c, step acc c = acc ∨ step acc c = some c)
    (cs : List Candidate) (acc : Option Candidate) (c : Candidate)
    (h : cs.foldl step acc = some c) : acc = some c ∨ c ∈ cs := by
  induction cs generalizing acc with
  | nil => exact Or.inl h
  | cons p rest ih =>
    rw [List.foldl_cons] at h
    rcases ih (step acc p) h with hacc | hmem
    · rcases hstep acc p with he | he
      · exact Or.inl (he ▸ hacc)
      · rw [he] at hacc
        have : p = c := by simpa using hacc
        exact Or.inr (this ▸ List.mem_cons_self p rest)
    · exact Or.inr (List.mem_cons_of_mem p hmem)

/-- The required-contacts selection returns a candidate from its
input list. -/
theorem pickBest_mem (req : ℕ) (cs : List Candidate) (c : Candidate)
    (h : pickBest req cs = some c) : c ∈ cs := by
  unfold pickBest at h
  rcases foldl_pick_mem _ (fun acc d => by
      try dsimp only
      split_ifs
      · exact Or.inl rfl
      · cases acc with
        | none => exact Or.inr rfl
        | some b =>
          try dsimp only
          split_ifs
          · exact Or.inr rfl
          · exact Or.inl rfl) cs none c h with habs | hm
  · exact absurd habs (by simp)
  · exact hm

/-- The fallback selection returns a candidate from its input list. -/
theorem pickFirstMin_mem (cs : List Candidate) (c : Candidate)
    (h : pickFirstMin cs = some c) : c ∈ cs := by
  unfold pickFirstMin at h
  rcases foldl_pick_mem _ (fun acc d => by
      cases acc with
      | none => exact Or.inr rfl
      | some b =>
        try dsimp only
        split_ifs
        · exact Or.inr rfl
        · exact Or.inl rfl) cs none c h with habs | hm
  · exact absurd habs (by simp)
  · exact hm

/-- The combined selection (`pickBest`, falling back to
`pickFirstMin`) returns a candidate from its input list. -/
theorem select_mem (r : ℕ) (t : List Candidate) (best : Candidate)
    (h : (match pickBest r t with
          | some b => some b
          | none => pickFirstMin t) = some best) : best ∈ t := by
  rcases hpb : pickBest r t with _ | picked
  · rw [hpb] at h
    exact pickFirstMin_mem t best h
  · rw [hpb] at h
    have hp : picked = best := by simpa using h
    exact hp ▸ pickBest_mem r t picked hpb

/-- The chosen candidate of the general placement search was produced
by a successful `evaluateCandidate` call. -/
theorem generalPlacePoint_spec (bodies : List Body) (bX bY : ℝ)
    (lv : List Vec2) (rot : ℝ) (ty : ShapeType) (cr : ℝ) (best : Candidate)
    (h : generalPlacePoint bodies bX bY lv rot ty cr = some best) :
    ∃ x y, evaluateCandidate bodies bX bY lv rot ty cr x y = some best := by
  unfold generalPlacePoint at h
  dsimp only at h
  split_ifs at h <;>
    first
      | exact absurd h (by simp)
      | exact tier1_eval bodies bX bY lv rot ty cr best (select_mem _ _ _ h)
      | exact tier2_eval bodies bX bY lv rot ty cr best (select_mem _ _ _ h)
      | exact tier3_eval bodies bX bY lv rot ty cr best (select_mem _ _ _ h)



/-- `hypot` of componentwise differences is symmetric. -/
theorem hypot_sub_comm (u v s t : ℝ) : hypot (u - v) (s - t) = hypot (v - u) (t - s) := by
  unfold hypot
  rw [show (u - v) ^ 2 + (s - t) ^ 2 = (v - u) ^ 2 + (t - s) ^ 2 by ring]

/-- The `3%` tolerance bound holds at exact tangency. -/
theorem abs_ge_tol (R : ℝ) : R - R * 0.03 ≤ |R| := by
  rcases abs_cases R with ⟨he, _⟩ | ⟨he, hneg⟩
  · rw [he]; linarith [abs_nonneg R]
  · rw [he]; linarith

/-- A body that did not fire the rejection test of `evaluateCandidate`
satisfies the pair tolerance against the newly placed body. -/
theorem tolOk_of_not_rejected (a : Body) (ty : ShapeType) (cr x y : ℝ)
    (lv : List Vec2) (rot : ℝ) (nb : Body)
    (h1 : nb.shapeType = ty) (h2 : nb.contactRadius = cr)
    (h3 : nb.pos = ⟨x, y⟩) (h4 : nb.localVerts = lv) (h5 : nb.rot = rot)
    (h : rejectsBody ty cr (transformVerts lv x y rot) x y a = false) :
    placementTolOk a nb := by
  have hw : getWorldVertices nb = transformVerts lv x y rot := by
    unfold getWorldVertices
    rw [h3, h4, h5]
  unfold placementTolOk
  unfold rejectsBody at h
  rw [h1, h2, h3, hw]
  split_ifs at h ⊢ with hcc
  · rw [decide_eq_false_iff_not] at h
    exact le_of_not_lt h
  · rcases hsat : polygonPolygonSAT (getWorldVertices a)
        (transformVerts lv x y rot) with _ | _ | r
    · trivial
    · rw [hsat] at h
      exact absurd h (by simp)
    · rw [hsat] at h
      rw [decide_eq_false_iff_not] at h
      exact le_of_not_lt h

/-- One `placeMesh` success preserves the pairwise placement
tolerance: the first body has no pairs, the special third-circle point
is exactly tangent, and the general search only accepts candidates
every existing body declined to reject. -/
theorem placeMesh_pairwise (st st' : WorldState) (rot br : ℝ)
    (lv : List Vec2) (ty : ShapeType) (cr : ℝ) (ci : ℕ)
    (h : placeMesh st rot br lv ty cr ci = some st')
    (hinv : List.Pairwise placementTolOk st.bodies) :
    List.Pairwise placementTolOk st'.bodies := by
  obtain ⟨p, hp, hst⟩ := placeMesh_eq_some h
  subst hst
  rw [addBodyEntry_bodies, List.pairwise_append]
  refine ⟨hinv, List.pairwise_singleton _ _, ?_⟩
  intro a ha nb hnb
  rw [List.mem_singleton] at hnb
  subst hnb
  unfold placePoint at hp
  split_ifs at hp with hemp
  · rw [List.isEmpty_iff] at hemp
    rw [hemp] at ha
    exact absurd ha (List.not_mem_nil a)
  · rcases hspec : specialPoint st ty cr with _ | c
    · rw [hspec] at hp
      rcases Option.map_eq_some'.mp hp with ⟨best, hgen, hpbest⟩
      obtain ⟨x, y, heval⟩ := generalPlacePoint_spec st.bodies
        st.worldBoundsX st.worldBoundsY lv rot ty cr best hgen
      obtain ⟨hbx, hby, hrej⟩ := evaluateCandidate_not_rejected st.bodies
        st.worldBoundsX st.worldBoundsY lv rot ty cr x y best heval
      refine tolOk_of_not_rejected a ty cr x y lv rot _ rfl rfl ?_ rfl rfl
        (hrej a ha)
      show p = (⟨x, y⟩ : Vec2)
      rw [← hpbest, hbx, hby]
    · rw [hspec] at hp
      have hcp : c = p := by simpa using hp
      subst hcp
      unfold specialPoint at hspec
      rcases hbl : st.bodies with _ | ⟨a0, t⟩
      · rw [hbl] at hspec
        exact absurd hspec (by simp)
      rcases t with _ | ⟨b0, t2⟩
      · rw [hbl] at hspec
        exact absurd hspec (by simp)
      rcases t2 with _ | ⟨z, t3⟩
      · rw [hbl] at hspec
        dsimp only at hspec
        split_ifs at hspec with hg
        obtain ⟨hty, ha0, hb0⟩ := hg
        obtain ⟨hta, htb⟩ := thirdCirclePoint_tangent a0 b0 cr
          st.worldBoundsX st.worldBoundsY c hspec
        rw [hbl] at ha
        unfold placementTolOk
        rw [if_pos ?_]
        · rcases List.mem_cons.mp ha with haa | ha2
          · subst haa
            show a.contactRadius +
                (mkPlacedBody c rot lv br cr ty ci).contactRadius -
                (a.contactRadius +
                  (mkPlacedBody c rot lv br cr ty ci).contactRadius) *
                  0.03 ≤ _
            show a.contactRadius + cr - (a.contactRadius + cr) * 0.03 ≤
              hypot (a.pos.x - c.x) (a.pos.y - c.y)
            rw [hypot_sub_comm, hta]
            exact abs_ge_tol _
          · rcases List.mem_cons.mp ha2 with hab | habs
            · subst hab
              show a.contactRadius + cr - (a.contactRadius + cr) * 0.03 ≤
                hypot (a.pos.x - c.x) (a.pos.y - c.y)
              rw [hypot_sub_comm, htb]
              exact abs_ge_tol _
            · exact absurd habs (List.not_mem_nil a)
        · constructor
          · show ty = ShapeType.circle
            exact hty
          · rcases List.mem_cons.mp ha with haa | ha2
            · subst haa; exact ha0
            · rcases List.mem_cons.mp ha2 with hab | habs
              · subst hab; exact hb0
              · exact absurd habs (List.not_mem_nil a)
      · rw [hbl] at hspec
        exact absurd hspec (by simp)



/-- The rotation-retry loop preserves the pairwise placement
tolerance. -/
theorem tryAttempts_pairwise (st : WorldState) (br : ℝ) (lv : List Vec2)
    (ty : ShapeType) (cr : ℝ) (ci : ℕ) :
    ∀ (n rs : ℕ), List.Pairwise placementTolOk st.bodies →
      List.Pairwise placementTolOk
        (tryAttempts st br lv ty cr ci n rs).2.bodies := by
  intro n
  induction n with
  | zero => intro rs h; exact h
  | succ m ih =>
    intro rs h
    rw [tryAttempts]
    try dsimp only
    rcases hpm : placeMesh st ((randR rs).1 * Real.pi * 2) br lv ty cr ci with
      _ | st'
    · exact ih (randR rs).2 h
    · exact placeMesh_pairwise st st' _ br lv ty cr ci hpm h

/-- `addCircle` preserves the pairwise placement tolerance. -/
theorem addCircle_pairwise (radius : ℝ) (s : BuildState)
    (h : List.Pairwise placementTolOk s.st.bodies) :
    List.Pairwise placementTolOk ((addCircle radius s).st.bodies) := by
  unfold addCircle
  try dsimp only
  rcases hpm : placeMesh s.st 0 (radius * 1) (circleVerts (radius * 1))
      ShapeType.circle (radius * 1)
      (takePresetIndex s.rs s.avail).1 with _ | st'
  · exact h
  · exact placeMesh_pairwise s.st st' _ _ _ _ _ _ hpm h

/-- `addRect` preserves the pairwise placement tolerance. -/
theorem addRect_pairwise (width height : ℝ) (s : BuildState)
    (h : List.Pairwise placementTolOk s.st.bodies) :
    List.Pairwise placementTolOk ((addRect width height s).st.bodies) := by
  unfold addRect
  try dsimp only
  exact tryAttempts_pairwise s.st _ _ _ _ _ 12 _ h

/-- `addTriangle` preserves the pairwise placement tolerance. -/
theorem addTriangle_pairwise (size : ℝ) (s : BuildState)
    (h : List.Pairwise placementTolOk s.st.bodies) :
    List.Pairwise placementTolOk ((addTriangle size s).st.bodies) := by
  unfold addTriangle
  try dsimp only
  exact tryAttempts_pairwise s.st _ _ _ _ _ 10 _ h

/-- Finalization only touches velocity, spin and speed scale: the
geometric fields of a body survive unchanged. -/
theorem finalizeBody_fields (rs : ℕ) (b : Body) :
    (finalizeBody rs b).2.pos = b.pos ∧ (finalizeBody rs b).2.rot = b.rot ∧
    (finalizeBody rs b).2.localVerts = b.localVerts ∧
    (finalizeBody rs b).2.shapeType = b.shapeType ∧
    (finalizeBody rs b).2.contactRadius = b.contactRadius := by
  unfold finalizeBody
  try dsimp only
  split_ifs <;> exact ⟨rfl, rfl, rfl, rfl, rfl⟩

/-- The pair tolerance only depends on the geometric fields. -/
theorem placementTolOk_of_eq (a a' x x' : Body)
    (ha1 : a'.pos = a.pos) (ha2 : a'.rot = a.rot)
    (ha3 : a'.localVerts = a.localVerts) (ha4 : a'.shapeType = a.shapeType)
    (ha5 : a'.contactRadius = a.contactRadius)
    (hx1 : x'.pos = x.pos) (hx2 : x'.rot = x.rot)
    (hx3 : x'.localVerts = x.localVerts) (hx4 : x'.shapeType = x.shapeType)
    (hx5 : x'.contactRadius = x.contactRadius)
    (h : placementTolOk a x) : placementTolOk a' x' := by
  have hwa : getWorldVertices a' = getWorldVertices a := by
    unfold getWorldVertices
    rw [ha1, ha2, ha3]
  have hwx : getWorldVertices x' = getWorldVertices x := by
    unfold getWorldVertices
    rw [hx1, hx2, hx3]
  unfold placementTolOk at h ⊢
  rw [ha1, ha4, ha5, hx1, hx4, hx5, hwa, hwx]
  exact h

/-- Every finalized body descends from an input body with the same
geometric fields. -/
theorem finalizeList_mem (y' : Body) :
    ∀ (rs : ℕ) (bs : List Body), y' ∈ finalizeList rs bs →
    ∃ y ∈ bs, y'.pos = y.pos ∧ y'.rot = y.rot ∧
      y'.localVerts = y.localVerts ∧ y'.shapeType = y.shapeType ∧
      y'.contactRadius = y.contactRadius := by
  intro rs bs
  induction bs generalizing rs with
  | nil => intro h; exact absurd h (by simp [finalizeList])
  | cons b rest ih =>
    intro h
    rw [finalizeList] at h
    rcases List.mem_cons.mp h with hy | hy
    · exact ⟨b, List.mem_cons_self b rest, hy ▸ finalizeBody_fields rs b⟩
    · obtain ⟨y, hmem, hf⟩ := ih _ hy
      exact ⟨y, List.mem_cons_of_mem b hmem, hf⟩

/-- The finalization pass preserves the pairwise placement
tolerance. -/
theorem pairwise_finalizeList :
    ∀ (rs : ℕ) (bs : List Body), List.Pairwise placementTolOk bs →
    List.Pairwise placementTolOk (finalizeList rs bs) := by
  intro rs bs
  induction bs generalizing rs with
  | nil => intro _; exact List.Pairwise.nil
  | cons b rest ih =>
    intro h
    rcases List.pairwise_cons.mp h with ⟨hb, hrest⟩
    rw [finalizeList]
    refine List.pairwise_cons.mpr ⟨?_, ih _ hrest⟩
    intro y' hy'
    obtain ⟨y, hmem, h1, h2, h3, h4, h5⟩ := finalizeList_mem y' _ rest hy'
    obtain ⟨g1, g2, g3, g4, g5⟩ := finalizeBody_fields rs b
    exact placementTolOk_of_eq b (finalizeBody rs b).2 y y'
      g1 g2 g3 g4 g5 h1 h2 h3 h4 h5 (hb y hmem)

/-- C2: after the whole placement phase (a full rebuild via
`regenerateComposition`), every pair of placed bodies respects the
configured overlap tolerance: circle–circle pairs are kept at center
distance at least `97%` of the sum of their contact radii, and every
other pair either has no SAT overlap at all or a SAT penetration depth
of at most `0.002`. -/
theorem placement_overlap_tolerance (st : WorldState) (seed : String) :
    List.Pairwise placementTolOk (regenerateComposition st seed).bodies := by
  unfold regenerateComposition createShapes
  dsimp only
  apply pairwise_finalizeList
  apply addRect_pairwise
  apply addCircle_pairwise
  apply addTriangle_pairwise
  apply addRect_pairwise
  apply addRect_pairwise
  apply addCircle_pairwise
  apply addRect_pairwise
  apply addTriangle_pairwise
  apply addRect_pairwise
  apply addCircle_pairwise
  exact List.Pairwise.nil

end

end Cassette
